import Mathlib

/-!
# Verification of the `exx` language front end

A shallow embedding, in Lean 4, of the lexer and parser of the `exx`
repository (`src/position.rs`, `src/span.rs`, `src/token.rs`,
`src/tokentype.rs`, `src/lexer.rs`, `src/parser.rs`, `src/ast.rs`), together
with theorems settling the specification claims about them.

The lexer's character stream (`Peekable<Chars>`) is embedded as a
`List Char`, its cursor as an explicit `Position` value, and the `Iterator`
as a step function `Lexer.next : List Char → Position → Option (Token ×
List Char × Position)` iterated with fuel.  The parser's token buffer and
index cursor are embedded as a `List ParserToken` plus a `Nat`, and every
parser method becomes a function in a result monad `PM` whose outcomes
distinguish success, a `ParseError`, an out-of-bounds vector index (a Rust
panic), and exhaustion of the recursion fuel (an artifact of the
embedding, used in place of Rust's unbounded recursion).

Note on the snapshot: the repository files are not all at the same
revision and do not name a single consistent set of constructors
(`lexer.rs` constructs `TokenType::BitwiseAnd/BitwiseOr/BitwiseXor` and a
field-style `DiagnosticError`, `tokentype.rs` declares
`Ampersand/Pipe/Caret` and no `Boolean/Comma/Dot/Eof`, `parser.rs`
matches on `TokenType::Boolean/Dot/Comma/Eof` and builds
`Stmt::Return`/`Expr::StructLiteral` which `ast.rs` does not declare).
The embedding therefore declares the union of the variants the source
files reference, marking the origin of each group, so that every file's
code can be embedded exactly as written.
-/

namespace Exx

/-- `Position` (src/position.rs): line, column, absolute byte offset. -/
structure Position where
  line : Nat
  column : Nat
  absolute : Nat
deriving Repr, DecidableEq

/-- Modelled from the spec: `src/span.rs` is absent from the snapshot (it is
declared in `main.rs` as `mod span;` and used everywhere as
`Span::new(start, end)`).  Per spec §3, a Span is a pair of positions
`{start, end}`.  The source field `end` is a Lean keyword and is named
`stop` here. -/
structure Span where
  start : Position
  stop : Position
deriving Repr, DecidableEq

/-- `Span::new` (modelled from the spec, see `Span`). -/
def Span.new (s e : Position) : Span := ⟨s, e⟩

/-- `TokenType` (src/tokentype.rs).  The final three groups of variants are
referenced by `lexer.rs` (`BitwiseAnd/BitwiseOr/BitwiseXor`) and by the
`From<Token>` adapter in `parser.rs` (`Boolean/Dot/Comma/Eof`) but are
absent from `tokentype.rs` itself; they are included so that those files
can be embedded as written.  The lexer embedded below never produces
them except the three bitwise ones. -/
inductive TokenType where
  | Number (s : String)
  | Keyword (s : String)
  | Identifier (s : String)
  | String (s : String)
  | Semicolon
  | Colon
  | Arrow
  | LeftParen
  | RightParen
  | LeftBracket
  | RightBracket
  | LeftBrace
  | RightBrace
  | Equal
  | EqualEqual
  | NotEqual
  | Less
  | LessEqual
  | Greater
  | GreaterEqual
  | Plus
  | PlusEqual
  | Minus
  | MinusEqual
  | Star
  | Slash
  | Bang
  | Modulo
  | And
  | Or
  | Ampersand
  | Pipe
  | Caret
  | Error (s : String)
  -- referenced by lexer.rs but not declared in tokentype.rs:
  | BitwiseAnd
  | BitwiseOr
  | BitwiseXor
  -- referenced by the From<Token> adapter in parser.rs but not declared in
  -- tokentype.rs:
  | Boolean (b : Bool)
  | Dot
  | Comma
  | Eof
deriving Repr, DecidableEq

/-- `ErrorKind` (src/token.rs): the closed set of lexical error kinds.  Note
that the snapshot's `token.rs` declares six variants; there is no
`UnterminatedEscapeSequence` variant (the repository's own test
`test_error_kind_messages` nevertheless uses one and expects code
"E006" for it). -/
inductive ErrorKind where
  | UnexpectedCharacter (c : Char)
  | InvalidDecimal
  | InvalidOperator (op : String)
  | InvalidEscape (c : Char)
  | UnterminatedString
  | UnterminatedBlockComment
deriving Repr, DecidableEq

/-- `ErrorKind::code` (src/token.rs). -/
def ErrorKind.code : ErrorKind → String
  | .UnexpectedCharacter _ => "E000"
  | .InvalidDecimal => "E001"
  | .InvalidOperator _ => "E002"
  | .InvalidEscape _ => "E003"
  | .UnterminatedString => "E004"
  | .UnterminatedBlockComment => "E005"

/-- `ErrorKind::message` (src/token.rs). -/
def ErrorKind.message : ErrorKind → String
  | .UnexpectedCharacter c => "Unexpected character: '" ++ c.toString ++ "'"
  | .InvalidDecimal => "Invalid decimal number"
  | .InvalidOperator op => "Invalid operator: " ++ op
  | .InvalidEscape c => "Invalid escape sequence: \\" ++ c.toString
  | .UnterminatedString => "Unterminated string literal"
  | .UnterminatedBlockComment => "Unterminated block comment"

/-- `ErrorKind::label` (src/token.rs). -/
def ErrorKind.label : ErrorKind → String
  | .UnexpectedCharacter _ => "Unexpected character"
  | .InvalidDecimal => "Expected digits after decimal point"
  | .InvalidOperator _ => "Invalid operator"
  | .InvalidEscape _ => "Invalid escape sequence"
  | .UnterminatedString => "Unterminated string"
  | .UnterminatedBlockComment => "Unterminated block comment"

/-- `DiagnosticError` as constructed throughout `lexer.rs`: record literals
with fields `error_code`, `message`, `label`, `span` (e.g. lexer.rs lines
91-96).  (The snapshot's `token.rs` instead declares a two-field
`{kind, span}` record; the lexer file does not use that shape.) -/
structure DiagnosticError where
  error_code : Option String
  message : String
  label : Option String
  span : Span
deriving Repr, DecidableEq

/-- `Token` (src/token.rs): a token type, its span, and its collected
diagnostics. -/
structure Token where
  token_type : TokenType
  span : Span
  errors : List DiagnosticError
deriving Repr, DecidableEq

/-- Rust `char::len_utf8`: the number of bytes of the UTF-8 encoding of a
character (used by `Lexer::advance` to move `absolute`). -/
def lenUtf8 (c : Char) : Nat :=
  if c.toNat < 0x80 then 1
  else if c.toNat < 0x800 then 2
  else if c.toNat < 0x10000 then 3
  else 4

/-- Rust `char::is_whitespace`: the Unicode `White_Space` property (used by
`Lexer::skip_whitespace` and the whitespace guard arm of `Lexer::next`). -/
def isRustWhitespace (c : Char) : Bool :=
  let n := c.toNat
  (0x09 ≤ n && n ≤ 0x0D) || n == 0x20 || n == 0x85 || n == 0xA0 ||
    n == 0x1680 || (0x2000 ≤ n && n ≤ 0x200A) || n == 0x2028 ||
    n == 0x2029 || n == 0x202F || n == 0x205F || n == 0x3000

namespace Lexer

/-- `Lexer::advance` (lexer.rs 26-41), restricted to the position update for
one consumed character `c`: `absolute` grows by the UTF-8 length of `c`; a
newline bumps `line` and resets `column`, any other character bumps
`column`.  (The `Option`/peek plumbing of `advance` is realized by the
explicit list pattern matching of the callers below.) -/
def advancePos (p : Position) (c : Char) : Position :=
  let p1 : Position := { p with absolute := p.absolute + lenUtf8 c }
  if c = '\n' then { p1 with line := p1.line + 1, column := 1 }
  else { p1 with column := p1.column + 1 }

/-- `Lexer::skip_whitespace` (lexer.rs 47-55): advance while the peeked
character is whitespace. -/
def skip_whitespace : List Char → Position → List Char × Position
  | [], p => ([], p)
  | c :: cs, p =>
    if isRustWhitespace c then skip_whitespace cs (advancePos p c)
    else (c :: cs, p)

/-- The first `while` loop of `Lexer::read_number` (lexer.rs 60-67): consume
a run of ASCII digits into the accumulator. -/
def scanDigits (number : String) : List Char → Position → String × List Char × Position
  | [], p => (number, [], p)
  | c :: cs, p =>
    if c.isDigit then scanDigits (number.push c) cs (advancePos p c)
    else (number, c :: cs, p)

/-- The second `while` loop of `Lexer::read_number` (lexer.rs 75-83):
consume digits, recording in `has_digit` whether at least one was seen. -/
def scanDigitsFlag (number : String) (has_digit : Bool) :
    List Char → Position → String × Bool × List Char × Position
  | [], p => (number, has_digit, [], p)
  | c :: cs, p =>
    if c.isDigit then scanDigitsFlag (number.push c) true cs (advancePos p c)
    else (number, has_digit, c :: cs, p)

/-- `Lexer::read_number` (lexer.rs 57-106).  `first_char` has already been
consumed by the caller (`next`), `p` is the cursor after it, and
`start_pos` the cursor before it. -/
def read_number (first_char : Char) (start_pos : Position)
    (cs : List Char) (p : Position) : Token × List Char × Position :=
  let (number, cs, p) := scanDigits (String.mk [first_char]) cs p
  match cs with
  | '.' :: cs1 =>
    -- self.peek() == Some('.'): consume '.'
    let p := advancePos p '.'
    let number := number.push '.'
    let (number, has_digit, cs2, p2) := scanDigitsFlag number false cs1 p
    if !has_digit then
      let span := Span.new start_pos p2
      ({ token_type := .Error "Invalid decimal number",
         span := span,
         errors := [{ error_code := some "E001",
                      message := "Invalid decimal number",
                      label := some "Expected digits after decimal point",
                      span := span }] }, cs2, p2)
    else
      ({ token_type := .Number number, span := Span.new start_pos p2,
         errors := [] }, cs2, p2)
  | _ =>
    ({ token_type := .Number number, span := Span.new start_pos p,
       errors := [] }, cs, p)

/-- The `while` loop of `Lexer::read_identifier` (lexer.rs 110-117): consume
a run of ASCII alphanumerics / underscores. -/
def scanIdent (identifier : String) : List Char → Position → String × List Char × Position
  | [], p => (identifier, [], p)
  | c :: cs, p =>
    if c.isAlphanum || c = '_' then scanIdent (identifier.push c) cs (advancePos p c)
    else (identifier, c :: cs, p)

/-- `Lexer::read_identifier` (lexer.rs 108-130).  Keyword membership is the
fixed set matched at lines 119-123. -/
def read_identifier (first_char : Char) (start_pos : Position)
    (cs : List Char) (p : Position) : Token × List Char × Position :=
  let (identifier, cs, p) := scanIdent (String.mk [first_char]) cs p
  let token_type :=
    match identifier with
    | "let" | "var" | "type" | "if" | "else" | "return" => TokenType.Keyword identifier
    | _ => TokenType.Identifier identifier
  ({ token_type := token_type, span := Span.new start_pos p, errors := [] }, cs, p)

/-- `Lexer::read_operator` (lexer.rs 132-216): a one- or two-character
operator decided by a single `peek`.  The caller has peeked `first_char`
(still unconsumed, `p` is the cursor before it); the source's
`self.advance().unwrap()` is the `advancePos` on the first line. -/
def read_operator (start_pos : Position) (first_char : Char)
    (cs : List Char) (p : Position) : Token × List Char × Position :=
  let p := advancePos p first_char
  let (token_type, cs, p) :
      TokenType × List Char × Position :=
    match first_char, cs with
    | '=', '=' :: cs1 => (.EqualEqual, cs1, advancePos p '=')
    | '=', _ => (.Equal, cs, p)
    | '!', '=' :: cs1 => (.NotEqual, cs1, advancePos p '=')
    | '!', _ => (.Bang, cs, p)
    | '<', '=' :: cs1 => (.LessEqual, cs1, advancePos p '=')
    | '<', _ => (.Less, cs, p)
    | '>', '=' :: cs1 => (.GreaterEqual, cs1, advancePos p '=')
    | '>', _ => (.Greater, cs, p)
    | '+', '=' :: cs1 => (.PlusEqual, cs1, advancePos p '=')
    | '+', _ => (.Plus, cs, p)
    | '-', '>' :: cs1 => (.Arrow, cs1, advancePos p '>')
    | '-', '=' :: cs1 => (.MinusEqual, cs1, advancePos p '=')
    | '-', _ => (.Minus, cs, p)
    | '*', _ => (.Star, cs, p)
    | '/', _ => (.Slash, cs, p)
    | '%', _ => (.Modulo, cs, p)
    | '&', '&' :: cs1 => (.And, cs1, advancePos p '&')
    | '&', _ => (.BitwiseAnd, cs, p)
    | '|', '|' :: cs1 => (.Or, cs1, advancePos p '|')
    | '|', _ => (.BitwiseOr, cs, p)
    | '^', _ => (.BitwiseXor, cs, p)
    | c, _ => (.Error ("Invalid operator: " ++ c.toString), cs, p)
  ({ token_type := token_type, span := Span.new start_pos p, errors := [] }, cs, p)

/-- `Lexer::read_string` (lexer.rs 218-283).  The opening quote has been
consumed by `next`; `string` and `errors` are the running accumulator and
diagnostics (both empty at the initial call).  The two `break`/exhaustion
paths fall through to the unterminated-string diagnostic of lines
271-282, inlined at both exits here. -/
def read_string (start_pos : Position) (string : String)
    (errors : List DiagnosticError) :
    List Char → Position → Token × List Char × Position
  | [], p =>
    -- `while let` exhausted: unterminated string literal (lexer.rs 271-282)
    let errors := errors ++
      [{ error_code := some "E004", message := "Unterminated string literal",
         label := some "Unterminated string", span := Span.new start_pos p }]
    ({ token_type := .Error "String literal error", span := Span.new start_pos p,
       errors := errors }, [], p)
  | c :: cs, p =>
    let p1 := advancePos p c
    match c with
    | '"' =>
      ({ token_type := .String string, span := Span.new start_pos p1,
         errors := errors }, cs, p1)
    | '\\' =>
      let escape_start := p1
      match cs with
      | [] =>
        -- `self.advance()` returned None after the backslash:
        -- UnterminatedEscapeSequence diagnostic, then break to the
        -- unterminated-string exit.
        let errors := errors ++
          [{ error_code := some "E003", message := "Unterminated escape sequence",
             label := some "Unterminated escape sequence",
             span := Span.new escape_start p1 }]
        let errors := errors ++
          [{ error_code := some "E004", message := "Unterminated string literal",
             label := some "Unterminated string", span := Span.new start_pos p1 }]
        ({ token_type := .Error "String literal error", span := Span.new start_pos p1,
           errors := errors }, [], p1)
      | escaped :: cs2 =>
        let p2 := advancePos p1 escaped
        match escaped with
        | 'n' => read_string start_pos (string.push '\n') errors cs2 p2
        | 't' => read_string start_pos (string.push '\t') errors cs2 p2
        | 'r' => read_string start_pos (string.push '\r') errors cs2 p2
        | '\\' => read_string start_pos (string.push '\\') errors cs2 p2
        | '"' => read_string start_pos (string.push '"') errors cs2 p2
        | _ =>
          let errors := errors ++
            [{ error_code := some "E003",
               message := "Invalid escape sequence: \\" ++ escaped.toString,
               label := some "Invalid escape sequence",
               span := Span.new escape_start p2 }]
          read_string start_pos (string.push escaped) errors cs2 p2
    | _ => read_string start_pos (string.push c) errors cs p1

/-- `<Lexer as Iterator>::next` (lexer.rs 286-347): skip whitespace, then
dispatch on the peeked character.  Returns `none` when the input is
exhausted.  The list of operator-lead characters is the arm of line 308. -/
def next (cs : List Char) (p : Position) : Option (Token × List Char × Position) :=
  let (cs, p) := skip_whitespace cs p
  let start_pos := p
  match cs with
  | [] => none
  | first_char :: rest =>
    if first_char.isDigit then
      -- '0'..='9'
      some (read_number first_char start_pos rest (advancePos p first_char))
    else if first_char.isAlpha || first_char = '_' then
      -- 'a'..='z' | 'A'..='Z' | '_'
      some (read_identifier first_char start_pos rest (advancePos p first_char))
    else if first_char ∈ ['+', '-', '*', '/', '=', '<', '>', '!', '&', '^', '%', '|'] then
      some (read_operator start_pos first_char rest p)
    else if first_char = '"' then
      some (read_string start_pos "" [] rest (advancePos p first_char))
    else if first_char = ';' then
      some ({ token_type := .Semicolon,
              span := Span.new start_pos (advancePos p first_char), errors := [] },
            rest, advancePos p first_char)
    else if isRustWhitespace first_char then
      -- `c if c.is_whitespace() => return self.next()` (lexer.rs 328).
      -- Unreachable: `skip_whitespace` has already removed every leading
      -- whitespace character (`skip_whitespace_head_not_ws` below), and the
      -- source would re-enter `next` without consuming anything.
      none
    else
      let msg := "Unexpected character: '" ++ first_char.toString ++ "'"
      some ({ token_type := .Error msg,
              span := Span.new start_pos (advancePos p first_char),
              errors := [{ error_code := some "E000", message := msg,
                           label := some "Unexpected character",
                           span := Span.new start_pos (advancePos p first_char) }] },
            rest, advancePos p first_char)

/-- Iterating the lexer: collect tokens until `next` returns `none`, with a
step budget (`fuel`); `lex` below always supplies a sufficient budget. -/
def lexFuel : Nat → List Char → Position → List Token
  | 0, _, _ => []
  | fuel + 1, cs, p =>
    match next cs p with
    | none => []
    | some (t, cs1, p1) => t :: lexFuel fuel cs1 p1

/-- The lexer's initial position (lexer.rs 18-22). -/
def initPos : Position := { line := 1, column := 1, absolute := 0 }

/-- `Lexer::new(source).collect::<Vec<Token>>()`: the full token sequence of
an input.  One unit of fuel per input character plus one suffices because
every emitted token consumes at least one character (`next_shrinks`). -/
def lex (source : List Char) : List Token :=
  lexFuel (source.length + 1) source initPos

/-- `lex` on a Lean string literal. -/
def lexStr (s : String) : List Token := lex s.toList

end Lexer

/-! ## The AST (src/ast.rs) -/

/-- `Type` (src/ast.rs 108-115), named `Ty` because `Type` is a Lean
keyword. -/
inductive Ty where
  | Simple (name : String)
  | Function (params : List Ty) (ret : Ty)
  | Generic (name : String) (params : List Ty)
deriving Repr

/-- `Parameter` (src/ast.rs 35-40). -/
structure Parameter where
  name : String
  type_annotation : Option Ty
deriving Repr

/-- `BinaryOp` (src/ast.rs 75-91). -/
inductive BinaryOp where
  | Add | Sub | Mul | Div | Mod
  | EqualEqual | NotEqual | Less | LessEqual | Greater | GreaterEqual
  | And | Or
deriving Repr, DecidableEq

/-- `UnaryOp` (src/ast.rs 93-98). -/
inductive UnaryOp where
  | Negate
  | Not
deriving Repr, DecidableEq

/-- `Literal` (src/ast.rs 100-106).  Rust's `f64` is modelled exactly by
`Rat`; binary64 rounding is not modelled (see `parseF64`) — the numeric
literals evaluated in the claims ("23") are small integers, for which
`f64` is exact. -/
inductive Literal where
  | Number (n : Rat)
  | String (s : String)
  | Boolean (b : Bool)
deriving Repr, DecidableEq

mutual

/-- `Stmt` (src/ast.rs 3-33).  `Return` is constructed by `parser.rs`
line 120 but absent from the snapshot's `ast.rs`; it is included so the
parser can be embedded as written. -/
inductive Stmt where
  | VariableDecl (is_mutable : Bool) (name : String)
      ( type_annotation : Option Ty) (initializer : Option Expr)
  | FunctionDecl (name : String) (params : List Parameter)
      (return_type : Option Ty) (body : List Stmt)
  | ClassDecl (name : String) (fields : List Stmt) (methods : List Stmt)
  | ModuleDecl (name : String) (declarations : List Stmt)
  | Import (name : String)
  | Expression (e : Expr)
  -- constructed by parser.rs (line 120) but not declared in ast.rs:
  | Return (e : Option Expr)

/-- `Expr` (src/ast.rs 42-73).  `StructLiteral` is constructed by
`parser.rs` line 527 but absent from the snapshot's `ast.rs`; it is
included so the parser can be embedded as written. -/
inductive Expr where
  | Binary (left : Expr) (op : BinaryOp) (right : Expr)
  | Unary (op : UnaryOp) (e : Expr)
  | Literal (l : Literal)
  | Identifier (name : String)
  | Grouping (e : Expr)
  | Block (body : List Stmt)
  | PropertyAccess (object : Expr) (name : String)
  | Call (callee : Expr) (arguments : List Expr)
  | Lambda (params : List Parameter) (body : Expr)
  -- constructed by parser.rs (line 527) but not declared in ast.rs:
  | StructLiteral (name : String) (fields : List (String × Expr))

end

/-! ## Parser tokens and the token adapter (src/parser.rs) -/

/-- `TokenKind` (src/parser.rs 4-51).  The source variant `Type` is a Lean
keyword and is written `«Type»`. -/
inductive TokenKind where
  | Let | Var | Fn | Rec | Class | «Type» | Module | Import | Return | If | Else
  | LeftParen | RightParen | LeftBrace | RightBrace
  | Comma | Colon | Semicolon | Arrow | Dot
  | Plus | Minus | Star | Slash | Percent
  | EqualEqual | NotEqual | Less | LessEqual | Greater | GreaterEqual
  | And | Or | Not | Equal
  | Identifier (s : String)
  | Number (s : String)
  | String (s : String)
  | Boolean (b : Bool)
  | Eof
deriving Repr, DecidableEq

/-- `ParserToken` (src/parser.rs 53-56). -/
structure ParserToken where
  kind : TokenKind
deriving Repr, DecidableEq

/-- `impl From<Token> for ParserToken` (src/parser.rs 735-781): the
lexer-token to parser-token adapter.  It reads only `token.token_type`
(span and diagnostics are dropped), and every token type without an
explicit arm — among them `Error(_)` and any `Keyword` other than
let/var/fn/class/return — falls to the sentinel `Identifier("unknown")`.
The source's keyword arms are `match` guards (`Keyword(ref kw) if kw ==
"let"` …), rendered here as the equivalent chain of equality tests. -/
def ParserToken.ofToken (token : Token) : ParserToken :=
  let kind :=
    match token.token_type with
    | .Number n => TokenKind.Number n
    | .String s => TokenKind.String s
    | .Identifier s => TokenKind.Identifier s
    | .Boolean b => TokenKind.Boolean b
    | .Keyword kw =>
      if kw = "let" then .Let
      else if kw = "var" then .Var
      else if kw = "fn" then .Fn
      else if kw = "class" then .Class
      else if kw = "return" then .Return
      else .Identifier "unknown"
    | .Semicolon => .Semicolon
    | .Colon => .Colon
    | .Arrow => .Arrow
    | .LeftParen => .LeftParen
    | .RightParen => .RightParen
    | .LeftBrace => .LeftBrace
    | .RightBrace => .RightBrace
    | .Plus => .Plus
    | .Minus => .Minus
    | .Star => .Star
    | .Slash => .Slash
    | .Modulo => .Percent
    | .EqualEqual => .EqualEqual
    | .NotEqual => .NotEqual
    | .Less => .Less
    | .LessEqual => .LessEqual
    | .Greater => .Greater
    | .GreaterEqual => .GreaterEqual
    | .And => .And
    | .Or => .Or
    | .Bang => .Not
    | .Equal => .Equal
    | .Dot => .Dot
    | .Comma => .Comma
    | .Eof => .Eof
    | _ => .Identifier "unknown"
  { kind := kind }

/-- Rust's derived `Debug` formatting of a `TokenKind`, used by the
"Unexpected token" message of `Parser::primary` (parser.rs 557). -/
def dbgKind : TokenKind → String
  | .Let => "Let" | .Var => "Var" | .Fn => "Fn" | .Rec => "Rec"
  | .Class => "Class" | .«Type» => "Type" | .Module => "Module"
  | .Import => "Import" | .Return => "Return" | .If => "If" | .Else => "Else"
  | .LeftParen => "LeftParen" | .RightParen => "RightParen"
  | .LeftBrace => "LeftBrace" | .RightBrace => "RightBrace"
  | .Comma => "Comma" | .Colon => "Colon" | .Semicolon => "Semicolon"
  | .Arrow => "Arrow" | .Dot => "Dot"
  | .Plus => "Plus" | .Minus => "Minus" | .Star => "Star" | .Slash => "Slash"
  | .Percent => "Percent" | .EqualEqual => "EqualEqual"
  | .NotEqual => "NotEqual" | .Less => "Less" | .LessEqual => "LessEqual"
  | .Greater => "Greater" | .GreaterEqual => "GreaterEqual"
  | .And => "And" | .Or => "Or" | .Not => "Not" | .Equal => "Equal"
  | .Identifier s => "Identifier(\"" ++ s ++ "\")"
  | .Number s => "Number(\"" ++ s ++ "\")"
  | .String s => "String(\"" ++ s ++ "\")"
  | .Boolean b => if b then "Boolean(true)" else "Boolean(false)"
  | .Eof => "Eof"

/-- Counts a digit list as a natural number (base 10), little helper for
`parseF64`. -/
def natOfDigits (ds : List Char) : Nat :=
  ds.foldl (fun n c => 10 * n + (c.toNat - '0'.toNat)) 0

/-- Models `str::parse::<f64>()` (parser.rs 485) on the decimal lexemes the
lexer can classify as numbers: an optional run of digits, an optional
`.`-separated fractional digit run, at least one digit overall.  The
value is kept exactly as a rational; binary64 rounding, signs, exponents
and the special spellings (`inf`, `NaN`, …) are not modelled — no claim
evaluated here depends on them. -/
def parseF64 (s : String) : Option Rat :=
  let cs := s.toList
  let intPart := cs.takeWhile Char.isDigit
  let rest := cs.dropWhile Char.isDigit
  match rest with
  | [] => if intPart.isEmpty then none else some (natOfDigits intPart : Rat)
  | '.' :: frac =>
    if frac.all Char.isDigit && !(intPart.isEmpty && frac.isEmpty) then
      some ((natOfDigits intPart : Rat) + (natOfDigits frac : Rat) / (10 ^ frac.length : Rat))
    else none
  | _ => none

/-! ## The parser (src/parser.rs)

The parser's state is the immutable token vector plus the `current` index.
Every method becomes a function `PM α = Nat → PResult α` taking the current
index; `PResult` distinguishes success (with the new index), a `ParseError`,
an out-of-bounds vector access (which in Rust would be a panic — including
the `usize` underflow of `current - 1` at `current == 0`), and running out
of recursion fuel (an embedding artifact standing in for Rust's unbounded
recursion).
-/

/-- Outcome of a parser computation; see the section comment. -/
inductive PResult (α : Type) where
  | ok : α → Nat → PResult α
  | err : String → PResult α
  | oob : PResult α
  | fuelOut : PResult α
deriving Repr

/-- The parser monad: a function of the `current` cursor. -/
def PM (α : Type) : Type := Nat → PResult α

instance : Monad PM where
  pure a := fun c => .ok a c
  bind x f := fun c =>
    match x c with
    | .ok a c1 => f a c1
    | .err m => .err m
    | .oob => .oob
    | .fuelOut => .fuelOut

/-- `Err(ParseError { message })`. -/
def perr {α : Type} (message : String) : PM α := fun _ => .err message

/-- Fuel exhaustion (embedding artifact). -/
def pfuel {α : Type} : PM α := fun _ => .fuelOut

namespace Parser

variable (tokens : List ParserToken)

/-- Rust's derived `PartialEq` on `TokenKind` (`#[derive(PartialEq)]`,
parser.rs 5): two kinds are equal when they are the same variant
(`kindTag`) with equal payloads (`kindPayloadEq`). -/
def kindTag : TokenKind → Nat
  | .Let => 0
  | .Var => 1
  | .Fn => 2
  | .Rec => 3
  | .Class => 4
  | .«Type» => 5
  | .Module => 6
  | .Import => 7
  | .Return => 8
  | .If => 9
  | .Else => 10
  | .LeftParen => 11
  | .RightParen => 12
  | .LeftBrace => 13
  | .RightBrace => 14
  | .Comma => 15
  | .Colon => 16
  | .Semicolon => 17
  | .Arrow => 18
  | .Dot => 19
  | .Plus => 20
  | .Minus => 21
  | .Star => 22
  | .Slash => 23
  | .Percent => 24
  | .EqualEqual => 25
  | .NotEqual => 26
  | .Less => 27
  | .LessEqual => 28
  | .Greater => 29
  | .GreaterEqual => 30
  | .And => 31
  | .Or => 32
  | .Not => 33
  | .Equal => 34
  | .Identifier _ => 35
  | .Number _ => 36
  | .String _ => 37
  | .Boolean _ => 38
  | .Eof => 39

/-- Payload comparison for like variants (see `kindTag`). -/
def kindPayloadEq : TokenKind → TokenKind → Bool
  | .Identifier s, .Identifier t => s == t
  | .Number s, .Number t => s == t
  | .String s, .String t => s == t
  | .Boolean a, .Boolean b => a == b
  | _, _ => true

/-- Rust `TokenKind == TokenKind` (derived `PartialEq`). -/
def kindEq (a b : TokenKind) : Bool :=
  kindTag a == kindTag b && kindPayloadEq a b

/-- `Parser::peek` (parser.rs 574-576): `&self.tokens[self.current]`. -/
def peek : PM ParserToken := fun current =>
  match tokens[current]? with
  | some t => .ok t current
  | none => .oob

/-- `Parser::is_at_end` (parser.rs 692-694):
`self.tokens[self.current].kind == TokenKind::Eof`. -/
def is_at_end : PM Bool := fun current =>
  match tokens[current]? with
  | some t => .ok (kindEq t.kind .Eof) current
  | none => .oob

/-- `Parser::advance` (parser.rs 684-690): step the cursor unless at end,
then return `&self.tokens[self.current - 1]`.  At `current' = 0` the
subtraction underflows in Rust (panic), modelled as `.oob`. -/
def advance : PM ParserToken := fun current =>
  match is_at_end tokens current with
  | .ok atEnd _ =>
    let current1 := if atEnd then current else current + 1
    if current1 = 0 then .oob
    else
      match tokens[current1 - 1]? with
      | some t => .ok t current1
      | none => .oob
  | _ => .oob

/-- The `match` of `Parser::check` (parser.rs 647-652): `Identifier`,
`Number` and `String` match on the constructor alone, everything else by
equality. -/
def kindMatches (expected actual : TokenKind) : Bool :=
  match expected, actual with
  | .Identifier _, .Identifier _ => true
  | .Number _, .Number _ => true
  | .String _, .String _ => true
  | e, a => kindEq e a

/-- `Parser::check` (parser.rs 642-653): false at end of input, otherwise
compare the expected kind with `self.tokens[self.current].kind`. -/
def check (kind : TokenKind) : PM Bool := fun current =>
  match is_at_end tokens current with
  | .ok true _ => .ok false current
  | .ok false _ =>
    match tokens[current]? with
    | some t => .ok (kindMatches kind t.kind) current
    | none => .oob
  | _ => .oob

/-- `Parser::match_token` (parser.rs 630-640): try each kind; on the first
`check` success, `advance` and return true. -/
def match_token : List TokenKind → PM Bool
  | [] => pure false
  | kind :: rest => do
    let b ← check tokens kind
    if b then do
      let _ ← advance tokens
      pure true
    else match_token rest

/-- `Parser::consume` (parser.rs 696-704). -/
def consume (kind : TokenKind) (message : String) : PM ParserToken := do
  let b ← check tokens kind
  if b then advance tokens else perr message

/-- `Parser::consume_identifier` (parser.rs 706-724). -/
def consume_identifier (message : String) : PM String := fun current =>
  match is_at_end tokens current with
  | .ok true _ => .err message
  | .ok false _ =>
    match tokens[current]? with
    | some token =>
      match token.kind with
      | .Identifier name =>
        (match advance tokens current with
         | .ok _ c1 => .ok name c1
         | .err m => .err m
         | .oob => .oob
         | .fuelOut => .fuelOut)
      | _ => .err message
    | none => .oob
  | _ => .oob

/-- `Parser::previous` (parser.rs 730-732): `&self.tokens[self.current - 1]`,
with the `usize` underflow at `current == 0` modelled as `.oob`. -/
def previous : PM ParserToken := fun current =>
  if current = 0 then .oob
  else
    match tokens[current - 1]? with
    | some t => .ok t current
    | none => .oob

/-- `Parser::previous_token_kind` (parser.rs 726-728). -/
def previous_token_kind : PM TokenKind := fun current =>
  if current = 0 then .oob
  else
    match tokens[current - 1]? with
    | some t => .ok t.kind current
    | none => .oob

/-- The `while` loop of `Parser::lambda_check` (parser.rs 656-673): scan
forward from `index`, tracking parenthesis depth, and stop at the `)`
that brings the count to zero or at the end of the vector.  The source's
`paren_count` is an `i32`; it is kept as an `Int` here.  The loop runs
structurally on a fuel budget so that it reduces definitionally;
`index` grows by one on every non-breaking iteration and the loop stops
once `index` reaches `tokens.length`, so the budget
`tokens.length + 1` supplied by `lambda_check` can never run out
(`lambda_check_go_fuel` below). -/
def lambda_check_go : Nat → Nat → Int → Nat
  | 0, index, _ => index
  | fuel + 1, index, paren_count =>
    if h : index < tokens.length then
      match (tokens.get ⟨index, h⟩).kind with
      | .LeftParen => lambda_check_go fuel (index + 1) (paren_count + 1)
      | .RightParen =>
        if paren_count - 1 = 0 then index
        else lambda_check_go fuel (index + 1) (paren_count - 1)
      | _ => lambda_check_go fuel (index + 1) paren_count
    else index

/-- `Parser::lambda_check` (parser.rs 655-682): non-mutating bounded
lookahead; true when the token after the matching `)` is `->`.  All its
vector reads are guarded by explicit bounds checks in the source, so it
is total. -/
def lambda_check : PM Bool := fun current =>
  let index := lambda_check_go tokens (tokens.length + 1) current 1
  let r :=
    if h : index < tokens.length then
      if kindEq (tokens.get ⟨index, h⟩).kind .RightParen then
        if h2 : index + 1 < tokens.length then
          kindEq (tokens.get ⟨index + 1, h2⟩).kind .Arrow
        else false
      else false
    else false
  .ok r current

/-- `Parser::finish_property_access` (parser.rs 595-601); not recursive, so
outside the fuel discipline. -/
def finish_property_access (object : Expr) : PM Expr := do
  let name ← consume_identifier tokens "Expected property name after '.'"
  pure (Expr.PropertyAccess object name)

/-- The mutually recursive grammar productions of `Parser`, as one record
of computations.  Rust's unbounded mutual recursion is embedded by
"tying the knot" over a fuel budget: `prods fuel` is the record whose
components may make recursive calls only through `prods (fuel - 1)`
(see `mkProds`/`prods` below); a component of `prods 0` answers
`.fuelOut`.  Each source method keeps its own Lean definition
(`declarationF`, `expressionF`, …), written against the record `p` of
one-level-smaller recursive entry points. -/
structure Prods where
  declaration : PM Stmt
  import_declaration : PM Stmt
  module_declaration : PM Stmt
  declarations_until_rbrace : List Stmt → PM (List Stmt)
  class_declaration : PM Stmt
  class_body_loop : List Stmt → List Stmt → PM (List Stmt × List Stmt)
  function_declaration : PM Stmt
  params_loop : List Parameter → PM (List Parameter)
  variable_declaration : PM Stmt
  statement : PM Stmt
  parse_type : PM Ty
  type_list_loop : List Ty → PM (List Ty)
  parse_lambda : PM Expr
  parse_parameters : PM (List Parameter)
  expression : PM Expr
  logical_or : PM Expr
  logical_or_loop : Expr → PM Expr
  logical_and : PM Expr
  logical_and_loop : Expr → PM Expr
  equality : PM Expr
  equality_loop : Expr → PM Expr
  comparison : PM Expr
  comparison_loop : Expr → PM Expr
  addition : PM Expr
  addition_loop : Expr → PM Expr
  multiplication : PM Expr
  multiplication_loop : Expr → PM Expr
  unary : PM Expr
  primary : PM Expr
  struct_fields_loop : List (String × Expr) → PM (List (String × Expr))
  postfix_loop : Expr → PM Expr
  finish_call : Expr → PM Expr
  call_args_loop : List Expr → PM (List Expr)
  parse_program_loop : List Stmt → PM (List Stmt)

/-- `Parser::declaration` (parser.rs 94-128). -/
def declarationF (p : Prods) : PM Stmt := do
  let m ← match_token tokens [.Import]
  if m then p.import_declaration
  else do
    let m ← match_token tokens [.Module]
    if m then p.module_declaration
    else do
      let m ← match_token tokens [.Class]
      if m then p.class_declaration
      else do
        let m ← match_token tokens [.Fn]
        if m then p.function_declaration
        else do
          let m ← match_token tokens [.Return]
          if m then do
            let b ← check tokens .Semicolon
            let expr ←
              if !b then do
                let e ← p.expression
                pure (some e)
              else pure none
            let _ ← consume tokens .Semicolon "Expected ';' after return statement"
            pure (Stmt.Return expr)
          else do
            let m ← match_token tokens [.Let, .Var]
            if m then p.variable_declaration
            else p.statement

/-- `Parser::import_declaration` (parser.rs 130-139). -/
def import_declarationF (p : Prods) : PM Stmt := do
  let module_name ← consume_identifier tokens "Expected module name after 'import'"
  let _ ← consume tokens .Semicolon "Expected ';' after import declaration"
  pure (Stmt.Import module_name)

/-- `Parser::module_declaration` (parser.rs 141-153). -/
def module_declarationF (p : Prods) : PM Stmt := do
  let name ← consume_identifier tokens "Expected module name"
  let _ ← consume tokens .LeftBrace "Expected '\x7b' after module name"
  let declarations ← p.declarations_until_rbrace []
  let _ ← consume tokens .RightBrace "Expected '\x7d' after module body"
  pure (Stmt.ModuleDecl name declarations)

/-- The `while !self.check(&RightBrace) && !self.is_at_end()` declaration
loops of `module_declaration` (parser.rs 146-148), `function_declaration`
(parser.rs 220-222) and the block-expression branch of `primary`
(parser.rs 548-550), which are textually identical; the `&&` is
short-circuit, so `is_at_end` is only consulted when `check` is false. -/
def declarations_until_rbraceF (p : Prods) (acc : List Stmt) : PM (List Stmt) := do
  let b ← check tokens .RightBrace
  if b then pure acc.reverse
  else do
    let e ← is_at_end tokens
    if e then pure acc.reverse
    else do
      let d ← p.declaration
      p.declarations_until_rbrace (d :: acc)

/-- `Parser::class_declaration` (parser.rs 155-181). -/
def class_declarationF (p : Prods) : PM Stmt := do
  let name ← consume_identifier tokens "Expected class name"
  let _ ← consume tokens .LeftBrace "Expected '\x7b' after class name"
  let (fields, methods) ← p.class_body_loop [] []
  let _ ← consume tokens .RightBrace "Expected '\x7d' after class body"
  pure (Stmt.ClassDecl name fields methods)

/-- The class-body `while` loop of `class_declaration` (parser.rs
162-172): method declarations after `fn`, field declarations after
`let`/`var`, anything else is a parse error. -/
def class_body_loopF (p : Prods) (fields : List Stmt) (methods : List Stmt) : PM (List Stmt × List Stmt) := do
  let b ← check tokens .RightBrace
  if b then pure (fields.reverse, methods.reverse)
  else do
    let e ← is_at_end tokens
    if e then pure (fields.reverse, methods.reverse)
    else do
      let m ← match_token tokens [.Fn]
      if m then do
        let d ← p.function_declaration
        p.class_body_loop fields (d :: methods)
      else do
        let m ← match_token tokens [.Let, .Var]
        if m then do
          let d ← p.variable_declaration
          p.class_body_loop (d :: fields) methods
        else
          perr "Expected field declaration starting with 'let' or 'var', or a method declaration starting with 'fn'."

/-- `Parser::function_declaration` (parser.rs 183-232). -/
def function_declarationF (p : Prods) : PM Stmt := do
  let name ← consume_identifier tokens "Expected function name"
  let _ ← consume tokens .LeftParen "Expected '(' after function name"
  let b ← check tokens .RightParen
  let params ← if !b then p.params_loop [] else pure []
  let _ ← consume tokens .RightParen "Expected ')' after parameters"
  let m ← match_token tokens [.Arrow]
  let return_type ←
    if m then do
      let t ← p.parse_type
      pure (some t)
    else pure none
  let _ ← consume tokens .LeftBrace "Expected '\x7b' before function body"
  let body ← p.declarations_until_rbrace []
  let _ ← consume tokens .RightBrace "Expected '\x7d' after function body"
  pure (Stmt.FunctionDecl name params return_type body)

/-- The parameter `loop` shared verbatim by `function_declaration`
(parser.rs 190-206) and `parse_parameters` (parser.rs 607-622):
`name (: type)?` entries separated by commas. -/
def params_loopF (p : Prods) (acc : List Parameter) : PM (List Parameter) := do
  let param_name ← consume_identifier tokens "Expected parameter name"
  let m ← match_token tokens [.Colon]
  let ta ←
    if m then do
      let t ← p.parse_type
      pure (some t)
    else pure none
  let acc := ({ name := param_name, type_annotation := ta } : Parameter) :: acc
  let m2 ← match_token tokens [.Comma]
  if m2 then p.params_loop acc
  else pure acc.reverse

/-- `Parser::variable_declaration` (parser.rs 234-267). -/
def variable_declarationF (p : Prods) : PM Stmt := do
  let keyword ← previous_token_kind tokens
  let is_mutable :=
    match keyword with
    | .Let => false
    | .Var => true
    | _ => false
  let name ← consume_identifier tokens "Expected variable name"
  let m ← match_token tokens [.Colon]
  let ta ←
    if m then do
      let t ← p.parse_type
      pure (some t)
    else pure none
  let m2 ← match_token tokens [.Equal]
  let initializer ←
    if m2 then do
      let e ← p.expression
      pure (some e)
    else pure none
  let _ ← consume tokens .Semicolon "Expected ';' after variable declaration"
  pure (Stmt.VariableDecl is_mutable name ta initializer)

/-- `Parser::statement` (parser.rs 269-275). -/
def statementF (p : Prods) : PM Stmt := do
  let expr ← p.expression
  let _ ← consume tokens .Semicolon "Expected ';' after expression"
  pure (Stmt.Expression expr)

/-- `Parser::parse_type` (parser.rs 277-316). -/
def parse_typeF (p : Prods) : PM Ty := do
  let m ← match_token tokens [.LeftParen]
  if m then do
    let params ← p.type_list_loop []
    let _ ← consume tokens .RightParen "Expected ')' in function type"
    let _ ← consume tokens .Arrow "Expected '->' in function type"
    let return_type ← p.parse_type
    pure (Ty.Function params return_type)
  else do
    let name ← consume_identifier tokens "Expected type name"
    let m2 ← match_token tokens [.Less]
    if m2 then do
      let params ← p.type_list_loop []
      let _ ← consume tokens .Greater "Expected '>' in generic type"
      pure (Ty.Generic name params)
    else pure (Ty.Simple name)

/-- The comma-separated type `loop` of both branches of `parse_type`
(parser.rs 281-287 and 300-307, textually identical). -/
def type_list_loopF (p : Prods) (acc : List Ty) : PM (List Ty) := do
  let t ← p.parse_type
  let acc := t :: acc
  let m ← match_token tokens [.Comma]
  if m then p.type_list_loop acc
  else pure acc.reverse

/-- `Parser::parse_lambda` (parser.rs 318-328). -/
def parse_lambdaF (p : Prods) : PM Expr := do
  let params ← p.parse_parameters
  let _ ← consume tokens .Arrow "Expected '->' after lambda parameters"
  let body ← p.expression
  pure (Expr.Lambda params body)

/-- `Parser::parse_parameters` (parser.rs 604-628). -/
def parse_parametersF (p : Prods) : PM (List Parameter) := do
  let b ← check tokens .RightParen
  let params ← if !b then p.params_loop [] else pure []
  let _ ← consume tokens .RightParen "Expected ')' after parameters"
  pure params

/-- `Parser::expression` (parser.rs 330-332). -/
def expressionF (p : Prods) : PM Expr :=
  p.logical_or

/-- `Parser::logical_or` (parser.rs 334-349). -/
def logical_orF (p : Prods) : PM Expr := do
  let expr ← p.logical_and
  p.logical_or_loop expr

/-- The `while` loop of `logical_or`. -/
def logical_or_loopF (p : Prods) (expr : Expr) : PM Expr := do
  let m ← match_token tokens [.Or]
  if m then do
    let right ← p.logical_and
    p.logical_or_loop (Expr.Binary expr BinaryOp.Or right)
  else pure expr

/-- `Parser::logical_and` (parser.rs 351-365). -/
def logical_andF (p : Prods) : PM Expr := do
  let expr ← p.equality
  p.logical_and_loop expr

/-- The `while` loop of `logical_and`. -/
def logical_and_loopF (p : Prods) (expr : Expr) : PM Expr := do
  let m ← match_token tokens [.And]
  if m then do
    let right ← p.equality
    p.logical_and_loop (Expr.Binary expr BinaryOp.And right)
  else pure expr

/-- `Parser::equality` (parser.rs 367-386). -/
def equalityF (p : Prods) : PM Expr := do
  let expr ← p.comparison
  p.equality_loop expr

/-- The `while` loop of `equality`.  The `_ => unreachable!()` arm of the
operator translation is dead (`match_token` only succeeds on the two
listed kinds) and is given an arbitrary value here. -/
def equality_loopF (p : Prods) (expr : Expr) : PM Expr := do
  let m ← match_token tokens [.EqualEqual, .NotEqual]
  if m then do
    let k ← previous_token_kind tokens
    let op :=
      match k with
      | .EqualEqual => BinaryOp.EqualEqual
      | .NotEqual => BinaryOp.NotEqual
      | _ => BinaryOp.EqualEqual  -- unreachable!() in the source
    let right ← p.comparison
    p.equality_loop (Expr.Binary expr op right)
  else pure expr

/-- `Parser::comparison` (parser.rs 388-415). -/
def comparisonF (p : Prods) : PM Expr := do
  let expr ← p.addition
  p.comparison_loop expr

/-- The `while` loop of `comparison` (same dead-arm convention as
`equality_loop`). -/
def comparison_loopF (p : Prods) (expr : Expr) : PM Expr := do
  let m ← match_token tokens [.Less, .LessEqual, .Greater, .GreaterEqual]
  if m then do
    let k ← previous_token_kind tokens
    let op :=
      match k with
      | .Less => BinaryOp.Less
      | .LessEqual => BinaryOp.LessEqual
      | .Greater => BinaryOp.Greater
      | .GreaterEqual => BinaryOp.GreaterEqual
      | _ => BinaryOp.Less  -- unreachable!() in the source
    let right ← p.addition
    p.comparison_loop (Expr.Binary expr op right)
  else pure expr

/-- `Parser::addition` (parser.rs 417-437). -/
def additionF (p : Prods) : PM Expr := do
  let expr ← p.multiplication
  p.addition_loop expr

/-- The `while` loop of `addition` (same dead-arm convention). -/
def addition_loopF (p : Prods) (expr : Expr) : PM Expr := do
  let m ← match_token tokens [.Plus, .Minus]
  if m then do
    let k ← previous_token_kind tokens
    let op :=
      match k with
      | .Plus => BinaryOp.Add
      | .Minus => BinaryOp.Sub
      | _ => BinaryOp.Add  -- unreachable!() in the source
    let right ← p.multiplication
    p.addition_loop (Expr.Binary expr op right)
  else pure expr

/-- `Parser::multiplication` (parser.rs 439-459). -/
def multiplicationF (p : Prods) : PM Expr := do
  let expr ← p.unary
  p.multiplication_loop expr

/-- The `while` loop of `multiplication` (same dead-arm convention). -/
def multiplication_loopF (p : Prods) (expr : Expr) : PM Expr := do
  let m ← match_token tokens [.Star, .Slash, .Percent]
  if m then do
    let k ← previous_token_kind tokens
    let op :=
      match k with
      | .Star => BinaryOp.Mul
      | .Slash => BinaryOp.Div
      | .Percent => BinaryOp.Mod
      | _ => BinaryOp.Mul  -- unreachable!() in the source
    let right ← p.unary
    p.multiplication_loop (Expr.Binary expr op right)
  else pure expr

/-- `Parser::unary` (parser.rs 461-479) (same dead-arm convention). -/
def unaryF (p : Prods) : PM Expr := do
  let m ← match_token tokens [.Not, .Minus]
  if m then do
    let k ← previous_token_kind tokens
    let op :=
      match k with
      | .Not => UnaryOp.Not
      | .Minus => UnaryOp.Negate
      | _ => UnaryOp.Not  -- unreachable!() in the source
    let expr ← p.unary
    pure (Expr.Unary op expr)
  else p.primary

/-- `Parser::primary` (parser.rs 481-572).  Note that both identifier
branches (struct literal and plain identifier) `return` directly in the
source, bypassing the postfix loop of lines 561-569; every other branch
falls through to it (`postfix_loop`). -/
def primaryF (p : Prods) : PM Expr := do
  let m ← match_token tokens [.Number ""]
  if m then do
    let token ← previous tokens
    match token.kind with
    | .Number n =>
      match parseF64 n with
      | some num => p.postfix_loop (Expr.Literal (.Number num))
      | none => perr ("Invalid number literal: " ++ n)
    | _ => perr "Expected number literal"
  else do
    let m ← match_token tokens [.String ""]
    if m then do
      let token ← previous tokens
      match token.kind with
      | .String s => p.postfix_loop (Expr.Literal (.String s))
      | _ => perr "Expected string literal"
    else do
      let m ← match_token tokens [.Boolean true]
      if m then p.postfix_loop (Expr.Literal (.Boolean true))
      else do
        let m ← match_token tokens [.Boolean false]
        if m then p.postfix_loop (Expr.Literal (.Boolean false))
        else do
          let m ← match_token tokens [.Identifier ""]
          if m then do
            let token ← previous tokens
            match token.kind with
            | .Identifier name => do
              let b ← check tokens .LeftBrace
              if b then do
                let _ ← advance tokens
                let fields ← p.struct_fields_loop []
                let _ ← consume tokens .RightBrace "Expected '\x7d' after struct literal"
                -- early `return Ok(Expr::StructLiteral ...)`: no postfix loop
                pure (Expr.StructLiteral name fields)
              else
                -- early `return Ok(Expr::Identifier(name))`: no postfix loop
                pure (Expr.Identifier name)
            | _ => perr "Expected identifier"
          else do
            let m ← match_token tokens [.LeftParen]
            if m then do
              let lc ← lambda_check tokens
              let expr ←
                if lc then p.parse_lambda
                else do
                  let e ← p.expression
                  let _ ← consume tokens .RightParen "Expected ')' after expression"
                  pure (Expr.Grouping e)
              p.postfix_loop expr
            else do
              let m ← match_token tokens [.LeftBrace]
              if m then do
                let body ← p.declarations_until_rbrace []
                let _ ← consume tokens .RightBrace "Expected '\x7d' after block"
                p.postfix_loop (Expr.Block body)
              else do
                let t ← peek tokens
                perr ("Unexpected token: " ++ dbgKind t.kind)

/-- The struct-literal field `while` loop of `primary` (parser.rs 516-525);
each field's value expression is always the identifier of the field name
itself. -/
def struct_fields_loopF (p : Prods) (fields : List (String × Expr)) : PM (List (String × Expr)) := do
  let b ← check tokens .RightBrace
  if b then pure fields.reverse
  else do
    let e ← is_at_end tokens
    if e then pure fields.reverse
    else do
      let field_name ← consume_identifier tokens "Expected field name in struct literal"
      let fields := (field_name, Expr.Identifier field_name) :: fields
      let m ← match_token tokens [.Comma]
      if m then p.struct_fields_loop fields
      else pure fields.reverse

/-- The postfix `loop` of `primary` (parser.rs 561-569): greedily consume
`(` call argument lists and `.` property accesses. -/
def postfix_loopF (p : Prods) (expr : Expr) : PM Expr := do
  let m ← match_token tokens [.LeftParen]
  if m then do
    let e ← p.finish_call expr
    p.postfix_loop e
  else do
    let m ← match_token tokens [.Dot]
    if m then do
      let e ← finish_property_access tokens expr
      p.postfix_loop e
    else pure expr

/-- `Parser::finish_call` (parser.rs 578-593). -/
def finish_callF (p : Prods) (callee : Expr) : PM Expr := do
  let b ← check tokens .RightParen
  let arguments ← if !b then p.call_args_loop [] else pure []
  let _ ← consume tokens .RightParen "Expected ')' after arguments"
  pure (Expr.Call callee arguments)

/-- The argument `loop` of `finish_call` (parser.rs 581-586). -/
def call_args_loopF (p : Prods) (acc : List Expr) : PM (List Expr) := do
  let e ← p.expression
  let acc := e :: acc
  let m ← match_token tokens [.Comma]
  if m then p.call_args_loop acc
  else pure acc.reverse

/-- The `while !self.is_at_end()` loop of `Parser::parse_program`
(parser.rs 84-92). -/
def parse_program_loopF (p : Prods) (acc : List Stmt) : PM (List Stmt) := do
  let e ← is_at_end tokens
  if e then pure acc.reverse
  else do
    let d ← p.declaration
    p.parse_program_loop (d :: acc)

/-- The fuel-zero record: every production reports fuel exhaustion. -/
def pfuelProds : Prods where
  declaration := pfuel
  import_declaration := pfuel
  module_declaration := pfuel
  declarations_until_rbrace := fun _ => pfuel
  class_declaration := pfuel
  class_body_loop := fun _ _ => pfuel
  function_declaration := pfuel
  params_loop := fun _ => pfuel
  variable_declaration := pfuel
  statement := pfuel
  parse_type := pfuel
  type_list_loop := fun _ => pfuel
  parse_lambda := pfuel
  parse_parameters := pfuel
  expression := pfuel
  logical_or := pfuel
  logical_or_loop := fun _ => pfuel
  logical_and := pfuel
  logical_and_loop := fun _ => pfuel
  equality := pfuel
  equality_loop := fun _ => pfuel
  comparison := pfuel
  comparison_loop := fun _ => pfuel
  addition := pfuel
  addition_loop := fun _ => pfuel
  multiplication := pfuel
  multiplication_loop := fun _ => pfuel
  unary := pfuel
  primary := pfuel
  struct_fields_loop := fun _ => pfuel
  postfix_loop := fun _ => pfuel
  finish_call := fun _ => pfuel
  call_args_loop := fun _ => pfuel
  parse_program_loop := fun _ => pfuel

/-- One knot-tying step: the record of productions that make their
recursive calls through `p`. -/
def mkProds (p : Prods) : Prods where
  declaration := declarationF tokens p
  import_declaration := import_declarationF tokens p
  module_declaration := module_declarationF tokens p
  declarations_until_rbrace := declarations_until_rbraceF tokens p
  class_declaration := class_declarationF tokens p
  class_body_loop := class_body_loopF tokens p
  function_declaration := function_declarationF tokens p
  params_loop := params_loopF tokens p
  variable_declaration := variable_declarationF tokens p
  statement := statementF tokens p
  parse_type := parse_typeF tokens p
  type_list_loop := type_list_loopF tokens p
  parse_lambda := parse_lambdaF tokens p
  parse_parameters := parse_parametersF tokens p
  expression := expressionF p
  logical_or := logical_orF p
  logical_or_loop := logical_or_loopF tokens p
  logical_and := logical_andF p
  logical_and_loop := logical_and_loopF tokens p
  equality := equalityF p
  equality_loop := equality_loopF tokens p
  comparison := comparisonF p
  comparison_loop := comparison_loopF tokens p
  addition := additionF p
  addition_loop := addition_loopF tokens p
  multiplication := multiplicationF p
  multiplication_loop := multiplication_loopF tokens p
  unary := unaryF tokens p
  primary := primaryF tokens p
  struct_fields_loop := struct_fields_loopF tokens p
  postfix_loop := postfix_loopF tokens p
  finish_call := finish_callF tokens p
  call_args_loop := call_args_loopF tokens p
  parse_program_loop := parse_program_loopF tokens p

/-- The productions at a given fuel budget. -/
def prods : Nat → Prods
  | 0 => pfuelProds
  | fuel + 1 => mkProds tokens (prods fuel)

/-- `Parser::declaration` (parser.rs 94-128) at a fuel budget. -/
def declaration (fuel : Nat) : PM Stmt := (prods tokens fuel).declaration

/-- `Parser::expression` (parser.rs 330-332) at a fuel budget. -/
def expression (fuel : Nat) : PM Expr := (prods tokens fuel).expression

/-- `Parser::primary` (parser.rs 481-572) at a fuel budget. -/
def primary (fuel : Nat) : PM Expr := (prods tokens fuel).primary

/-- `Parser::parse_program` (parser.rs 84-92) at a fuel budget. -/
def parse_program (fuel : Nat) : PM (List Stmt) :=
  (prods tokens fuel).parse_program_loop []

end Parser

/-- The `main.rs` pipeline (main.rs 22-71): lex the source, adapt every
lexer token with `From<Token> for ParserToken` (no end-of-file token is
appended), hand the vector to `Parser::new` (cursor 0), and run
`parse_program`. -/
def parseSource (s : String) (fuel : Nat) : PResult (List Stmt) :=
  Parser.parse_program ((Lexer.lexStr s).map ParserToken.ofToken) fuel 0

/-! ### Lossless coverage of the input by token spans (claim C5)

The span offsets are byte offsets (`Position.absolute` advances by the
UTF-8 length of each consumed character), so the "source slice covered by
a span" is the byte-offset slice `byteSlice`.  `rebuild` concatenates, in
order, the gap slice before each token span and the span slice itself,
then the trailing gap; C5 asserts this reconstructs the input exactly and
that every gap is whitespace. -/

namespace Lexer

/-- Total UTF-8 byte length of a character list. -/
def utf8Len : List Char → Nat
  | [] => 0
  | c :: cs => lenUtf8 c + utf8Len cs

/-- Drop the characters occupying the first `n` bytes. -/
def byteDrop (cs : List Char) (n : Nat) : List Char :=
  match cs, n with
  | cs, 0 => cs
  | [], _ => []
  | c :: rest, n + 1 => byteDrop rest (n + 1 - lenUtf8 c)

/-- Take the characters occupying the first `n` bytes. -/
def byteTake (cs : List Char) (n : Nat) : List Char :=
  match cs, n with
  | _, 0 => []
  | [], _ => []
  | c :: rest, n + 1 => if n + 1 < lenUtf8 c then [] else c :: byteTake rest (n + 1 - lenUtf8 c)

/-- The source slice at byte offsets `[a, b)`. -/
def byteSlice (cs : List Char) (a b : Nat) : List Char :=
  byteTake (byteDrop cs a) (b - a)

/-- The `(start, end)` absolute byte offsets of each token's span. -/
def spanOffsets (toks : List Token) : List (Nat × Nat) :=
  toks.map fun t => (t.span.start.absolute, t.span.stop.absolute)

/-- Concatenation, in order, of the gap slice before each span and the
span slice itself, and finally the trailing gap from the last span's end
to the end of the input. -/
def rebuild (cs : List Char) (offs : List (Nat × Nat)) (pos : Nat) : List Char :=
  match offs with
  | [] => byteSlice cs pos (utf8Len cs)
  | (a, b) :: rest => byteSlice cs pos a ++ byteSlice cs a b ++ rebuild cs rest b

/-- Every gap slice (between consecutive spans, before the first, and
after the last) consists of whitespace only. -/
def gapsAreWs (cs : List Char) (offs : List (Nat × Nat)) (pos : Nat) : Bool :=
  match offs with
  | [] => (byteSlice cs pos (utf8Len cs)).all isRustWhitespace
  | (a, b) :: rest => (byteSlice cs pos a).all isRustWhitespace && gapsAreWs cs rest b

/-- Folding the cursor over a list of consumed characters. -/
def advList (p : Position) (cs : List Char) : Position :=
  cs.foldl advancePos p

lemma lenUtf8_pos (c : Char) : 0 < lenUtf8 c := by
  unfold lenUtf8
  repeat' split
  all_goals omega

lemma utf8Len_append (xs ys : List Char) :
    utf8Len (xs ++ ys) = utf8Len xs + utf8Len ys := by
  induction xs with
  | nil => simp [utf8Len]
  | cons c xs ih => simp [utf8Len, ih]; omega

lemma byteDrop_append (pre suf : List Char) :
    byteDrop (pre ++ suf) (utf8Len pre) = suf := by
  induction pre with
  | nil => simp [byteDrop, utf8Len]
  | cons c pre ih =>
    have h := lenUtf8_pos c
    have hs : utf8Len (c :: pre) = lenUtf8 c + utf8Len pre := rfl
    obtain ⟨m, hm⟩ : ∃ m, utf8Len (c :: pre) = m + 1 := ⟨utf8Len (c :: pre) - 1, by omega⟩
    rw [hm, List.cons_append]
    show byteDrop (pre ++ suf) (m + 1 - lenUtf8 c) = suf
    have hd : m + 1 - lenUtf8 c = utf8Len pre := by omega
    rw [hd, ih]

lemma byteTake_append (mid suf : List Char) :
    byteTake (mid ++ suf) (utf8Len mid) = mid := by
  induction mid with
  | nil => simp [byteTake, utf8Len]
  | cons c mid ih =>
    have h := lenUtf8_pos c
    have hs : utf8Len (c :: mid) = lenUtf8 c + utf8Len mid := rfl
    obtain ⟨m, hm⟩ : ∃ m, utf8Len (c :: mid) = m + 1 := ⟨utf8Len (c :: mid) - 1, by omega⟩
    rw [hm, List.cons_append]
    show (if m + 1 < lenUtf8 c then [] else c :: byteTake (mid ++ suf) (m + 1 - lenUtf8 c)) = c :: mid
    rw [if_neg (by omega)]
    have hd : m + 1 - lenUtf8 c = utf8Len mid := by omega
    rw [hd, ih]

lemma byteSlice_exact (pre mid suf : List Char) :
    byteSlice (pre ++ mid ++ suf) (utf8Len pre) (utf8Len pre + utf8Len mid) = mid := by
  unfold byteSlice
  rw [List.append_assoc, byteDrop_append, Nat.add_sub_cancel_left, byteTake_append]

lemma advancePos_absolute (p : Position) (c : Char) :
    (advancePos p c).absolute = p.absolute + lenUtf8 c := by
  unfold advancePos
  split <;> rfl

lemma advList_absolute (p : Position) (cs : List Char) :
    (advList p cs).absolute = p.absolute + utf8Len cs := by
  induction cs generalizing p with
  | nil => simp [advList, utf8Len]
  | cons c cs ih =>
    simp only [advList, List.foldl_cons, utf8Len] at ih ⊢
    rw [ih, advancePos_absolute]
    omega

lemma advList_append (p : Position) (xs ys : List Char) :
    advList p (xs ++ ys) = advList (advList p xs) ys := by
  simp [advList, List.foldl_append]

/-- `skip_whitespace` removes a whitespace prefix and advances the cursor
over exactly that prefix. -/
lemma skip_whitespace_spec (cs : List Char) (p : Position) :
    ∃ ws, cs = ws ++ (skip_whitespace cs p).1 ∧
      ws.all isRustWhitespace = true ∧
      (skip_whitespace cs p).2 = advList p ws := by
  induction cs generalizing p with
  | nil => exact ⟨[], rfl, rfl, rfl⟩
  | cons c cs ih =>
    by_cases h : isRustWhitespace c
    · obtain ⟨ws, h1, h2, h3⟩ := ih (advancePos p c)
      rw [skip_whitespace, if_pos h]
      refine ⟨c :: ws, ?_, ?_, ?_⟩
      · rw [List.cons_append, ← h1]
      · simp [List.all_cons, h, h2]
      · simpa [advList] using h3
    · rw [skip_whitespace, if_neg h]
      exact ⟨[], rfl, rfl, rfl⟩

/-- After `skip_whitespace`, the head of the remaining input is not
whitespace — this is what makes the whitespace guard arm of `next`
(lexer.rs 328) unreachable. -/
lemma skip_whitespace_head_not_ws (cs : List Char) (p : Position) (c : Char)
    (rest : List Char) (h : (skip_whitespace cs p).1 = c :: rest) :
    isRustWhitespace c = false := by
  induction cs generalizing p with
  | nil => simp [skip_whitespace] at h
  | cons c0 cs ih =>
    by_cases h0 : isRustWhitespace c0
    · rw [skip_whitespace, if_pos h0] at h
      exact ih _ h
    · rw [skip_whitespace, if_neg h0] at h
      obtain ⟨rfl, -⟩ : c0 = c ∧ cs = rest := by
        injection h with h1 h2
        exact ⟨h1, h2⟩
      simpa using h0

lemma scanDigits_spec (cs : List Char) (acc : String) (p : Position) :
    ∃ consumed, cs = consumed ++ (scanDigits acc cs p).2.1 ∧
      (scanDigits acc cs p).2.2 = advList p consumed := by
  induction cs generalizing acc p with
  | nil => exact ⟨[], rfl, rfl⟩
  | cons c cs ih =>
    by_cases h : c.isDigit
    · obtain ⟨consumed, h1, h2⟩ := ih (acc.push c) (advancePos p c)
      rw [scanDigits, if_pos h]
      refine ⟨c :: consumed, ?_, ?_⟩
      · rw [List.cons_append, ← h1]
      · simpa [advList] using h2
    · rw [scanDigits, if_neg h]
      exact ⟨[], rfl, rfl⟩

lemma scanDigitsFlag_spec (cs : List Char) (acc : String) (b : Bool) (p : Position) :
    ∃ consumed, cs = consumed ++ (scanDigitsFlag acc b cs p).2.2.1 ∧
      (scanDigitsFlag acc b cs p).2.2.2 = advList p consumed := by
  induction cs generalizing acc b p with
  | nil => exact ⟨[], rfl, rfl⟩
  | cons c cs ih =>
    by_cases h : c.isDigit
    · obtain ⟨consumed, h1, h2⟩ := ih (acc.push c) true (advancePos p c)
      rw [scanDigitsFlag, if_pos h]
      refine ⟨c :: consumed, ?_, ?_⟩
      · rw [List.cons_append, ← h1]
      · simpa [advList] using h2
    · rw [scanDigitsFlag, if_neg h]
      exact ⟨[], rfl, rfl⟩

lemma scanIdent_spec (cs : List Char) (acc : String) (p : Position) :
    ∃ consumed, cs = consumed ++ (scanIdent acc cs p).2.1 ∧
      (scanIdent acc cs p).2.2 = advList p consumed := by
  induction cs generalizing acc p with
  | nil => exact ⟨[], rfl, rfl⟩
  | cons c cs ih =>
    by_cases h : c.isAlphanum || c = '_'
    · obtain ⟨consumed, h1, h2⟩ := ih (acc.push c) (advancePos p c)
      rw [scanIdent, if_pos h]
      refine ⟨c :: consumed, ?_, ?_⟩
      · rw [List.cons_append, ← h1]
      · simpa [advList] using h2
    · rw [scanIdent, if_neg h]
      exact ⟨[], rfl, rfl⟩

/-- `read_identifier` consumes a prefix of its input, advances the cursor
over exactly that prefix, and spans from `start_pos` to the final
cursor. -/
lemma read_identifier_spec (first : Char) (start : Position) (cs : List Char) (p : Position) :
    ∃ consumed, cs = consumed ++ (read_identifier first start cs p).2.1 ∧
      (read_identifier first start cs p).2.2 = advList p consumed ∧
      (read_identifier first start cs p).1.span =
        Span.new start (read_identifier first start cs p).2.2 := by
  rcases hsi : scanIdent (String.mk [first]) cs p with ⟨ident, cs1, p1⟩
  obtain ⟨consumed, h1, h2⟩ := scanIdent_spec cs (String.mk [first]) p
  rw [hsi] at h1 h2
  simp only [read_identifier, hsi]
  exact ⟨consumed, h1, h2, by trivial⟩

/-- `read_number` consumes a prefix of its input, advances the cursor over
exactly that prefix, and spans from `start_pos` to the final cursor. -/
lemma read_number_spec (first : Char) (start : Position) (cs : List Char) (p : Position) :
    ∃ consumed, cs = consumed ++ (read_number first start cs p).2.1 ∧
      (read_number first start cs p).2.2 = advList p consumed ∧
      (read_number first start cs p).1.span =
        Span.new start (read_number first start cs p).2.2 := by
  rcases hsd : scanDigits (String.mk [first]) cs p with ⟨n1, cs1, p1⟩
  obtain ⟨c1, hc1, hp1⟩ := scanDigits_spec cs (String.mk [first]) p
  rw [hsd] at hc1 hp1
  simp only [read_number, hsd]
  split
  · next cs2 =>
    rcases hsf : scanDigitsFlag (n1.push '.') false cs2 (advancePos p1 '.') with ⟨n2, hd, cs3, p3⟩
    obtain ⟨c2, hc2, hp2⟩ := scanDigitsFlag_spec cs2 (n1.push '.') false (advancePos p1 '.')
    rw [hsf] at hc2 hp2
    have hcs : cs = (c1 ++ '.' :: c2) ++ cs3 := by
      rw [hc1, hc2]
      simp
    have hpos : p3 = advList p (c1 ++ '.' :: c2) := by
      rw [advList_append, ← hp1]
      simpa [advList] using hp2
    simp only [hsf]
    split
    · exact ⟨c1 ++ '.' :: c2, hcs, hpos, by trivial⟩
    · exact ⟨c1 ++ '.' :: c2, hcs, hpos, by trivial⟩
  · exact ⟨c1, hc1, hp1, by trivial⟩

/-- `read_operator` consumes its first character and at most one more,
advances the cursor over exactly what it consumed, and spans from
`start_pos` to the final cursor. -/
lemma read_operator_spec (start : Position) (first : Char) (cs : List Char) (p : Position) :
    ∃ consumed, cs = consumed ++ (read_operator start first cs p).2.1 ∧
      (read_operator start first cs p).2.2 = advList p (first :: consumed) ∧
      (read_operator start first cs p).1.span =
        Span.new start (read_operator start first cs p).2.2 := by
  unfold read_operator
  split <;>
    first
      | exact ⟨[], rfl, rfl, rfl⟩
      | exact ⟨['='], rfl, rfl, rfl⟩
      | exact ⟨['>'], rfl, rfl, rfl⟩
      | exact ⟨['&'], rfl, rfl, rfl⟩
      | exact ⟨['|'], rfl, rfl, rfl⟩

/-- `read_string` consumes a prefix of its input, advances the cursor over
exactly that prefix, and spans from `start_pos` to the final cursor
(bounded induction on the input length). -/
lemma read_string_spec : ∀ (n : Nat) (cs : List Char), cs.length ≤ n →
    ∀ (start : Position) (string : String) (errors : List DiagnosticError) (p : Position),
    ∃ consumed, cs = consumed ++ (read_string start string errors cs p).2.1 ∧
      (read_string start string errors cs p).2.2 = advList p consumed ∧
      (read_string start string errors cs p).1.span =
        Span.new start (read_string start string errors cs p).2.2 := by
  intro n
  induction n with
  | zero =>
    intro cs hcs start string errors p
    have : cs = [] := List.length_eq_zero.mp (Nat.le_zero.mp hcs)
    subst this
    exact ⟨[], rfl, rfl, rfl⟩
  | succ n ih =>
    intro cs hcs start string errors p
    match cs with
    | [] => exact ⟨[], rfl, rfl, rfl⟩
    | c :: cs1 =>
      rw [read_string.eq_def]
      simp only []
      split
      · -- the closing quote
        exact ⟨['"'], rfl, rfl, rfl⟩
      · -- a backslash
        split
        · -- end of input after the backslash
          exact ⟨['\\'], rfl, rfl, rfl⟩
        · -- an escaped character: each escape arm consumes two characters
          -- and continues the loop on `cs2`
          next escaped cs2 =>
            split
            all_goals
              obtain ⟨consumed, h1, h2, h3⟩ :=
                ih cs2 (by simp only [List.length_cons] at hcs; omega) start _ _ _
            all_goals
              first
              | exact ⟨'\\' :: 'n' :: consumed, by (conv_lhs => rw [h1]); rfl, h2, h3⟩
              | exact ⟨'\\' :: 't' :: consumed, by (conv_lhs => rw [h1]); rfl, h2, h3⟩
              | exact ⟨'\\' :: 'r' :: consumed, by (conv_lhs => rw [h1]); rfl, h2, h3⟩
              | exact ⟨'\\' :: '\\' :: consumed, by (conv_lhs => rw [h1]); rfl, h2, h3⟩
              | exact ⟨'\\' :: '"' :: consumed, by (conv_lhs => rw [h1]); rfl, h2, h3⟩
              | exact ⟨'\\' :: escaped :: consumed, by (conv_lhs => rw [h1]); rfl, h2, h3⟩
      · -- an ordinary character
        obtain ⟨consumed, h1, h2, h3⟩ :=
          ih cs1 (by simp only [List.length_cons] at hcs; omega) start _ _ _
        refine ⟨c :: consumed, ?_, ?_, h3⟩
        · rw [List.cons_append]
          exact congrArg _ h1
        · exact h2

/-- One lexer step: if `next` answers `none` the whole remaining input is
whitespace; if it produces a token, the input splits into a whitespace
run, a nonempty consumed segment covered exactly by the token's span,
and the rest, with the cursor advanced over the first two parts. -/
lemma next_spec (cs : List Char) (p : Position) :
    (next cs p = none → cs.all isRustWhitespace = true) ∧
    (∀ t cs1 p1, next cs p = some (t, cs1, p1) →
      ∃ ws consumed, cs = ws ++ consumed ++ cs1 ∧
        ws.all isRustWhitespace = true ∧ consumed ≠ [] ∧
        t.span.start = advList p ws ∧
        t.span.stop = p1 ∧
        p1 = advList p (ws ++ consumed)) := by
  rcases hsw : skip_whitespace cs p with ⟨csA, pA⟩
  obtain ⟨ws, hw1, hw2, hw3⟩ := skip_whitespace_spec cs p
  rw [hsw] at hw1 hw3
  dsimp only at hw1 hw3
  simp only [next, hsw]
  match csA with
  | [] =>
    refine ⟨fun _ => ?_, fun t cs1 p1 h => by simp at h⟩
    rw [hw1, List.append_nil]
    exact hw2
  | first :: rest =>
    have hnw : isRustWhitespace first = false :=
      skip_whitespace_head_not_ws cs p first rest (by rw [hsw])
    refine ⟨fun h => by dsimp only at h; split_ifs at h <;> simp_all,
      fun t cs1 p1 h => ?_⟩
    dsimp only at h
    split_ifs at h with h1 h2 h3 h4 h5 h6
    · -- digit: read_number
      obtain ⟨consumed, hc, hp, hspan⟩ := read_number_spec first pA rest (advancePos pA first)
      rw [Option.some_inj] at h
      obtain ⟨rfl, rfl, rfl⟩ : t = _ ∧ cs1 = _ ∧ p1 = _ := by
        rw [Prod.ext_iff, Prod.ext_iff] at h
        exact ⟨h.1.symm, h.2.1.symm, h.2.2.symm⟩
      refine ⟨ws, first :: consumed, ?_, hw2, by simp, ?_, ?_, ?_⟩
      · rw [hw1]
        conv_lhs => rw [hc]
        simp
      · rw [hspan, hw3] <;> try rfl
      · rw [hspan] <;> try rfl
      · rw [hp, hw3, advList_append] <;> try rfl
    · -- letter or underscore: read_identifier
      obtain ⟨consumed, hc, hp, hspan⟩ := read_identifier_spec first pA rest (advancePos pA first)
      rw [Option.some_inj] at h
      obtain ⟨rfl, rfl, rfl⟩ : t = _ ∧ cs1 = _ ∧ p1 = _ := by
        rw [Prod.ext_iff, Prod.ext_iff] at h
        exact ⟨h.1.symm, h.2.1.symm, h.2.2.symm⟩
      refine ⟨ws, first :: consumed, ?_, hw2, by simp, ?_, ?_, ?_⟩
      · rw [hw1]
        conv_lhs => rw [hc]
        simp
      · rw [hspan, hw3] <;> try rfl
      · rw [hspan] <;> try rfl
      · rw [hp, hw3, advList_append] <;> try rfl
    · -- operator lead character: read_operator
      obtain ⟨consumed, hc, hp, hspan⟩ := read_operator_spec pA first rest pA
      rw [Option.some_inj] at h
      obtain ⟨rfl, rfl, rfl⟩ : t = _ ∧ cs1 = _ ∧ p1 = _ := by
        rw [Prod.ext_iff, Prod.ext_iff] at h
        exact ⟨h.1.symm, h.2.1.symm, h.2.2.symm⟩
      refine ⟨ws, first :: consumed, ?_, hw2, by simp, ?_, ?_, ?_⟩
      · rw [hw1]
        conv_lhs => rw [hc]
        simp
      · rw [hspan, hw3] <;> try rfl
      · rw [hspan] <;> try rfl
      · rw [hp, hw3, advList_append] <;> try rfl
    · -- double quote: read_string
      obtain ⟨consumed, hc, hp, hspan⟩ :=
        read_string_spec rest.length rest le_rfl pA "" [] (advancePos pA first)
      rw [Option.some_inj] at h
      obtain ⟨rfl, rfl, rfl⟩ : t = _ ∧ cs1 = _ ∧ p1 = _ := by
        rw [Prod.ext_iff, Prod.ext_iff] at h
        exact ⟨h.1.symm, h.2.1.symm, h.2.2.symm⟩
      refine ⟨ws, first :: consumed, ?_, hw2, by simp, ?_, ?_, ?_⟩
      · rw [hw1]
        conv_lhs => rw [hc]
        simp
      · rw [hspan, hw3] <;> try rfl
      · rw [hspan] <;> try rfl
      · rw [hp, hw3, advList_append] <;> try rfl
    · -- semicolon
      rw [Option.some_inj] at h
      obtain ⟨rfl, rfl, rfl⟩ : t = _ ∧ cs1 = _ ∧ p1 = _ := by
        rw [Prod.ext_iff, Prod.ext_iff] at h
        exact ⟨h.1.symm, h.2.1.symm, h.2.2.symm⟩
      refine ⟨ws, [first], ?_, hw2, by simp, ?_, ?_, ?_⟩
      · rw [hw1]
        simp
      · rw [hw3] <;> try rfl
      · rfl
      · rw [hw3, advList_append] <;> try rfl
    · -- unexpected character (the whitespace guard arm of the source is
      -- discharged by `split_ifs` itself: `hnw` rewrites its condition to
      -- `false`)
      rw [Option.some_inj] at h
      obtain ⟨rfl, rfl, rfl⟩ : t = _ ∧ cs1 = _ ∧ p1 = _ := by
        rw [Prod.ext_iff, Prod.ext_iff] at h
        exact ⟨h.1.symm, h.2.1.symm, h.2.2.symm⟩
      refine ⟨ws, [first], ?_, hw2, by simp, ?_, ?_, ?_⟩
      · rw [hw1]
        simp
      · rw [hw3] <;> try rfl
      · rfl
      · rw [hw3, advList_append] <;> try rfl

lemma spanOffsets_cons (t : Token) (ts : List Token) :
    spanOffsets (t :: ts) = (t.span.start.absolute, t.span.stop.absolute) :: spanOffsets ts := rfl

/-- Lossless coverage of `lexFuel`, generalised over an already-consumed
prefix `pre`: rebuilding the remaining input from the emitted spans (and
the whitespace gaps between them) gives back exactly that remaining
input, and every gap is whitespace. -/
lemma lexFuel_cover (fuel : Nat) :
    ∀ (cs pre : List Char), cs.length < fuel →
      rebuild (pre ++ cs) (spanOffsets (lexFuel fuel cs (advList initPos pre))) (utf8Len pre) = cs ∧
      gapsAreWs (pre ++ cs) (spanOffsets (lexFuel fuel cs (advList initPos pre))) (utf8Len pre) = true := by
  induction fuel with
  | zero => intro cs pre h; exact absurd h (Nat.not_lt_zero _)
  | succ fuel ih =>
    intro cs pre hlen
    rcases hnext : next cs (advList initPos pre) with - | ⟨t, cs1, p1⟩
    · -- the lexer is done: the whole remainder is whitespace
      have hws := (next_spec cs (advList initPos pre)).1 hnext
      have hslice : byteSlice (pre ++ cs) (utf8Len pre) (utf8Len (pre ++ cs)) = cs := by
        rw [utf8Len_append]
        have h := byteSlice_exact pre cs []
        simpa using h
      simp only [lexFuel, hnext, spanOffsets, List.map_nil, rebuild, gapsAreWs]
      exact ⟨hslice, by rw [hslice]; exact hws⟩
    · -- one more token: whitespace gap `ws`, then the span slice `consumed`
      obtain ⟨ws, consumed, hsplit, hwsall, hne, hstart, hstop, hp1⟩ :=
        (next_spec cs (advList initPos pre)).2 t cs1 p1 hnext
      have hpabs : (advList initPos pre).absolute = utf8Len pre := by
        rw [advList_absolute]; simp [initPos]
      have ha : t.span.start.absolute = utf8Len (pre ++ ws) := by
        rw [hstart, advList_absolute, hpabs, utf8Len_append]
      have hb : t.span.stop.absolute = utf8Len (pre ++ (ws ++ consumed)) := by
        rw [hstop, hp1, advList_absolute, hpabs]
        simp [utf8Len_append]
      have hp1' : p1 = advList initPos (pre ++ (ws ++ consumed)) := by
        rw [hp1]
        simp [advList_append]
      have hlen1 : cs1.length < fuel := by
        have h1 : cs.length = ws.length + (consumed.length + cs1.length) := by
          rw [hsplit]; simp
        have h2 : 0 < consumed.length := List.length_pos.mpr hne
        omega
      have hfull : pre ++ cs = (pre ++ (ws ++ consumed)) ++ cs1 := by
        rw [hsplit]; simp
      obtain ⟨ih1, ih2⟩ := ih cs1 (pre ++ (ws ++ consumed)) hlen1
      have e1 : byteSlice (pre ++ cs) (utf8Len pre) (utf8Len (pre ++ ws)) = ws := by
        rw [hsplit, utf8Len_append]
        have h := byteSlice_exact pre ws (consumed ++ cs1)
        simpa using h
      have e2 : byteSlice (pre ++ cs) (utf8Len (pre ++ ws))
          (utf8Len (pre ++ (ws ++ consumed))) = consumed := by
        rw [hsplit]
        have h := byteSlice_exact (pre ++ ws) consumed cs1
        have hu : utf8Len (pre ++ (ws ++ consumed)) =
            utf8Len (pre ++ ws) + utf8Len consumed := by
          simp [utf8Len_append, Nat.add_assoc]
        rw [hu]
        simpa [List.append_assoc] using h
      have e3 : rebuild (pre ++ cs) (spanOffsets (lexFuel fuel cs1 p1))
          (utf8Len (pre ++ (ws ++ consumed))) = cs1 := by
        rw [hp1', hfull]; exact ih1
      have e4 : gapsAreWs (pre ++ cs) (spanOffsets (lexFuel fuel cs1 p1))
          (utf8Len (pre ++ (ws ++ consumed))) = true := by
        rw [hp1', hfull]; exact ih2
      simp only [lexFuel, hnext, spanOffsets_cons, rebuild, gapsAreWs, ha, hb]
      refine ⟨?_, ?_⟩
      · rw [e1, e2, e3, hsplit]
      · rw [e1, e4, hwsall]
        rfl

end Lexer

/-! ### Helper lemmas for evaluating the parser on the claim C7 token
sequence.

Definitional reduction of the knot-tied parser is quadratic in the number
of consumed tokens (every primitive re-forces the unreduced cursor thunk),
so the concrete parse of `"(f, x) -> f(x)"` is evaluated by rewriting
instead: one lemma per `prods` level, composed bottom-up.  `PM.bind_apply`
and `PM.pure_apply` expose the monad operations to `simp`; the `c7prodsN`
lemmas unfold one fuel level each.  Lemmas that hold for every production
record `p` (loop iterations that match nothing, `primary` on an
identifier, which touch no recursive entry point) are proved by `rfl`. -/

lemma PM.bind_apply {α β : Type} (x : PM α) (f : α → PM β) (c : Nat) :
    (x >>= f) c = match x c with
      | .ok a c1 => f a c1
      | .err m => .err m
      | .oob => .oob
      | .fuelOut => .fuelOut := rfl

lemma PM.pure_apply {α : Type} (a : α) (c : Nat) : (pure a : PM α) c = .ok a c := rfl

lemma c7prods1 : Parser.prods [⟨.LeftParen⟩, ⟨.Identifier "f"⟩, ⟨.Comma⟩, ⟨.Identifier "x"⟩, ⟨.RightParen⟩, ⟨.Arrow⟩, ⟨.Identifier "f"⟩, ⟨.LeftParen⟩, ⟨.Identifier "x"⟩, ⟨.RightParen⟩, ⟨.Eof⟩] 1 = Parser.mkProds [⟨.LeftParen⟩, ⟨.Identifier "f"⟩, ⟨.Comma⟩, ⟨.Identifier "x"⟩, ⟨.RightParen⟩, ⟨.Arrow⟩, ⟨.Identifier "f"⟩, ⟨.LeftParen⟩, ⟨.Identifier "x"⟩, ⟨.RightParen⟩, ⟨.Eof⟩] (Parser.prods [⟨.LeftParen⟩, ⟨.Identifier "f"⟩, ⟨.Comma⟩, ⟨.Identifier "x"⟩, ⟨.RightParen⟩, ⟨.Arrow⟩, ⟨.Identifier "f"⟩, ⟨.LeftParen⟩, ⟨.Identifier "x"⟩, ⟨.RightParen⟩, ⟨.Eof⟩] 0) := rfl
lemma c7prods2 : Parser.prods [⟨.LeftParen⟩, ⟨.Identifier "f"⟩, ⟨.Comma⟩, ⟨.Identifier "x"⟩, ⟨.RightParen⟩, ⟨.Arrow⟩, ⟨.Identifier "f"⟩, ⟨.LeftParen⟩, ⟨.Identifier "x"⟩, ⟨.RightParen⟩, ⟨.Eof⟩] 2 = Parser.mkProds [⟨.LeftParen⟩, ⟨.Identifier "f"⟩, ⟨.Comma⟩, ⟨.Identifier "x"⟩, ⟨.RightParen⟩, ⟨.Arrow⟩, ⟨.Identifier "f"⟩, ⟨.LeftParen⟩, ⟨.Identifier "x"⟩, ⟨.RightParen⟩, ⟨.Eof⟩] (Parser.prods [⟨.LeftParen⟩, ⟨.Identifier "f"⟩, ⟨.Comma⟩, ⟨.Identifier "x"⟩, ⟨.RightParen⟩, ⟨.Arrow⟩, ⟨.Identifier "f"⟩, ⟨.LeftParen⟩, ⟨.Identifier "x"⟩, ⟨.RightParen⟩, ⟨.Eof⟩] 1) := rfl
lemma c7prods3 : Parser.prods [⟨.LeftParen⟩, ⟨.Identifier "f"⟩, ⟨.Comma⟩, ⟨.Identifier "x"⟩, ⟨.RightParen⟩, ⟨.Arrow⟩, ⟨.Identifier "f"⟩, ⟨.LeftParen⟩, ⟨.Identifier "x"⟩, ⟨.RightParen⟩, ⟨.Eof⟩] 3 = Parser.mkProds [⟨.LeftParen⟩, ⟨.Identifier "f"⟩, ⟨.Comma⟩, ⟨.Identifier "x"⟩, ⟨.RightParen⟩, ⟨.Arrow⟩, ⟨.Identifier "f"⟩, ⟨.LeftParen⟩, ⟨.Identifier "x"⟩, ⟨.RightParen⟩, ⟨.Eof⟩] (Parser.prods [⟨.LeftParen⟩, ⟨.Identifier "f"⟩, ⟨.Comma⟩, ⟨.Identifier "x"⟩, ⟨.RightParen⟩, ⟨.Arrow⟩, ⟨.Identifier "f"⟩, ⟨.LeftParen⟩, ⟨.Identifier "x"⟩, ⟨.RightParen⟩, ⟨.Eof⟩] 2) := rfl
lemma c7prods4 : Parser.prods [⟨.LeftParen⟩, ⟨.Identifier "f"⟩, ⟨.Comma⟩, ⟨.Identifier "x"⟩, ⟨.RightParen⟩, ⟨.Arrow⟩, ⟨.Identifier "f"⟩, ⟨.LeftParen⟩, ⟨.Identifier "x"⟩, ⟨.RightParen⟩, ⟨.Eof⟩] 4 = Parser.mkProds [⟨.LeftParen⟩, ⟨.Identifier "f"⟩, ⟨.Comma⟩, ⟨.Identifier "x"⟩, ⟨.RightParen⟩, ⟨.Arrow⟩, ⟨.Identifier "f"⟩, ⟨.LeftParen⟩, ⟨.Identifier "x"⟩, ⟨.RightParen⟩, ⟨.Eof⟩] (Parser.prods [⟨.LeftParen⟩, ⟨.Identifier "f"⟩, ⟨.Comma⟩, ⟨.Identifier "x"⟩, ⟨.RightParen⟩, ⟨.Arrow⟩, ⟨.Identifier "f"⟩, ⟨.LeftParen⟩, ⟨.Identifier "x"⟩, ⟨.RightParen⟩, ⟨.Eof⟩] 3) := rfl
lemma c7prods5 : Parser.prods [⟨.LeftParen⟩, ⟨.Identifier "f"⟩, ⟨.Comma⟩, ⟨.Identifier "x"⟩, ⟨.RightParen⟩, ⟨.Arrow⟩, ⟨.Identifier "f"⟩, ⟨.LeftParen⟩, ⟨.Identifier "x"⟩, ⟨.RightParen⟩, ⟨.Eof⟩] 5 = Parser.mkProds [⟨.LeftParen⟩, ⟨.Identifier "f"⟩, ⟨.Comma⟩, ⟨.Identifier "x"⟩, ⟨.RightParen⟩, ⟨.Arrow⟩, ⟨.Identifier "f"⟩, ⟨.LeftParen⟩, ⟨.Identifier "x"⟩, ⟨.RightParen⟩, ⟨.Eof⟩] (Parser.prods [⟨.LeftParen⟩, ⟨.Identifier "f"⟩, ⟨.Comma⟩, ⟨.Identifier "x"⟩, ⟨.RightParen⟩, ⟨.Arrow⟩, ⟨.Identifier "f"⟩, ⟨.LeftParen⟩, ⟨.Identifier "x"⟩, ⟨.RightParen⟩, ⟨.Eof⟩] 4) := rfl
lemma c7prods6 : Parser.prods [⟨.LeftParen⟩, ⟨.Identifier "f"⟩, ⟨.Comma⟩, ⟨.Identifier "x"⟩, ⟨.RightParen⟩, ⟨.Arrow⟩, ⟨.Identifier "f"⟩, ⟨.LeftParen⟩, ⟨.Identifier "x"⟩, ⟨.RightParen⟩, ⟨.Eof⟩] 6 = Parser.mkProds [⟨.LeftParen⟩, ⟨.Identifier "f"⟩, ⟨.Comma⟩, ⟨.Identifier "x"⟩, ⟨.RightParen⟩, ⟨.Arrow⟩, ⟨.Identifier "f"⟩, ⟨.LeftParen⟩, ⟨.Identifier "x"⟩, ⟨.RightParen⟩, ⟨.Eof⟩] (Parser.prods [⟨.LeftParen⟩, ⟨.Identifier "f"⟩, ⟨.Comma⟩, ⟨.Identifier "x"⟩, ⟨.RightParen⟩, ⟨.Arrow⟩, ⟨.Identifier "f"⟩, ⟨.LeftParen⟩, ⟨.Identifier "x"⟩, ⟨.RightParen⟩, ⟨.Eof⟩] 5) := rfl
lemma c7prods7 : Parser.prods [⟨.LeftParen⟩, ⟨.Identifier "f"⟩, ⟨.Comma⟩, ⟨.Identifier "x"⟩, ⟨.RightParen⟩, ⟨.Arrow⟩, ⟨.Identifier "f"⟩, ⟨.LeftParen⟩, ⟨.Identifier "x"⟩, ⟨.RightParen⟩, ⟨.Eof⟩] 7 = Parser.mkProds [⟨.LeftParen⟩, ⟨.Identifier "f"⟩, ⟨.Comma⟩, ⟨.Identifier "x"⟩, ⟨.RightParen⟩, ⟨.Arrow⟩, ⟨.Identifier "f"⟩, ⟨.LeftParen⟩, ⟨.Identifier "x"⟩, ⟨.RightParen⟩, ⟨.Eof⟩] (Parser.prods [⟨.LeftParen⟩, ⟨.Identifier "f"⟩, ⟨.Comma⟩, ⟨.Identifier "x"⟩, ⟨.RightParen⟩, ⟨.Arrow⟩, ⟨.Identifier "f"⟩, ⟨.LeftParen⟩, ⟨.Identifier "x"⟩, ⟨.RightParen⟩, ⟨.Eof⟩] 6) := rfl
lemma c7prods8 : Parser.prods [⟨.LeftParen⟩, ⟨.Identifier "f"⟩, ⟨.Comma⟩, ⟨.Identifier "x"⟩, ⟨.RightParen⟩, ⟨.Arrow⟩, ⟨.Identifier "f"⟩, ⟨.LeftParen⟩, ⟨.Identifier "x"⟩, ⟨.RightParen⟩, ⟨.Eof⟩] 8 = Parser.mkProds [⟨.LeftParen⟩, ⟨.Identifier "f"⟩, ⟨.Comma⟩, ⟨.Identifier "x"⟩, ⟨.RightParen⟩, ⟨.Arrow⟩, ⟨.Identifier "f"⟩, ⟨.LeftParen⟩, ⟨.Identifier "x"⟩, ⟨.RightParen⟩, ⟨.Eof⟩] (Parser.prods [⟨.LeftParen⟩, ⟨.Identifier "f"⟩, ⟨.Comma⟩, ⟨.Identifier "x"⟩, ⟨.RightParen⟩, ⟨.Arrow⟩, ⟨.Identifier "f"⟩, ⟨.LeftParen⟩, ⟨.Identifier "x"⟩, ⟨.RightParen⟩, ⟨.Eof⟩] 7) := rfl
lemma c7prods9 : Parser.prods [⟨.LeftParen⟩, ⟨.Identifier "f"⟩, ⟨.Comma⟩, ⟨.Identifier "x"⟩, ⟨.RightParen⟩, ⟨.Arrow⟩, ⟨.Identifier "f"⟩, ⟨.LeftParen⟩, ⟨.Identifier "x"⟩, ⟨.RightParen⟩, ⟨.Eof⟩] 9 = Parser.mkProds [⟨.LeftParen⟩, ⟨.Identifier "f"⟩, ⟨.Comma⟩, ⟨.Identifier "x"⟩, ⟨.RightParen⟩, ⟨.Arrow⟩, ⟨.Identifier "f"⟩, ⟨.LeftParen⟩, ⟨.Identifier "x"⟩, ⟨.RightParen⟩, ⟨.Eof⟩] (Parser.prods [⟨.LeftParen⟩, ⟨.Identifier "f"⟩, ⟨.Comma⟩, ⟨.Identifier "x"⟩, ⟨.RightParen⟩, ⟨.Arrow⟩, ⟨.Identifier "f"⟩, ⟨.LeftParen⟩, ⟨.Identifier "x"⟩, ⟨.RightParen⟩, ⟨.Eof⟩] 8) := rfl
lemma c7prods10 : Parser.prods [⟨.LeftParen⟩, ⟨.Identifier "f"⟩, ⟨.Comma⟩, ⟨.Identifier "x"⟩, ⟨.RightParen⟩, ⟨.Arrow⟩, ⟨.Identifier "f"⟩, ⟨.LeftParen⟩, ⟨.Identifier "x"⟩, ⟨.RightParen⟩, ⟨.Eof⟩] 10 = Parser.mkProds [⟨.LeftParen⟩, ⟨.Identifier "f"⟩, ⟨.Comma⟩, ⟨.Identifier "x"⟩, ⟨.RightParen⟩, ⟨.Arrow⟩, ⟨.Identifier "f"⟩, ⟨.LeftParen⟩, ⟨.Identifier "x"⟩, ⟨.RightParen⟩, ⟨.Eof⟩] (Parser.prods [⟨.LeftParen⟩, ⟨.Identifier "f"⟩, ⟨.Comma⟩, ⟨.Identifier "x"⟩, ⟨.RightParen⟩, ⟨.Arrow⟩, ⟨.Identifier "f"⟩, ⟨.LeftParen⟩, ⟨.Identifier "x"⟩, ⟨.RightParen⟩, ⟨.Eof⟩] 9) := rfl
lemma c7prods11 : Parser.prods [⟨.LeftParen⟩, ⟨.Identifier "f"⟩, ⟨.Comma⟩, ⟨.Identifier "x"⟩, ⟨.RightParen⟩, ⟨.Arrow⟩, ⟨.Identifier "f"⟩, ⟨.LeftParen⟩, ⟨.Identifier "x"⟩, ⟨.RightParen⟩, ⟨.Eof⟩] 11 = Parser.mkProds [⟨.LeftParen⟩, ⟨.Identifier "f"⟩, ⟨.Comma⟩, ⟨.Identifier "x"⟩, ⟨.RightParen⟩, ⟨.Arrow⟩, ⟨.Identifier "f"⟩, ⟨.LeftParen⟩, ⟨.Identifier "x"⟩, ⟨.RightParen⟩, ⟨.Eof⟩] (Parser.prods [⟨.LeftParen⟩, ⟨.Identifier "f"⟩, ⟨.Comma⟩, ⟨.Identifier "x"⟩, ⟨.RightParen⟩, ⟨.Arrow⟩, ⟨.Identifier "f"⟩, ⟨.LeftParen⟩, ⟨.Identifier "x"⟩, ⟨.RightParen⟩, ⟨.Eof⟩] 10) := rfl
lemma c7prods12 : Parser.prods [⟨.LeftParen⟩, ⟨.Identifier "f"⟩, ⟨.Comma⟩, ⟨.Identifier "x"⟩, ⟨.RightParen⟩, ⟨.Arrow⟩, ⟨.Identifier "f"⟩, ⟨.LeftParen⟩, ⟨.Identifier "x"⟩, ⟨.RightParen⟩, ⟨.Eof⟩] 12 = Parser.mkProds [⟨.LeftParen⟩, ⟨.Identifier "f"⟩, ⟨.Comma⟩, ⟨.Identifier "x"⟩, ⟨.RightParen⟩, ⟨.Arrow⟩, ⟨.Identifier "f"⟩, ⟨.LeftParen⟩, ⟨.Identifier "x"⟩, ⟨.RightParen⟩, ⟨.Eof⟩] (Parser.prods [⟨.LeftParen⟩, ⟨.Identifier "f"⟩, ⟨.Comma⟩, ⟨.Identifier "x"⟩, ⟨.RightParen⟩, ⟨.Arrow⟩, ⟨.Identifier "f"⟩, ⟨.LeftParen⟩, ⟨.Identifier "x"⟩, ⟨.RightParen⟩, ⟨.Eof⟩] 11) := rfl
lemma c7prods13 : Parser.prods [⟨.LeftParen⟩, ⟨.Identifier "f"⟩, ⟨.Comma⟩, ⟨.Identifier "x"⟩, ⟨.RightParen⟩, ⟨.Arrow⟩, ⟨.Identifier "f"⟩, ⟨.LeftParen⟩, ⟨.Identifier "x"⟩, ⟨.RightParen⟩, ⟨.Eof⟩] 13 = Parser.mkProds [⟨.LeftParen⟩, ⟨.Identifier "f"⟩, ⟨.Comma⟩, ⟨.Identifier "x"⟩, ⟨.RightParen⟩, ⟨.Arrow⟩, ⟨.Identifier "f"⟩, ⟨.LeftParen⟩, ⟨.Identifier "x"⟩, ⟨.RightParen⟩, ⟨.Eof⟩] (Parser.prods [⟨.LeftParen⟩, ⟨.Identifier "f"⟩, ⟨.Comma⟩, ⟨.Identifier "x"⟩, ⟨.RightParen⟩, ⟨.Arrow⟩, ⟨.Identifier "f"⟩, ⟨.LeftParen⟩, ⟨.Identifier "x"⟩, ⟨.RightParen⟩, ⟨.Eof⟩] 12) := rfl
lemma c7prods14 : Parser.prods [⟨.LeftParen⟩, ⟨.Identifier "f"⟩, ⟨.Comma⟩, ⟨.Identifier "x"⟩, ⟨.RightParen⟩, ⟨.Arrow⟩, ⟨.Identifier "f"⟩, ⟨.LeftParen⟩, ⟨.Identifier "x"⟩, ⟨.RightParen⟩, ⟨.Eof⟩] 14 = Parser.mkProds [⟨.LeftParen⟩, ⟨.Identifier "f"⟩, ⟨.Comma⟩, ⟨.Identifier "x"⟩, ⟨.RightParen⟩, ⟨.Arrow⟩, ⟨.Identifier "f"⟩, ⟨.LeftParen⟩, ⟨.Identifier "x"⟩, ⟨.RightParen⟩, ⟨.Eof⟩] (Parser.prods [⟨.LeftParen⟩, ⟨.Identifier "f"⟩, ⟨.Comma⟩, ⟨.Identifier "x"⟩, ⟨.RightParen⟩, ⟨.Arrow⟩, ⟨.Identifier "f"⟩, ⟨.LeftParen⟩, ⟨.Identifier "x"⟩, ⟨.RightParen⟩, ⟨.Eof⟩] 13) := rfl
lemma c7prods15 : Parser.prods [⟨.LeftParen⟩, ⟨.Identifier "f"⟩, ⟨.Comma⟩, ⟨.Identifier "x"⟩, ⟨.RightParen⟩, ⟨.Arrow⟩, ⟨.Identifier "f"⟩, ⟨.LeftParen⟩, ⟨.Identifier "x"⟩, ⟨.RightParen⟩, ⟨.Eof⟩] 15 = Parser.mkProds [⟨.LeftParen⟩, ⟨.Identifier "f"⟩, ⟨.Comma⟩, ⟨.Identifier "x"⟩, ⟨.RightParen⟩, ⟨.Arrow⟩, ⟨.Identifier "f"⟩, ⟨.LeftParen⟩, ⟨.Identifier "x"⟩, ⟨.RightParen⟩, ⟨.Eof⟩] (Parser.prods [⟨.LeftParen⟩, ⟨.Identifier "f"⟩, ⟨.Comma⟩, ⟨.Identifier "x"⟩, ⟨.RightParen⟩, ⟨.Arrow⟩, ⟨.Identifier "f"⟩, ⟨.LeftParen⟩, ⟨.Identifier "x"⟩, ⟨.RightParen⟩, ⟨.Eof⟩] 14) := rfl
lemma c7prods16 : Parser.prods [⟨.LeftParen⟩, ⟨.Identifier "f"⟩, ⟨.Comma⟩, ⟨.Identifier "x"⟩, ⟨.RightParen⟩, ⟨.Arrow⟩, ⟨.Identifier "f"⟩, ⟨.LeftParen⟩, ⟨.Identifier "x"⟩, ⟨.RightParen⟩, ⟨.Eof⟩] 16 = Parser.mkProds [⟨.LeftParen⟩, ⟨.Identifier "f"⟩, ⟨.Comma⟩, ⟨.Identifier "x"⟩, ⟨.RightParen⟩, ⟨.Arrow⟩, ⟨.Identifier "f"⟩, ⟨.LeftParen⟩, ⟨.Identifier "x"⟩, ⟨.RightParen⟩, ⟨.Eof⟩] (Parser.prods [⟨.LeftParen⟩, ⟨.Identifier "f"⟩, ⟨.Comma⟩, ⟨.Identifier "x"⟩, ⟨.RightParen⟩, ⟨.Arrow⟩, ⟨.Identifier "f"⟩, ⟨.LeftParen⟩, ⟨.Identifier "x"⟩, ⟨.RightParen⟩, ⟨.Eof⟩] 15) := rfl
lemma c7prods17 : Parser.prods [⟨.LeftParen⟩, ⟨.Identifier "f"⟩, ⟨.Comma⟩, ⟨.Identifier "x"⟩, ⟨.RightParen⟩, ⟨.Arrow⟩, ⟨.Identifier "f"⟩, ⟨.LeftParen⟩, ⟨.Identifier "x"⟩, ⟨.RightParen⟩, ⟨.Eof⟩] 17 = Parser.mkProds [⟨.LeftParen⟩, ⟨.Identifier "f"⟩, ⟨.Comma⟩, ⟨.Identifier "x"⟩, ⟨.RightParen⟩, ⟨.Arrow⟩, ⟨.Identifier "f"⟩, ⟨.LeftParen⟩, ⟨.Identifier "x"⟩, ⟨.RightParen⟩, ⟨.Eof⟩] (Parser.prods [⟨.LeftParen⟩, ⟨.Identifier "f"⟩, ⟨.Comma⟩, ⟨.Identifier "x"⟩, ⟨.RightParen⟩, ⟨.Arrow⟩, ⟨.Identifier "f"⟩, ⟨.LeftParen⟩, ⟨.Identifier "x"⟩, ⟨.RightParen⟩, ⟨.Eof⟩] 16) := rfl
lemma c7prods18 : Parser.prods [⟨.LeftParen⟩, ⟨.Identifier "f"⟩, ⟨.Comma⟩, ⟨.Identifier "x"⟩, ⟨.RightParen⟩, ⟨.Arrow⟩, ⟨.Identifier "f"⟩, ⟨.LeftParen⟩, ⟨.Identifier "x"⟩, ⟨.RightParen⟩, ⟨.Eof⟩] 18 = Parser.mkProds [⟨.LeftParen⟩, ⟨.Identifier "f"⟩, ⟨.Comma⟩, ⟨.Identifier "x"⟩, ⟨.RightParen⟩, ⟨.Arrow⟩, ⟨.Identifier "f"⟩, ⟨.LeftParen⟩, ⟨.Identifier "x"⟩, ⟨.RightParen⟩, ⟨.Eof⟩] (Parser.prods [⟨.LeftParen⟩, ⟨.Identifier "f"⟩, ⟨.Comma⟩, ⟨.Identifier "x"⟩, ⟨.RightParen⟩, ⟨.Arrow⟩, ⟨.Identifier "f"⟩, ⟨.LeftParen⟩, ⟨.Identifier "x"⟩, ⟨.RightParen⟩, ⟨.Eof⟩] 17) := rfl
lemma c7prods19 : Parser.prods [⟨.LeftParen⟩, ⟨.Identifier "f"⟩, ⟨.Comma⟩, ⟨.Identifier "x"⟩, ⟨.RightParen⟩, ⟨.Arrow⟩, ⟨.Identifier "f"⟩, ⟨.LeftParen⟩, ⟨.Identifier "x"⟩, ⟨.RightParen⟩, ⟨.Eof⟩] 19 = Parser.mkProds [⟨.LeftParen⟩, ⟨.Identifier "f"⟩, ⟨.Comma⟩, ⟨.Identifier "x"⟩, ⟨.RightParen⟩, ⟨.Arrow⟩, ⟨.Identifier "f"⟩, ⟨.LeftParen⟩, ⟨.Identifier "x"⟩, ⟨.RightParen⟩, ⟨.Eof⟩] (Parser.prods [⟨.LeftParen⟩, ⟨.Identifier "f"⟩, ⟨.Comma⟩, ⟨.Identifier "x"⟩, ⟨.RightParen⟩, ⟨.Arrow⟩, ⟨.Identifier "f"⟩, ⟨.LeftParen⟩, ⟨.Identifier "x"⟩, ⟨.RightParen⟩, ⟨.Eof⟩] 18) := rfl
lemma c7prods20 : Parser.prods [⟨.LeftParen⟩, ⟨.Identifier "f"⟩, ⟨.Comma⟩, ⟨.Identifier "x"⟩, ⟨.RightParen⟩, ⟨.Arrow⟩, ⟨.Identifier "f"⟩, ⟨.LeftParen⟩, ⟨.Identifier "x"⟩, ⟨.RightParen⟩, ⟨.Eof⟩] 20 = Parser.mkProds [⟨.LeftParen⟩, ⟨.Identifier "f"⟩, ⟨.Comma⟩, ⟨.Identifier "x"⟩, ⟨.RightParen⟩, ⟨.Arrow⟩, ⟨.Identifier "f"⟩, ⟨.LeftParen⟩, ⟨.Identifier "x"⟩, ⟨.RightParen⟩, ⟨.Eof⟩] (Parser.prods [⟨.LeftParen⟩, ⟨.Identifier "f"⟩, ⟨.Comma⟩, ⟨.Identifier "x"⟩, ⟨.RightParen⟩, ⟨.Arrow⟩, ⟨.Identifier "f"⟩, ⟨.LeftParen⟩, ⟨.Identifier "x"⟩, ⟨.RightParen⟩, ⟨.Eof⟩] 19) := rfl
lemma c7prods21 : Parser.prods [⟨.LeftParen⟩, ⟨.Identifier "f"⟩, ⟨.Comma⟩, ⟨.Identifier "x"⟩, ⟨.RightParen⟩, ⟨.Arrow⟩, ⟨.Identifier "f"⟩, ⟨.LeftParen⟩, ⟨.Identifier "x"⟩, ⟨.RightParen⟩, ⟨.Eof⟩] 21 = Parser.mkProds [⟨.LeftParen⟩, ⟨.Identifier "f"⟩, ⟨.Comma⟩, ⟨.Identifier "x"⟩, ⟨.RightParen⟩, ⟨.Arrow⟩, ⟨.Identifier "f"⟩, ⟨.LeftParen⟩, ⟨.Identifier "x"⟩, ⟨.RightParen⟩, ⟨.Eof⟩] (Parser.prods [⟨.LeftParen⟩, ⟨.Identifier "f"⟩, ⟨.Comma⟩, ⟨.Identifier "x"⟩, ⟨.RightParen⟩, ⟨.Arrow⟩, ⟨.Identifier "f"⟩, ⟨.LeftParen⟩, ⟨.Identifier "x"⟩, ⟨.RightParen⟩, ⟨.Eof⟩] 20) := rfl

lemma c7lc : Parser.lambda_check [⟨.LeftParen⟩, ⟨.Identifier "f"⟩, ⟨.Comma⟩, ⟨.Identifier "x"⟩, ⟨.RightParen⟩, ⟨.Arrow⟩, ⟨.Identifier "f"⟩, ⟨.LeftParen⟩, ⟨.Identifier "x"⟩, ⟨.RightParen⟩, ⟨.Eof⟩] 1 = .ok true 1 := rfl

lemma c7_logical_or_loop_7 (p : Parser.Prods) (e : Expr) : Parser.logical_or_loopF [⟨.LeftParen⟩, ⟨.Identifier "f"⟩, ⟨.Comma⟩, ⟨.Identifier "x"⟩, ⟨.RightParen⟩, ⟨.Arrow⟩, ⟨.Identifier "f"⟩, ⟨.LeftParen⟩, ⟨.Identifier "x"⟩, ⟨.RightParen⟩, ⟨.Eof⟩] p e 7 = .ok e 7 := rfl
lemma c7_logical_and_loop_7 (p : Parser.Prods) (e : Expr) : Parser.logical_and_loopF [⟨.LeftParen⟩, ⟨.Identifier "f"⟩, ⟨.Comma⟩, ⟨.Identifier "x"⟩, ⟨.RightParen⟩, ⟨.Arrow⟩, ⟨.Identifier "f"⟩, ⟨.LeftParen⟩, ⟨.Identifier "x"⟩, ⟨.RightParen⟩, ⟨.Eof⟩] p e 7 = .ok e 7 := rfl
lemma c7_equality_loop_7 (p : Parser.Prods) (e : Expr) : Parser.equality_loopF [⟨.LeftParen⟩, ⟨.Identifier "f"⟩, ⟨.Comma⟩, ⟨.Identifier "x"⟩, ⟨.RightParen⟩, ⟨.Arrow⟩, ⟨.Identifier "f"⟩, ⟨.LeftParen⟩, ⟨.Identifier "x"⟩, ⟨.RightParen⟩, ⟨.Eof⟩] p e 7 = .ok e 7 := rfl
lemma c7_comparison_loop_7 (p : Parser.Prods) (e : Expr) : Parser.comparison_loopF [⟨.LeftParen⟩, ⟨.Identifier "f"⟩, ⟨.Comma⟩, ⟨.Identifier "x"⟩, ⟨.RightParen⟩, ⟨.Arrow⟩, ⟨.Identifier "f"⟩, ⟨.LeftParen⟩, ⟨.Identifier "x"⟩, ⟨.RightParen⟩, ⟨.Eof⟩] p e 7 = .ok e 7 := rfl
lemma c7_addition_loop_7 (p : Parser.Prods) (e : Expr) : Parser.addition_loopF [⟨.LeftParen⟩, ⟨.Identifier "f"⟩, ⟨.Comma⟩, ⟨.Identifier "x"⟩, ⟨.RightParen⟩, ⟨.Arrow⟩, ⟨.Identifier "f"⟩, ⟨.LeftParen⟩, ⟨.Identifier "x"⟩, ⟨.RightParen⟩, ⟨.Eof⟩] p e 7 = .ok e 7 := rfl
lemma c7_multiplication_loop_7 (p : Parser.Prods) (e : Expr) : Parser.multiplication_loopF [⟨.LeftParen⟩, ⟨.Identifier "f"⟩, ⟨.Comma⟩, ⟨.Identifier "x"⟩, ⟨.RightParen⟩, ⟨.Arrow⟩, ⟨.Identifier "f"⟩, ⟨.LeftParen⟩, ⟨.Identifier "x"⟩, ⟨.RightParen⟩, ⟨.Eof⟩] p e 7 = .ok e 7 := rfl
lemma c7_logical_or_loop_9 (p : Parser.Prods) (e : Expr) : Parser.logical_or_loopF [⟨.LeftParen⟩, ⟨.Identifier "f"⟩, ⟨.Comma⟩, ⟨.Identifier "x"⟩, ⟨.RightParen⟩, ⟨.Arrow⟩, ⟨.Identifier "f"⟩, ⟨.LeftParen⟩, ⟨.Identifier "x"⟩, ⟨.RightParen⟩, ⟨.Eof⟩] p e 9 = .ok e 9 := rfl
lemma c7_logical_and_loop_9 (p : Parser.Prods) (e : Expr) : Parser.logical_and_loopF [⟨.LeftParen⟩, ⟨.Identifier "f"⟩, ⟨.Comma⟩, ⟨.Identifier "x"⟩, ⟨.RightParen⟩, ⟨.Arrow⟩, ⟨.Identifier "f"⟩, ⟨.LeftParen⟩, ⟨.Identifier "x"⟩, ⟨.RightParen⟩, ⟨.Eof⟩] p e 9 = .ok e 9 := rfl
lemma c7_equality_loop_9 (p : Parser.Prods) (e : Expr) : Parser.equality_loopF [⟨.LeftParen⟩, ⟨.Identifier "f"⟩, ⟨.Comma⟩, ⟨.Identifier "x"⟩, ⟨.RightParen⟩, ⟨.Arrow⟩, ⟨.Identifier "f"⟩, ⟨.LeftParen⟩, ⟨.Identifier "x"⟩, ⟨.RightParen⟩, ⟨.Eof⟩] p e 9 = .ok e 9 := rfl
lemma c7_comparison_loop_9 (p : Parser.Prods) (e : Expr) : Parser.comparison_loopF [⟨.LeftParen⟩, ⟨.Identifier "f"⟩, ⟨.Comma⟩, ⟨.Identifier "x"⟩, ⟨.RightParen⟩, ⟨.Arrow⟩, ⟨.Identifier "f"⟩, ⟨.LeftParen⟩, ⟨.Identifier "x"⟩, ⟨.RightParen⟩, ⟨.Eof⟩] p e 9 = .ok e 9 := rfl
lemma c7_addition_loop_9 (p : Parser.Prods) (e : Expr) : Parser.addition_loopF [⟨.LeftParen⟩, ⟨.Identifier "f"⟩, ⟨.Comma⟩, ⟨.Identifier "x"⟩, ⟨.RightParen⟩, ⟨.Arrow⟩, ⟨.Identifier "f"⟩, ⟨.LeftParen⟩, ⟨.Identifier "x"⟩, ⟨.RightParen⟩, ⟨.Eof⟩] p e 9 = .ok e 9 := rfl
lemma c7_multiplication_loop_9 (p : Parser.Prods) (e : Expr) : Parser.multiplication_loopF [⟨.LeftParen⟩, ⟨.Identifier "f"⟩, ⟨.Comma⟩, ⟨.Identifier "x"⟩, ⟨.RightParen⟩, ⟨.Arrow⟩, ⟨.Identifier "f"⟩, ⟨.LeftParen⟩, ⟨.Identifier "x"⟩, ⟨.RightParen⟩, ⟨.Eof⟩] p e 9 = .ok e 9 := rfl
lemma c7_logical_or_loop_10 (p : Parser.Prods) (e : Expr) : Parser.logical_or_loopF [⟨.LeftParen⟩, ⟨.Identifier "f"⟩, ⟨.Comma⟩, ⟨.Identifier "x"⟩, ⟨.RightParen⟩, ⟨.Arrow⟩, ⟨.Identifier "f"⟩, ⟨.LeftParen⟩, ⟨.Identifier "x"⟩, ⟨.RightParen⟩, ⟨.Eof⟩] p e 10 = .ok e 10 := rfl
lemma c7_logical_and_loop_10 (p : Parser.Prods) (e : Expr) : Parser.logical_and_loopF [⟨.LeftParen⟩, ⟨.Identifier "f"⟩, ⟨.Comma⟩, ⟨.Identifier "x"⟩, ⟨.RightParen⟩, ⟨.Arrow⟩, ⟨.Identifier "f"⟩, ⟨.LeftParen⟩, ⟨.Identifier "x"⟩, ⟨.RightParen⟩, ⟨.Eof⟩] p e 10 = .ok e 10 := rfl
lemma c7_equality_loop_10 (p : Parser.Prods) (e : Expr) : Parser.equality_loopF [⟨.LeftParen⟩, ⟨.Identifier "f"⟩, ⟨.Comma⟩, ⟨.Identifier "x"⟩, ⟨.RightParen⟩, ⟨.Arrow⟩, ⟨.Identifier "f"⟩, ⟨.LeftParen⟩, ⟨.Identifier "x"⟩, ⟨.RightParen⟩, ⟨.Eof⟩] p e 10 = .ok e 10 := rfl
lemma c7_comparison_loop_10 (p : Parser.Prods) (e : Expr) : Parser.comparison_loopF [⟨.LeftParen⟩, ⟨.Identifier "f"⟩, ⟨.Comma⟩, ⟨.Identifier "x"⟩, ⟨.RightParen⟩, ⟨.Arrow⟩, ⟨.Identifier "f"⟩, ⟨.LeftParen⟩, ⟨.Identifier "x"⟩, ⟨.RightParen⟩, ⟨.Eof⟩] p e 10 = .ok e 10 := rfl
lemma c7_addition_loop_10 (p : Parser.Prods) (e : Expr) : Parser.addition_loopF [⟨.LeftParen⟩, ⟨.Identifier "f"⟩, ⟨.Comma⟩, ⟨.Identifier "x"⟩, ⟨.RightParen⟩, ⟨.Arrow⟩, ⟨.Identifier "f"⟩, ⟨.LeftParen⟩, ⟨.Identifier "x"⟩, ⟨.RightParen⟩, ⟨.Eof⟩] p e 10 = .ok e 10 := rfl
lemma c7_multiplication_loop_10 (p : Parser.Prods) (e : Expr) : Parser.multiplication_loopF [⟨.LeftParen⟩, ⟨.Identifier "f"⟩, ⟨.Comma⟩, ⟨.Identifier "x"⟩, ⟨.RightParen⟩, ⟨.Arrow⟩, ⟨.Identifier "f"⟩, ⟨.LeftParen⟩, ⟨.Identifier "x"⟩, ⟨.RightParen⟩, ⟨.Eof⟩] p e 10 = .ok e 10 := rfl

lemma c7_primary_f (p : Parser.Prods) : Parser.primaryF [⟨.LeftParen⟩, ⟨.Identifier "f"⟩, ⟨.Comma⟩, ⟨.Identifier "x"⟩, ⟨.RightParen⟩, ⟨.Arrow⟩, ⟨.Identifier "f"⟩, ⟨.LeftParen⟩, ⟨.Identifier "x"⟩, ⟨.RightParen⟩, ⟨.Eof⟩] p 6 = .ok (.Identifier "f") 7 := rfl
lemma c7_primary_x (p : Parser.Prods) : Parser.primaryF [⟨.LeftParen⟩, ⟨.Identifier "f"⟩, ⟨.Comma⟩, ⟨.Identifier "x"⟩, ⟨.RightParen⟩, ⟨.Arrow⟩, ⟨.Identifier "f"⟩, ⟨.LeftParen⟩, ⟨.Identifier "x"⟩, ⟨.RightParen⟩, ⟨.Eof⟩] p 8 = .ok (.Identifier "x") 9 := rfl
lemma c7_params_leaf (p : Parser.Prods) : Parser.params_loopF [⟨.LeftParen⟩, ⟨.Identifier "f"⟩, ⟨.Comma⟩, ⟨.Identifier "x"⟩, ⟨.RightParen⟩, ⟨.Arrow⟩, ⟨.Identifier "f"⟩, ⟨.LeftParen⟩, ⟨.Identifier "x"⟩, ⟨.RightParen⟩, ⟨.Eof⟩] p [⟨"f", none⟩] 3 = .ok [⟨"f", none⟩, ⟨"x", none⟩] 4 := rfl
lemma c7_postfix_end (p : Parser.Prods) (e : Expr) : Parser.postfix_loopF [⟨.LeftParen⟩, ⟨.Identifier "f"⟩, ⟨.Comma⟩, ⟨.Identifier "x"⟩, ⟨.RightParen⟩, ⟨.Arrow⟩, ⟨.Identifier "f"⟩, ⟨.LeftParen⟩, ⟨.Identifier "x"⟩, ⟨.RightParen⟩, ⟨.Eof⟩] p e 10 = .ok e 10 := rfl



lemma c7c_unary : Parser.unaryF [⟨.LeftParen⟩, ⟨.Identifier "f"⟩, ⟨.Comma⟩, ⟨.Identifier "x"⟩, ⟨.RightParen⟩, ⟨.Arrow⟩, ⟨.Identifier "f"⟩, ⟨.LeftParen⟩, ⟨.Identifier "x"⟩, ⟨.RightParen⟩, ⟨.Eof⟩] (Parser.prods [⟨.LeftParen⟩, ⟨.Identifier "f"⟩, ⟨.Comma⟩, ⟨.Identifier "x"⟩, ⟨.RightParen⟩, ⟨.Arrow⟩, ⟨.Identifier "f"⟩, ⟨.LeftParen⟩, ⟨.Identifier "x"⟩, ⟨.RightParen⟩, ⟨.Eof⟩] 3) 6 = .ok (.Identifier "f") 7 := by
  simp [Parser.unaryF, c7_primary_f, c7prods3, Parser.mkProds, Parser.match_token, Parser.check, Parser.is_at_end, Parser.advance, Parser.consume, Parser.consume_identifier, Parser.previous, Parser.previous_token_kind, Parser.peek, Parser.kindEq, Parser.kindTag, Parser.kindPayloadEq, Parser.kindMatches, PM.bind_apply, PM.pure_apply, perr, pfuel]

lemma c7c_mult : Parser.multiplicationF (Parser.prods [⟨.LeftParen⟩, ⟨.Identifier "f"⟩, ⟨.Comma⟩, ⟨.Identifier "x"⟩, ⟨.RightParen⟩, ⟨.Arrow⟩, ⟨.Identifier "f"⟩, ⟨.LeftParen⟩, ⟨.Identifier "x"⟩, ⟨.RightParen⟩, ⟨.Eof⟩] 4) 6 = .ok (.Identifier "f") 7 := by
  simp [Parser.multiplicationF, c7c_unary, c7_multiplication_loop_7, c7prods4, Parser.mkProds, Parser.match_token, Parser.check, Parser.is_at_end, Parser.advance, Parser.consume, Parser.consume_identifier, Parser.previous, Parser.previous_token_kind, Parser.peek, Parser.kindEq, Parser.kindTag, Parser.kindPayloadEq, Parser.kindMatches, PM.bind_apply, PM.pure_apply, perr, pfuel]

lemma c7c_add : Parser.additionF (Parser.prods [⟨.LeftParen⟩, ⟨.Identifier "f"⟩, ⟨.Comma⟩, ⟨.Identifier "x"⟩, ⟨.RightParen⟩, ⟨.Arrow⟩, ⟨.Identifier "f"⟩, ⟨.LeftParen⟩, ⟨.Identifier "x"⟩, ⟨.RightParen⟩, ⟨.Eof⟩] 5) 6 = .ok (.Identifier "f") 7 := by
  simp [Parser.additionF, c7c_mult, c7_addition_loop_7, c7prods5, Parser.mkProds, Parser.match_token, Parser.check, Parser.is_at_end, Parser.advance, Parser.consume, Parser.consume_identifier, Parser.previous, Parser.previous_token_kind, Parser.peek, Parser.kindEq, Parser.kindTag, Parser.kindPayloadEq, Parser.kindMatches, PM.bind_apply, PM.pure_apply, perr, pfuel]

lemma c7c_comp : Parser.comparisonF (Parser.prods [⟨.LeftParen⟩, ⟨.Identifier "f"⟩, ⟨.Comma⟩, ⟨.Identifier "x"⟩, ⟨.RightParen⟩, ⟨.Arrow⟩, ⟨.Identifier "f"⟩, ⟨.LeftParen⟩, ⟨.Identifier "x"⟩, ⟨.RightParen⟩, ⟨.Eof⟩] 6) 6 = .ok (.Identifier "f") 7 := by
  simp [Parser.comparisonF, c7c_add, c7_comparison_loop_7, c7prods6, Parser.mkProds, Parser.match_token, Parser.check, Parser.is_at_end, Parser.advance, Parser.consume, Parser.consume_identifier, Parser.previous, Parser.previous_token_kind, Parser.peek, Parser.kindEq, Parser.kindTag, Parser.kindPayloadEq, Parser.kindMatches, PM.bind_apply, PM.pure_apply, perr, pfuel]

lemma c7c_eq : Parser.equalityF (Parser.prods [⟨.LeftParen⟩, ⟨.Identifier "f"⟩, ⟨.Comma⟩, ⟨.Identifier "x"⟩, ⟨.RightParen⟩, ⟨.Arrow⟩, ⟨.Identifier "f"⟩, ⟨.LeftParen⟩, ⟨.Identifier "x"⟩, ⟨.RightParen⟩, ⟨.Eof⟩] 7) 6 = .ok (.Identifier "f") 7 := by
  simp [Parser.equalityF, c7c_comp, c7_equality_loop_7, c7prods7, Parser.mkProds, Parser.match_token, Parser.check, Parser.is_at_end, Parser.advance, Parser.consume, Parser.consume_identifier, Parser.previous, Parser.previous_token_kind, Parser.peek, Parser.kindEq, Parser.kindTag, Parser.kindPayloadEq, Parser.kindMatches, PM.bind_apply, PM.pure_apply, perr, pfuel]

lemma c7c_and : Parser.logical_andF (Parser.prods [⟨.LeftParen⟩, ⟨.Identifier "f"⟩, ⟨.Comma⟩, ⟨.Identifier "x"⟩, ⟨.RightParen⟩, ⟨.Arrow⟩, ⟨.Identifier "f"⟩, ⟨.LeftParen⟩, ⟨.Identifier "x"⟩, ⟨.RightParen⟩, ⟨.Eof⟩] 8) 6 = .ok (.Identifier "f") 7 := by
  simp [Parser.logical_andF, c7c_eq, c7_logical_and_loop_7, c7prods8, Parser.mkProds, Parser.match_token, Parser.check, Parser.is_at_end, Parser.advance, Parser.consume, Parser.consume_identifier, Parser.previous, Parser.previous_token_kind, Parser.peek, Parser.kindEq, Parser.kindTag, Parser.kindPayloadEq, Parser.kindMatches, PM.bind_apply, PM.pure_apply, perr, pfuel]

lemma c7c_or : Parser.logical_orF (Parser.prods [⟨.LeftParen⟩, ⟨.Identifier "f"⟩, ⟨.Comma⟩, ⟨.Identifier "x"⟩, ⟨.RightParen⟩, ⟨.Arrow⟩, ⟨.Identifier "f"⟩, ⟨.LeftParen⟩, ⟨.Identifier "x"⟩, ⟨.RightParen⟩, ⟨.Eof⟩] 9) 6 = .ok (.Identifier "f") 7 := by
  simp [Parser.logical_orF, c7c_and, c7_logical_or_loop_7, c7prods9, Parser.mkProds, Parser.match_token, Parser.check, Parser.is_at_end, Parser.advance, Parser.consume, Parser.consume_identifier, Parser.previous, Parser.previous_token_kind, Parser.peek, Parser.kindEq, Parser.kindTag, Parser.kindPayloadEq, Parser.kindMatches, PM.bind_apply, PM.pure_apply, perr, pfuel]

lemma c7c_expr : Parser.expressionF (Parser.prods [⟨.LeftParen⟩, ⟨.Identifier "f"⟩, ⟨.Comma⟩, ⟨.Identifier "x"⟩, ⟨.RightParen⟩, ⟨.Arrow⟩, ⟨.Identifier "f"⟩, ⟨.LeftParen⟩, ⟨.Identifier "x"⟩, ⟨.RightParen⟩, ⟨.Eof⟩] 10) 6 = .ok (.Identifier "f") 7 := by
  simp [Parser.expressionF, c7c_or, c7prods10, Parser.mkProds, Parser.match_token, Parser.check, Parser.is_at_end, Parser.advance, Parser.consume, Parser.consume_identifier, Parser.previous, Parser.previous_token_kind, Parser.peek, Parser.kindEq, Parser.kindTag, Parser.kindPayloadEq, Parser.kindMatches, PM.bind_apply, PM.pure_apply, perr, pfuel]

lemma c7b_ploop : Parser.params_loopF [⟨.LeftParen⟩, ⟨.Identifier "f"⟩, ⟨.Comma⟩, ⟨.Identifier "x"⟩, ⟨.RightParen⟩, ⟨.Arrow⟩, ⟨.Identifier "f"⟩, ⟨.LeftParen⟩, ⟨.Identifier "x"⟩, ⟨.RightParen⟩, ⟨.Eof⟩] (Parser.prods [⟨.LeftParen⟩, ⟨.Identifier "f"⟩, ⟨.Comma⟩, ⟨.Identifier "x"⟩, ⟨.RightParen⟩, ⟨.Arrow⟩, ⟨.Identifier "f"⟩, ⟨.LeftParen⟩, ⟨.Identifier "x"⟩, ⟨.RightParen⟩, ⟨.Eof⟩] 9) [] 1 = .ok [⟨"f", none⟩, ⟨"x", none⟩] 4 := by
  simp [Parser.params_loopF, c7_params_leaf, c7prods9, Parser.mkProds, Parser.match_token, Parser.check, Parser.is_at_end, Parser.advance, Parser.consume, Parser.consume_identifier, Parser.previous, Parser.previous_token_kind, Parser.peek, Parser.kindEq, Parser.kindTag, Parser.kindPayloadEq, Parser.kindMatches, PM.bind_apply, PM.pure_apply, perr, pfuel]

lemma c7b_params : Parser.parse_parametersF [⟨.LeftParen⟩, ⟨.Identifier "f"⟩, ⟨.Comma⟩, ⟨.Identifier "x"⟩, ⟨.RightParen⟩, ⟨.Arrow⟩, ⟨.Identifier "f"⟩, ⟨.LeftParen⟩, ⟨.Identifier "x"⟩, ⟨.RightParen⟩, ⟨.Eof⟩] (Parser.prods [⟨.LeftParen⟩, ⟨.Identifier "f"⟩, ⟨.Comma⟩, ⟨.Identifier "x"⟩, ⟨.RightParen⟩, ⟨.Arrow⟩, ⟨.Identifier "f"⟩, ⟨.LeftParen⟩, ⟨.Identifier "x"⟩, ⟨.RightParen⟩, ⟨.Eof⟩] 10) 1 = .ok [⟨"f", none⟩, ⟨"x", none⟩] 5 := by
  simp [Parser.parse_parametersF, c7b_ploop, c7prods10, Parser.mkProds, Parser.match_token, Parser.check, Parser.is_at_end, Parser.advance, Parser.consume, Parser.consume_identifier, Parser.previous, Parser.previous_token_kind, Parser.peek, Parser.kindEq, Parser.kindTag, Parser.kindPayloadEq, Parser.kindMatches, PM.bind_apply, PM.pure_apply, perr, pfuel]

lemma c7b_lambda : Parser.parse_lambdaF [⟨.LeftParen⟩, ⟨.Identifier "f"⟩, ⟨.Comma⟩, ⟨.Identifier "x"⟩, ⟨.RightParen⟩, ⟨.Arrow⟩, ⟨.Identifier "f"⟩, ⟨.LeftParen⟩, ⟨.Identifier "x"⟩, ⟨.RightParen⟩, ⟨.Eof⟩] (Parser.prods [⟨.LeftParen⟩, ⟨.Identifier "f"⟩, ⟨.Comma⟩, ⟨.Identifier "x"⟩, ⟨.RightParen⟩, ⟨.Arrow⟩, ⟨.Identifier "f"⟩, ⟨.LeftParen⟩, ⟨.Identifier "x"⟩, ⟨.RightParen⟩, ⟨.Eof⟩] 11) 1 = .ok (Expr.Lambda [⟨"f", none⟩, ⟨"x", none⟩] (.Identifier "f")) 7 := by
  simp [Parser.parse_lambdaF, c7b_params, c7c_expr, c7prods11, Parser.mkProds, Parser.match_token, Parser.check, Parser.is_at_end, Parser.advance, Parser.consume, Parser.consume_identifier, Parser.previous, Parser.previous_token_kind, Parser.peek, Parser.kindEq, Parser.kindTag, Parser.kindPayloadEq, Parser.kindMatches, PM.bind_apply, PM.pure_apply, perr, pfuel]

lemma c7d_unary : Parser.unaryF [⟨.LeftParen⟩, ⟨.Identifier "f"⟩, ⟨.Comma⟩, ⟨.Identifier "x"⟩, ⟨.RightParen⟩, ⟨.Arrow⟩, ⟨.Identifier "f"⟩, ⟨.LeftParen⟩, ⟨.Identifier "x"⟩, ⟨.RightParen⟩, ⟨.Eof⟩] (Parser.prods [⟨.LeftParen⟩, ⟨.Identifier "f"⟩, ⟨.Comma⟩, ⟨.Identifier "x"⟩, ⟨.RightParen⟩, ⟨.Arrow⟩, ⟨.Identifier "f"⟩, ⟨.LeftParen⟩, ⟨.Identifier "x"⟩, ⟨.RightParen⟩, ⟨.Eof⟩] 1) 8 = .ok (.Identifier "x") 9 := by
  simp [Parser.unaryF, c7_primary_x, c7prods1, Parser.mkProds, Parser.match_token, Parser.check, Parser.is_at_end, Parser.advance, Parser.consume, Parser.consume_identifier, Parser.previous, Parser.previous_token_kind, Parser.peek, Parser.kindEq, Parser.kindTag, Parser.kindPayloadEq, Parser.kindMatches, PM.bind_apply, PM.pure_apply, perr, pfuel]

lemma c7d_mult : Parser.multiplicationF (Parser.prods [⟨.LeftParen⟩, ⟨.Identifier "f"⟩, ⟨.Comma⟩, ⟨.Identifier "x"⟩, ⟨.RightParen⟩, ⟨.Arrow⟩, ⟨.Identifier "f"⟩, ⟨.LeftParen⟩, ⟨.Identifier "x"⟩, ⟨.RightParen⟩, ⟨.Eof⟩] 2) 8 = .ok (.Identifier "x") 9 := by
  simp [Parser.multiplicationF, c7d_unary, c7_multiplication_loop_9, c7prods2, Parser.mkProds, Parser.match_token, Parser.check, Parser.is_at_end, Parser.advance, Parser.consume, Parser.consume_identifier, Parser.previous, Parser.previous_token_kind, Parser.peek, Parser.kindEq, Parser.kindTag, Parser.kindPayloadEq, Parser.kindMatches, PM.bind_apply, PM.pure_apply, perr, pfuel]

lemma c7d_add : Parser.additionF (Parser.prods [⟨.LeftParen⟩, ⟨.Identifier "f"⟩, ⟨.Comma⟩, ⟨.Identifier "x"⟩, ⟨.RightParen⟩, ⟨.Arrow⟩, ⟨.Identifier "f"⟩, ⟨.LeftParen⟩, ⟨.Identifier "x"⟩, ⟨.RightParen⟩, ⟨.Eof⟩] 3) 8 = .ok (.Identifier "x") 9 := by
  simp [Parser.additionF, c7d_mult, c7_addition_loop_9, c7prods3, Parser.mkProds, Parser.match_token, Parser.check, Parser.is_at_end, Parser.advance, Parser.consume, Parser.consume_identifier, Parser.previous, Parser.previous_token_kind, Parser.peek, Parser.kindEq, Parser.kindTag, Parser.kindPayloadEq, Parser.kindMatches, PM.bind_apply, PM.pure_apply, perr, pfuel]

lemma c7d_comp : Parser.comparisonF (Parser.prods [⟨.LeftParen⟩, ⟨.Identifier "f"⟩, ⟨.Comma⟩, ⟨.Identifier "x"⟩, ⟨.RightParen⟩, ⟨.Arrow⟩, ⟨.Identifier "f"⟩, ⟨.LeftParen⟩, ⟨.Identifier "x"⟩, ⟨.RightParen⟩, ⟨.Eof⟩] 4) 8 = .ok (.Identifier "x") 9 := by
  simp [Parser.comparisonF, c7d_add, c7_comparison_loop_9, c7prods4, Parser.mkProds, Parser.match_token, Parser.check, Parser.is_at_end, Parser.advance, Parser.consume, Parser.consume_identifier, Parser.previous, Parser.previous_token_kind, Parser.peek, Parser.kindEq, Parser.kindTag, Parser.kindPayloadEq, Parser.kindMatches, PM.bind_apply, PM.pure_apply, perr, pfuel]

lemma c7d_eq : Parser.equalityF (Parser.prods [⟨.LeftParen⟩, ⟨.Identifier "f"⟩, ⟨.Comma⟩, ⟨.Identifier "x"⟩, ⟨.RightParen⟩, ⟨.Arrow⟩, ⟨.Identifier "f"⟩, ⟨.LeftParen⟩, ⟨.Identifier "x"⟩, ⟨.RightParen⟩, ⟨.Eof⟩] 5) 8 = .ok (.Identifier "x") 9 := by
  simp [Parser.equalityF, c7d_comp, c7_equality_loop_9, c7prods5, Parser.mkProds, Parser.match_token, Parser.check, Parser.is_at_end, Parser.advance, Parser.consume, Parser.consume_identifier, Parser.previous, Parser.previous_token_kind, Parser.peek, Parser.kindEq, Parser.kindTag, Parser.kindPayloadEq, Parser.kindMatches, PM.bind_apply, PM.pure_apply, perr, pfuel]

lemma c7d_and : Parser.logical_andF (Parser.prods [⟨.LeftParen⟩, ⟨.Identifier "f"⟩, ⟨.Comma⟩, ⟨.Identifier "x"⟩, ⟨.RightParen⟩, ⟨.Arrow⟩, ⟨.Identifier "f"⟩, ⟨.LeftParen⟩, ⟨.Identifier "x"⟩, ⟨.RightParen⟩, ⟨.Eof⟩] 6) 8 = .ok (.Identifier "x") 9 := by
  simp [Parser.logical_andF, c7d_eq, c7_logical_and_loop_9, c7prods6, Parser.mkProds, Parser.match_token, Parser.check, Parser.is_at_end, Parser.advance, Parser.consume, Parser.consume_identifier, Parser.previous, Parser.previous_token_kind, Parser.peek, Parser.kindEq, Parser.kindTag, Parser.kindPayloadEq, Parser.kindMatches, PM.bind_apply, PM.pure_apply, perr, pfuel]

lemma c7d_or : Parser.logical_orF (Parser.prods [⟨.LeftParen⟩, ⟨.Identifier "f"⟩, ⟨.Comma⟩, ⟨.Identifier "x"⟩, ⟨.RightParen⟩, ⟨.Arrow⟩, ⟨.Identifier "f"⟩, ⟨.LeftParen⟩, ⟨.Identifier "x"⟩, ⟨.RightParen⟩, ⟨.Eof⟩] 7) 8 = .ok (.Identifier "x") 9 := by
  simp [Parser.logical_orF, c7d_and, c7_logical_or_loop_9, c7prods7, Parser.mkProds, Parser.match_token, Parser.check, Parser.is_at_end, Parser.advance, Parser.consume, Parser.consume_identifier, Parser.previous, Parser.previous_token_kind, Parser.peek, Parser.kindEq, Parser.kindTag, Parser.kindPayloadEq, Parser.kindMatches, PM.bind_apply, PM.pure_apply, perr, pfuel]

lemma c7d_expr : Parser.expressionF (Parser.prods [⟨.LeftParen⟩, ⟨.Identifier "f"⟩, ⟨.Comma⟩, ⟨.Identifier "x"⟩, ⟨.RightParen⟩, ⟨.Arrow⟩, ⟨.Identifier "f"⟩, ⟨.LeftParen⟩, ⟨.Identifier "x"⟩, ⟨.RightParen⟩, ⟨.Eof⟩] 8) 8 = .ok (.Identifier "x") 9 := by
  simp [Parser.expressionF, c7d_or, c7prods8, Parser.mkProds, Parser.match_token, Parser.check, Parser.is_at_end, Parser.advance, Parser.consume, Parser.consume_identifier, Parser.previous, Parser.previous_token_kind, Parser.peek, Parser.kindEq, Parser.kindTag, Parser.kindPayloadEq, Parser.kindMatches, PM.bind_apply, PM.pure_apply, perr, pfuel]

lemma c7d_args : Parser.call_args_loopF [⟨.LeftParen⟩, ⟨.Identifier "f"⟩, ⟨.Comma⟩, ⟨.Identifier "x"⟩, ⟨.RightParen⟩, ⟨.Arrow⟩, ⟨.Identifier "f"⟩, ⟨.LeftParen⟩, ⟨.Identifier "x"⟩, ⟨.RightParen⟩, ⟨.Eof⟩] (Parser.prods [⟨.LeftParen⟩, ⟨.Identifier "f"⟩, ⟨.Comma⟩, ⟨.Identifier "x"⟩, ⟨.RightParen⟩, ⟨.Arrow⟩, ⟨.Identifier "f"⟩, ⟨.LeftParen⟩, ⟨.Identifier "x"⟩, ⟨.RightParen⟩, ⟨.Eof⟩] 9) [] 8 = .ok [Expr.Identifier "x"] 9 := by
  simp [Parser.call_args_loopF, c7d_expr, c7prods9, Parser.mkProds, Parser.match_token, Parser.check, Parser.is_at_end, Parser.advance, Parser.consume, Parser.consume_identifier, Parser.previous, Parser.previous_token_kind, Parser.peek, Parser.kindEq, Parser.kindTag, Parser.kindPayloadEq, Parser.kindMatches, PM.bind_apply, PM.pure_apply, perr, pfuel]

lemma c7d_call (e : Expr) : Parser.finish_callF [⟨.LeftParen⟩, ⟨.Identifier "f"⟩, ⟨.Comma⟩, ⟨.Identifier "x"⟩, ⟨.RightParen⟩, ⟨.Arrow⟩, ⟨.Identifier "f"⟩, ⟨.LeftParen⟩, ⟨.Identifier "x"⟩, ⟨.RightParen⟩, ⟨.Eof⟩] (Parser.prods [⟨.LeftParen⟩, ⟨.Identifier "f"⟩, ⟨.Comma⟩, ⟨.Identifier "x"⟩, ⟨.RightParen⟩, ⟨.Arrow⟩, ⟨.Identifier "f"⟩, ⟨.LeftParen⟩, ⟨.Identifier "x"⟩, ⟨.RightParen⟩, ⟨.Eof⟩] 10) e 8 = .ok (e.Call [Expr.Identifier "x"]) 10 := by
  simp [Parser.finish_callF, c7d_args, c7prods10, Parser.mkProds, Parser.match_token, Parser.check, Parser.is_at_end, Parser.advance, Parser.consume, Parser.consume_identifier, Parser.previous, Parser.previous_token_kind, Parser.peek, Parser.kindEq, Parser.kindTag, Parser.kindPayloadEq, Parser.kindMatches, PM.bind_apply, PM.pure_apply, perr, pfuel]

lemma c7d_postfix (e : Expr) : Parser.postfix_loopF [⟨.LeftParen⟩, ⟨.Identifier "f"⟩, ⟨.Comma⟩, ⟨.Identifier "x"⟩, ⟨.RightParen⟩, ⟨.Arrow⟩, ⟨.Identifier "f"⟩, ⟨.LeftParen⟩, ⟨.Identifier "x"⟩, ⟨.RightParen⟩, ⟨.Eof⟩] (Parser.prods [⟨.LeftParen⟩, ⟨.Identifier "f"⟩, ⟨.Comma⟩, ⟨.Identifier "x"⟩, ⟨.RightParen⟩, ⟨.Arrow⟩, ⟨.Identifier "f"⟩, ⟨.LeftParen⟩, ⟨.Identifier "x"⟩, ⟨.RightParen⟩, ⟨.Eof⟩] 11) e 7 = .ok (e.Call [Expr.Identifier "x"]) 10 := by
  simp [Parser.postfix_loopF, c7d_call, c7_postfix_end, c7prods11, Parser.mkProds, Parser.match_token, Parser.check, Parser.is_at_end, Parser.advance, Parser.consume, Parser.consume_identifier, Parser.previous, Parser.previous_token_kind, Parser.peek, Parser.kindEq, Parser.kindTag, Parser.kindPayloadEq, Parser.kindMatches, PM.bind_apply, PM.pure_apply, perr, pfuel]

lemma c7a_primary : Parser.primaryF [⟨.LeftParen⟩, ⟨.Identifier "f"⟩, ⟨.Comma⟩, ⟨.Identifier "x"⟩, ⟨.RightParen⟩, ⟨.Arrow⟩, ⟨.Identifier "f"⟩, ⟨.LeftParen⟩, ⟨.Identifier "x"⟩, ⟨.RightParen⟩, ⟨.Eof⟩] (Parser.prods [⟨.LeftParen⟩, ⟨.Identifier "f"⟩, ⟨.Comma⟩, ⟨.Identifier "x"⟩, ⟨.RightParen⟩, ⟨.Arrow⟩, ⟨.Identifier "f"⟩, ⟨.LeftParen⟩, ⟨.Identifier "x"⟩, ⟨.RightParen⟩, ⟨.Eof⟩] 12) 0 = .ok ((Expr.Lambda [⟨"f", none⟩, ⟨"x", none⟩] (.Identifier "f")).Call [Expr.Identifier "x"]) 10 := by
  simp [Parser.primaryF, c7lc, c7b_lambda, c7d_postfix, c7prods12, Parser.mkProds, Parser.match_token, Parser.check, Parser.is_at_end, Parser.advance, Parser.consume, Parser.consume_identifier, Parser.previous, Parser.previous_token_kind, Parser.peek, Parser.kindEq, Parser.kindTag, Parser.kindPayloadEq, Parser.kindMatches, PM.bind_apply, PM.pure_apply, perr, pfuel]

lemma c7a_unary : Parser.unaryF [⟨.LeftParen⟩, ⟨.Identifier "f"⟩, ⟨.Comma⟩, ⟨.Identifier "x"⟩, ⟨.RightParen⟩, ⟨.Arrow⟩, ⟨.Identifier "f"⟩, ⟨.LeftParen⟩, ⟨.Identifier "x"⟩, ⟨.RightParen⟩, ⟨.Eof⟩] (Parser.prods [⟨.LeftParen⟩, ⟨.Identifier "f"⟩, ⟨.Comma⟩, ⟨.Identifier "x"⟩, ⟨.RightParen⟩, ⟨.Arrow⟩, ⟨.Identifier "f"⟩, ⟨.LeftParen⟩, ⟨.Identifier "x"⟩, ⟨.RightParen⟩, ⟨.Eof⟩] 13) 0 = .ok ((Expr.Lambda [⟨"f", none⟩, ⟨"x", none⟩] (.Identifier "f")).Call [Expr.Identifier "x"]) 10 := by
  simp [Parser.unaryF, c7a_primary, c7prods13, Parser.mkProds, Parser.match_token, Parser.check, Parser.is_at_end, Parser.advance, Parser.consume, Parser.consume_identifier, Parser.previous, Parser.previous_token_kind, Parser.peek, Parser.kindEq, Parser.kindTag, Parser.kindPayloadEq, Parser.kindMatches, PM.bind_apply, PM.pure_apply, perr, pfuel]

lemma c7a_mult : Parser.multiplicationF (Parser.prods [⟨.LeftParen⟩, ⟨.Identifier "f"⟩, ⟨.Comma⟩, ⟨.Identifier "x"⟩, ⟨.RightParen⟩, ⟨.Arrow⟩, ⟨.Identifier "f"⟩, ⟨.LeftParen⟩, ⟨.Identifier "x"⟩, ⟨.RightParen⟩, ⟨.Eof⟩] 14) 0 = .ok ((Expr.Lambda [⟨"f", none⟩, ⟨"x", none⟩] (.Identifier "f")).Call [Expr.Identifier "x"]) 10 := by
  simp [Parser.multiplicationF, c7a_unary, c7_multiplication_loop_10, c7prods14, Parser.mkProds, Parser.match_token, Parser.check, Parser.is_at_end, Parser.advance, Parser.consume, Parser.consume_identifier, Parser.previous, Parser.previous_token_kind, Parser.peek, Parser.kindEq, Parser.kindTag, Parser.kindPayloadEq, Parser.kindMatches, PM.bind_apply, PM.pure_apply, perr, pfuel]

lemma c7a_add : Parser.additionF (Parser.prods [⟨.LeftParen⟩, ⟨.Identifier "f"⟩, ⟨.Comma⟩, ⟨.Identifier "x"⟩, ⟨.RightParen⟩, ⟨.Arrow⟩, ⟨.Identifier "f"⟩, ⟨.LeftParen⟩, ⟨.Identifier "x"⟩, ⟨.RightParen⟩, ⟨.Eof⟩] 15) 0 = .ok ((Expr.Lambda [⟨"f", none⟩, ⟨"x", none⟩] (.Identifier "f")).Call [Expr.Identifier "x"]) 10 := by
  simp [Parser.additionF, c7a_mult, c7_addition_loop_10, c7prods15, Parser.mkProds, Parser.match_token, Parser.check, Parser.is_at_end, Parser.advance, Parser.consume, Parser.consume_identifier, Parser.previous, Parser.previous_token_kind, Parser.peek, Parser.kindEq, Parser.kindTag, Parser.kindPayloadEq, Parser.kindMatches, PM.bind_apply, PM.pure_apply, perr, pfuel]

lemma c7a_comp : Parser.comparisonF (Parser.prods [⟨.LeftParen⟩, ⟨.Identifier "f"⟩, ⟨.Comma⟩, ⟨.Identifier "x"⟩, ⟨.RightParen⟩, ⟨.Arrow⟩, ⟨.Identifier "f"⟩, ⟨.LeftParen⟩, ⟨.Identifier "x"⟩, ⟨.RightParen⟩, ⟨.Eof⟩] 16) 0 = .ok ((Expr.Lambda [⟨"f", none⟩, ⟨"x", none⟩] (.Identifier "f")).Call [Expr.Identifier "x"]) 10 := by
  simp [Parser.comparisonF, c7a_add, c7_comparison_loop_10, c7prods16, Parser.mkProds, Parser.match_token, Parser.check, Parser.is_at_end, Parser.advance, Parser.consume, Parser.consume_identifier, Parser.previous, Parser.previous_token_kind, Parser.peek, Parser.kindEq, Parser.kindTag, Parser.kindPayloadEq, Parser.kindMatches, PM.bind_apply, PM.pure_apply, perr, pfuel]

lemma c7a_eq : Parser.equalityF (Parser.prods [⟨.LeftParen⟩, ⟨.Identifier "f"⟩, ⟨.Comma⟩, ⟨.Identifier "x"⟩, ⟨.RightParen⟩, ⟨.Arrow⟩, ⟨.Identifier "f"⟩, ⟨.LeftParen⟩, ⟨.Identifier "x"⟩, ⟨.RightParen⟩, ⟨.Eof⟩] 17) 0 = .ok ((Expr.Lambda [⟨"f", none⟩, ⟨"x", none⟩] (.Identifier "f")).Call [Expr.Identifier "x"]) 10 := by
  simp [Parser.equalityF, c7a_comp, c7_equality_loop_10, c7prods17, Parser.mkProds, Parser.match_token, Parser.check, Parser.is_at_end, Parser.advance, Parser.consume, Parser.consume_identifier, Parser.previous, Parser.previous_token_kind, Parser.peek, Parser.kindEq, Parser.kindTag, Parser.kindPayloadEq, Parser.kindMatches, PM.bind_apply, PM.pure_apply, perr, pfuel]

lemma c7a_and : Parser.logical_andF (Parser.prods [⟨.LeftParen⟩, ⟨.Identifier "f"⟩, ⟨.Comma⟩, ⟨.Identifier "x"⟩, ⟨.RightParen⟩, ⟨.Arrow⟩, ⟨.Identifier "f"⟩, ⟨.LeftParen⟩, ⟨.Identifier "x"⟩, ⟨.RightParen⟩, ⟨.Eof⟩] 18) 0 = .ok ((Expr.Lambda [⟨"f", none⟩, ⟨"x", none⟩] (.Identifier "f")).Call [Expr.Identifier "x"]) 10 := by
  simp [Parser.logical_andF, c7a_eq, c7_logical_and_loop_10, c7prods18, Parser.mkProds, Parser.match_token, Parser.check, Parser.is_at_end, Parser.advance, Parser.consume, Parser.consume_identifier, Parser.previous, Parser.previous_token_kind, Parser.peek, Parser.kindEq, Parser.kindTag, Parser.kindPayloadEq, Parser.kindMatches, PM.bind_apply, PM.pure_apply, perr, pfuel]

lemma c7a_or : Parser.logical_orF (Parser.prods [⟨.LeftParen⟩, ⟨.Identifier "f"⟩, ⟨.Comma⟩, ⟨.Identifier "x"⟩, ⟨.RightParen⟩, ⟨.Arrow⟩, ⟨.Identifier "f"⟩, ⟨.LeftParen⟩, ⟨.Identifier "x"⟩, ⟨.RightParen⟩, ⟨.Eof⟩] 19) 0 = .ok ((Expr.Lambda [⟨"f", none⟩, ⟨"x", none⟩] (.Identifier "f")).Call [Expr.Identifier "x"]) 10 := by
  simp [Parser.logical_orF, c7a_and, c7_logical_or_loop_10, c7prods19, Parser.mkProds, Parser.match_token, Parser.check, Parser.is_at_end, Parser.advance, Parser.consume, Parser.consume_identifier, Parser.previous, Parser.previous_token_kind, Parser.peek, Parser.kindEq, Parser.kindTag, Parser.kindPayloadEq, Parser.kindMatches, PM.bind_apply, PM.pure_apply, perr, pfuel]

lemma c7a_expr : Parser.expressionF (Parser.prods [⟨.LeftParen⟩, ⟨.Identifier "f"⟩, ⟨.Comma⟩, ⟨.Identifier "x"⟩, ⟨.RightParen⟩, ⟨.Arrow⟩, ⟨.Identifier "f"⟩, ⟨.LeftParen⟩, ⟨.Identifier "x"⟩, ⟨.RightParen⟩, ⟨.Eof⟩] 20) 0 = .ok ((Expr.Lambda [⟨"f", none⟩, ⟨"x", none⟩] (.Identifier "f")).Call [Expr.Identifier "x"]) 10 := by
  simp [Parser.expressionF, c7a_or, c7prods20, Parser.mkProds, Parser.match_token, Parser.check, Parser.is_at_end, Parser.advance, Parser.consume, Parser.consume_identifier, Parser.previous, Parser.previous_token_kind, Parser.peek, Parser.kindEq, Parser.kindTag, Parser.kindPayloadEq, Parser.kindMatches, PM.bind_apply, PM.pure_apply, perr, pfuel]

lemma c7full : Parser.expression [⟨.LeftParen⟩, ⟨.Identifier "f"⟩, ⟨.Comma⟩, ⟨.Identifier "x"⟩, ⟨.RightParen⟩, ⟨.Arrow⟩, ⟨.Identifier "f"⟩, ⟨.LeftParen⟩, ⟨.Identifier "x"⟩, ⟨.RightParen⟩, ⟨.Eof⟩] 21 0 =
    .ok (.Call (.Lambda [⟨"f", none⟩, ⟨"x", none⟩] (.Identifier "f")) [.Identifier "x"]) 10 := by
  simp [Parser.expression, c7prods21, Parser.mkProds, c7a_expr]


/-! ### Claim C10: no out-of-bounds access under well-formed input.

The embedding models every `self.tokens[...]` read through `Option`
lookup, and `usize` underflow of `current - 1`, as the `.oob` outcome of
`PResult`.  Claim C10 is the Hoare-style safety statement that, starting
from a nonempty token vector whose final element — and no other — has
kind `Eof`, `parse_program` never reaches `.oob` at any fuel budget.
The proof threads a cursor invariant through every production of the
record `Prods`: `SafeV P Q m` says that from any cursor satisfying `P`,
the computation `m` avoids `.oob` and, on success, hands its value and
final cursor to `Q`.  The invariant is `InB` (cursor in bounds) for
every entry point, strengthened to `Pre1` (additionally, at least one
token already consumed) for `variable_declaration`, which reads
`previous_token_kind` first — its call sites in `declaration` and
`class_body_loop` guarantee it because `match_token` has just consumed
the `let`/`var` keyword. -/

namespace Parser

variable (tokens : List ParserToken)

/-- Claim C10's precondition: the token vector is nonempty, and `Eof`
occurs exactly at the last index. -/
def WFTokens : Prop :=
  tokens ≠ [] ∧
  ∀ i (h : i < tokens.length),
    (tokens.get ⟨i, h⟩).kind = .Eof ↔ i = tokens.length - 1

/-- The cursor is in bounds. -/
def InB (c : Nat) : Prop := c < tokens.length

/-- The cursor is in bounds and not on an `Eof` token. -/
def NotEof (c : Nat) : Prop :=
  ∃ h : c < tokens.length, (tokens.get ⟨c, h⟩).kind ≠ .Eof

/-- The cursor is in bounds and at least one token has been consumed
(so `current - 1` cannot underflow). -/
def Pre1 (c : Nat) : Prop := 1 ≤ c ∧ c < tokens.length

/-- Hoare-style safety of a parser computation: from every cursor
satisfying `P`, the computation never takes the `.oob` branch, and lands
on a value and cursor satisfying `Q` whenever it succeeds. -/
def SafeV {α : Type} (P : Nat → Prop) (Q : α → Nat → Prop) (m : PM α) : Prop :=
  ∀ c, P c → m c ≠ .oob ∧ ∀ a c1, m c = .ok a c1 → Q a c1

lemma SafeV.mono {α : Type} {P P1 : Nat → Prop} {Q Q1 : α → Nat → Prop} {m : PM α}
    (hm : SafeV P Q m) (hP : ∀ c, P1 c → P c) (hQ : ∀ a c, Q a c → Q1 a c) :
    SafeV P1 Q1 m := by
  intro c hc
  obtain ⟨h1, h2⟩ := hm c (hP c hc)
  exact ⟨h1, fun a c1 h => hQ a c1 (h2 a c1 h)⟩

lemma SafeV.bind {α β : Type} {P : Nat → Prop} {Q : α → Nat → Prop}
    {R : β → Nat → Prop} {x : PM α} {f : α → PM β}
    (hx : SafeV P Q x) (hf : ∀ a, SafeV (Q a) R (f a)) :
    SafeV P R (x >>= f) := by
  intro c hc
  obtain ⟨hne, hok⟩ := hx c hc
  rcases hxc : x c with ⟨a, c1⟩ | m | - | -
  · obtain ⟨hne1, hok1⟩ := (hf a) c1 (hok a c1 hxc)
    refine ⟨fun hbad => hne1 ?_, fun b c2 hb => hok1 b c2 ?_⟩
    · rw [PM.bind_apply, hxc] at hbad
      exact hbad
    · rw [PM.bind_apply, hxc] at hb
      exact hb
  · refine ⟨fun hbad => ?_, fun b c2 hb => ?_⟩
    · rw [PM.bind_apply, hxc] at hbad
      cases hbad
    · rw [PM.bind_apply, hxc] at hb
      cases hb
  · exact absurd hxc hne
  · refine ⟨fun hbad => ?_, fun b c2 hb => ?_⟩
    · rw [PM.bind_apply, hxc] at hbad
      cases hbad
    · rw [PM.bind_apply, hxc] at hb
      cases hb

lemma safe_pure {α : Type} {P : Nat → Prop} {Q : α → Nat → Prop} (a : α)
    (h : ∀ c, P c → Q a c) : SafeV P Q (pure a) := by
  intro c hc
  refine ⟨fun hbad => ?_, fun b c1 hb => ?_⟩
  · have hbad1 : PResult.ok a c = PResult.oob := hbad
    cases hbad1
  · have hb1 : PResult.ok a c = PResult.ok b c1 := hb
    cases hb1
    exact h c hc

lemma safe_perr {α : Type} {P : Nat → Prop} {Q : α → Nat → Prop} (msg : String) :
    SafeV P Q (perr msg) := by
  intro c _
  refine ⟨fun hbad => ?_, fun a c1 hb => ?_⟩
  · have hbad1 : PResult.err (α := α) msg = PResult.oob := hbad
    cases hbad1
  · have hb1 : PResult.err (α := α) msg = PResult.ok a c1 := hb
    cases hb1

lemma safe_pfuel {α : Type} {P : Nat → Prop} {Q : α → Nat → Prop} :
    SafeV P Q (pfuel : PM α) := by
  intro c _
  refine ⟨fun hbad => ?_, fun a c1 hb => ?_⟩
  · have hbad1 : PResult.fuelOut (α := α) = PResult.oob := hbad
    cases hbad1
  · have hb1 : PResult.fuelOut (α := α) = PResult.ok a c1 := hb
    cases hb1

/-- `kindEq` with `Eof` decides equality with `Eof`. -/
lemma kindEq_eof (k : TokenKind) : kindEq k .Eof = true ↔ k = .Eof := by
  cases k <;> simp [kindEq, kindTag, kindPayloadEq]

/-- Under `WFTokens`, a non-`Eof` cursor is strictly before the last
index, so stepping it stays in bounds. -/
lemma notEof_succ_lt (hw : WFTokens tokens) (c : Nat) (h : NotEof tokens c) :
    c + 1 < tokens.length := by
  obtain ⟨hlt, hk⟩ := h
  have hne : c ≠ tokens.length - 1 := fun hc => hk ((hw.2 c hlt).mpr hc)
  omega

lemma tokGet (c : Nat) (hc : c < tokens.length) :
    tokens[c]? = some (tokens.get ⟨c, hc⟩) := by
  rw [List.getElem?_eq_getElem hc, List.get_eq_getElem]

lemma peek_eq (c : Nat) (hc : c < tokens.length) :
    peek tokens c = .ok (tokens.get ⟨c, hc⟩) c := by
  unfold peek
  rw [tokGet tokens c hc]

lemma safe_peek : SafeV (InB tokens) (fun _ c => InB tokens c) (peek tokens) := by
  intro c hc
  rw [peek_eq tokens c hc]
  refine ⟨(fun hbad => by cases hbad), fun a c1 hb => ?_⟩
  cases hb
  exact hc

lemma is_at_end_eq (c : Nat) (hc : c < tokens.length) :
    is_at_end tokens c = .ok (kindEq (tokens.get ⟨c, hc⟩).kind .Eof) c := by
  unfold is_at_end
  rw [tokGet tokens c hc]

lemma safe_is_at_end :
    SafeV (InB tokens) (fun b c => InB tokens c ∧ (b = false → NotEof tokens c))
      (is_at_end tokens) := by
  intro c hc
  rw [is_at_end_eq tokens c hc]
  refine ⟨(fun hbad => by cases hbad), fun a c1 hb => ?_⟩
  cases hb
  refine ⟨hc, fun hfalse => ⟨hc, fun heof => ?_⟩⟩
  rw [(kindEq_eof _).mpr heof] at hfalse
  cases hfalse

lemma advance_eq (c : Nat) (hc : c < tokens.length)
    (hk : (tokens.get ⟨c, hc⟩).kind ≠ .Eof) :
    advance tokens c = .ok (tokens.get ⟨c, hc⟩) (c + 1) := by
  have hkf : kindEq (tokens.get ⟨c, hc⟩).kind .Eof = false := by
    rcases h : kindEq (tokens.get ⟨c, hc⟩).kind .Eof with - | -
    · rfl
    · exact absurd ((kindEq_eof _).mp h) hk
  unfold advance
  rw [is_at_end_eq tokens c hc, hkf]
  show (if c + 1 = 0 then PResult.oob
        else match tokens[c + 1 - 1]? with
          | some t => PResult.ok t (c + 1)
          | none => PResult.oob) = _
  rw [if_neg (Nat.succ_ne_zero c)]
  show (match tokens[c]? with
        | some t => PResult.ok t (c + 1)
        | none => PResult.oob) = _
  rw [tokGet tokens c hc]

lemma safe_advance (hw : WFTokens tokens) :
    SafeV (NotEof tokens) (fun _ c => Pre1 tokens c) (advance tokens) := by
  intro c hc
  obtain ⟨hlt, hk⟩ := hc
  rw [advance_eq tokens c hlt hk]
  refine ⟨(fun hbad => by cases hbad), fun a c1 hb => ?_⟩
  cases hb
  exact ⟨by omega, notEof_succ_lt tokens hw c ⟨hlt, hk⟩⟩

lemma safe_check (kind : TokenKind) :
    SafeV (InB tokens) (fun b c => InB tokens c ∧ (b = true → NotEof tokens c))
      (check tokens kind) := by
  intro c hc
  unfold check
  rw [is_at_end_eq tokens c hc]
  rcases h : kindEq (tokens.get ⟨c, hc⟩).kind .Eof with - | -
  · show (match tokens[c]? with
          | some t => PResult.ok (kindMatches kind t.kind) c
          | none => PResult.oob) ≠ PResult.oob ∧ _
    rw [List.getElem?_eq_getElem hc]
    refine ⟨(fun hbad => by cases hbad), fun a c1 hb => ?_⟩
    cases hb
    refine ⟨hc, fun _ => ⟨hc, fun heof => ?_⟩⟩
    rw [(kindEq_eof _).mpr heof] at h
    cases h
  · refine ⟨(fun hbad => by cases hbad), fun a c1 hb => ?_⟩
    cases hb
    exact ⟨hc, fun htrue => by cases htrue⟩

lemma safe_match_token (hw : WFTokens tokens) (kinds : List TokenKind) :
    SafeV (InB tokens) (fun b c => InB tokens c ∧ (b = true → Pre1 tokens c))
      (match_token tokens kinds) := by
  induction kinds with
  | nil =>
    exact safe_pure false (fun c hc => ⟨hc, fun h => by cases h⟩)
  | cons kind rest ih =>
    rw [match_token]
    refine SafeV.bind (safe_check tokens kind) (fun b => ?_)
    cases b
    · rw [if_neg (by simp)]
      exact ih.mono (fun c hc => hc.1) (fun a c h => h)
    · rw [if_pos rfl]
      refine SafeV.bind ((safe_advance tokens hw).mono
        (fun c hc => hc.2 rfl) (fun a c h => h)) (fun t => ?_)
      exact safe_pure true (fun c hc => ⟨hc.2, fun _ => hc⟩)

lemma safe_consume (hw : WFTokens tokens) (kind : TokenKind) (msg : String) :
    SafeV (InB tokens) (fun _ c => Pre1 tokens c) (consume tokens kind msg) := by
  unfold consume
  refine SafeV.bind (safe_check tokens kind) (fun b => ?_)
  cases b
  · rw [if_neg (by simp)]
    exact safe_perr msg
  · rw [if_pos rfl]
    exact (safe_advance tokens hw).mono (fun c hc => hc.2 rfl) (fun a c h => h)

lemma safe_consume_identifier (hw : WFTokens tokens) (msg : String) :
    SafeV (InB tokens) (fun _ c => Pre1 tokens c) (consume_identifier tokens msg) := by
  intro c hc
  unfold consume_identifier
  rw [is_at_end_eq tokens c hc]
  rcases h : kindEq (tokens.get ⟨c, hc⟩).kind .Eof with - | -
  · simp only []
    rw [tokGet tokens c hc]
    simp only []
    rcases hk : (tokens.get ⟨c, hc⟩).kind with
      - | - | - | - | - | - | - | - | - | - | - | - | - | - | - | - | - | - | - | - |
      - | - | - | - | - | - | - | - | - | - | - | - | - | - | name | s | s | b | -
    case Identifier =>
      have hne : (tokens.get ⟨c, hc⟩).kind ≠ .Eof := by
        rw [hk]
        intro hbad
        cases hbad
      rw [advance_eq tokens c hc hne]
      simp only []
      refine ⟨(fun hbad => by cases hbad), fun a c2 hb => ?_⟩
      cases hb
      exact ⟨by omega, notEof_succ_lt tokens hw c ⟨hc, hne⟩⟩
    all_goals exact ⟨(fun hbad => by cases hbad), fun a c2 hb => by cases hb⟩
  · exact ⟨(fun hbad => by cases hbad), fun a c2 hb => by cases hb⟩

lemma safe_previous :
    SafeV (Pre1 tokens) (fun _ c => Pre1 tokens c) (previous tokens) := by
  intro c hc
  obtain ⟨hc1, hc2⟩ := hc
  have hlt : c - 1 < tokens.length := by omega
  unfold previous
  rw [if_neg (by omega), tokGet tokens (c - 1) hlt]
  refine ⟨(fun hbad => by cases hbad), fun a c1 hb => ?_⟩
  cases hb
  exact ⟨hc1, hc2⟩

lemma safe_previous_token_kind :
    SafeV (Pre1 tokens) (fun _ c => Pre1 tokens c) (previous_token_kind tokens) := by
  intro c hc
  obtain ⟨hc1, hc2⟩ := hc
  have hlt : c - 1 < tokens.length := by omega
  unfold previous_token_kind
  rw [if_neg (by omega), tokGet tokens (c - 1) hlt]
  refine ⟨(fun hbad => by cases hbad), fun a c1 hb => ?_⟩
  cases hb
  exact ⟨hc1, hc2⟩

lemma safe_lambda_check (P : Nat → Prop) :
    SafeV P (fun (_ : Bool) c => P c) (lambda_check tokens) := by
  intro c hc
  refine ⟨(fun hbad => by cases hbad), fun a c1 hb => ?_⟩
  cases hb
  exact hc

lemma safe_finish_property_access (hw : WFTokens tokens) (e : Expr) :
    SafeV (InB tokens) (fun _ c => Pre1 tokens c)
      (finish_property_access tokens e) := by
  unfold finish_property_access
  refine SafeV.bind (safe_consume_identifier tokens hw _) (fun name => ?_)
  exact safe_pure _ (fun c hc => hc)

/-- `safe_pure` with the success predicate fixed to `InB`, for use as the
first computation of a `SafeV.bind` (keeps the intermediate postcondition
from being an unresolved metavariable). -/
lemma safe_pure_inb {α : Type} {P : Nat → Prop} (a : α)
    (h : ∀ c, P c → InB tokens c) :
    SafeV P (fun (_ : α) c => InB tokens c) (pure a) := safe_pure a h

/-- The safety contract of every production record entry: from an
in-bounds cursor (one past the start for `variable_declaration`, which
reads the just-consumed keyword through `previous_token_kind`), the
production never reaches `.oob`, and succeeds on an in-bounds cursor. -/
structure SafeProds (p : Prods) : Prop where
  declaration : SafeV (InB tokens) (fun (_ : Stmt) c => InB tokens c) p.declaration
  import_declaration :
    SafeV (InB tokens) (fun (_ : Stmt) c => InB tokens c) p.import_declaration
  module_declaration :
    SafeV (InB tokens) (fun (_ : Stmt) c => InB tokens c) p.module_declaration
  declarations_until_rbrace : ∀ acc,
    SafeV (InB tokens) (fun (_ : List Stmt) c => InB tokens c)
      (p.declarations_until_rbrace acc)
  class_declaration :
    SafeV (InB tokens) (fun (_ : Stmt) c => InB tokens c) p.class_declaration
  class_body_loop : ∀ fs ms,
    SafeV (InB tokens) (fun (_ : List Stmt × List Stmt) c => InB tokens c)
      (p.class_body_loop fs ms)
  function_declaration :
    SafeV (InB tokens) (fun (_ : Stmt) c => InB tokens c) p.function_declaration
  params_loop : ∀ acc,
    SafeV (InB tokens) (fun (_ : List Parameter) c => InB tokens c) (p.params_loop acc)
  variable_declaration :
    SafeV (Pre1 tokens) (fun (_ : Stmt) c => InB tokens c) p.variable_declaration
  statement : SafeV (InB tokens) (fun (_ : Stmt) c => InB tokens c) p.statement
  parse_type : SafeV (InB tokens) (fun (_ : Ty) c => InB tokens c) p.parse_type
  type_list_loop : ∀ acc,
    SafeV (InB tokens) (fun (_ : List Ty) c => InB tokens c) (p.type_list_loop acc)
  parse_lambda : SafeV (InB tokens) (fun (_ : Expr) c => InB tokens c) p.parse_lambda
  parse_parameters :
    SafeV (InB tokens) (fun (_ : List Parameter) c => InB tokens c) p.parse_parameters
  expression : SafeV (InB tokens) (fun (_ : Expr) c => InB tokens c) p.expression
  logical_or : SafeV (InB tokens) (fun (_ : Expr) c => InB tokens c) p.logical_or
  logical_or_loop : ∀ e,
    SafeV (InB tokens) (fun (_ : Expr) c => InB tokens c) (p.logical_or_loop e)
  logical_and : SafeV (InB tokens) (fun (_ : Expr) c => InB tokens c) p.logical_and
  logical_and_loop : ∀ e,
    SafeV (InB tokens) (fun (_ : Expr) c => InB tokens c) (p.logical_and_loop e)
  equality : SafeV (InB tokens) (fun (_ : Expr) c => InB tokens c) p.equality
  equality_loop : ∀ e,
    SafeV (InB tokens) (fun (_ : Expr) c => InB tokens c) (p.equality_loop e)
  comparison : SafeV (InB tokens) (fun (_ : Expr) c => InB tokens c) p.comparison
  comparison_loop : ∀ e,
    SafeV (InB tokens) (fun (_ : Expr) c => InB tokens c) (p.comparison_loop e)
  addition : SafeV (InB tokens) (fun (_ : Expr) c => InB tokens c) p.addition
  addition_loop : ∀ e,
    SafeV (InB tokens) (fun (_ : Expr) c => InB tokens c) (p.addition_loop e)
  multiplication : SafeV (InB tokens) (fun (_ : Expr) c => InB tokens c) p.multiplication
  multiplication_loop : ∀ e,
    SafeV (InB tokens) (fun (_ : Expr) c => InB tokens c) (p.multiplication_loop e)
  unary : SafeV (InB tokens) (fun (_ : Expr) c => InB tokens c) p.unary
  primary : SafeV (InB tokens) (fun (_ : Expr) c => InB tokens c) p.primary
  struct_fields_loop : ∀ fs,
    SafeV (InB tokens) (fun (_ : List (String × Expr)) c => InB tokens c)
      (p.struct_fields_loop fs)
  postfix_loop : ∀ e,
    SafeV (InB tokens) (fun (_ : Expr) c => InB tokens c) (p.postfix_loop e)
  finish_call : ∀ e,
    SafeV (InB tokens) (fun (_ : Expr) c => InB tokens c) (p.finish_call e)
  call_args_loop : ∀ acc,
    SafeV (InB tokens) (fun (_ : List Expr) c => InB tokens c) (p.call_args_loop acc)
  parse_program_loop : ∀ acc,
    SafeV (InB tokens) (fun (_ : List Stmt) c => InB tokens c) (p.parse_program_loop acc)

lemma safeProds_pfuel : SafeProds tokens pfuelProds := by
  constructor <;> first
    | exact safe_pfuel
    | (intro x; exact safe_pfuel)
    | (intro x y; exact safe_pfuel)

/-! Preservation of the safety contract through one knot-tying step: one
lemma per production, each threading the cursor invariants through the
production's `do` block with `SafeV.bind`. -/

lemma safeF_import_declaration (hw : WFTokens tokens) (p : Prods) :
    SafeV (InB tokens) (fun (_ : Stmt) c => InB tokens c)
      (import_declarationF tokens p) := by
  unfold import_declarationF
  refine SafeV.bind (safe_consume_identifier tokens hw _) (fun name => ?_)
  refine SafeV.bind ((safe_consume tokens hw _ _).mono (fun c hc => hc.2)
    (fun a c h => h)) (fun t => ?_)
  exact safe_pure _ (fun c hc => hc.2)

lemma safeF_module_declaration (hw : WFTokens tokens) {p : Prods}
    (hp : SafeProds tokens p) :
    SafeV (InB tokens) (fun (_ : Stmt) c => InB tokens c)
      (module_declarationF tokens p) := by
  unfold module_declarationF
  refine SafeV.bind (safe_consume_identifier tokens hw _) (fun name => ?_)
  refine SafeV.bind ((safe_consume tokens hw _ _).mono (fun c hc => hc.2)
    (fun a c h => h)) (fun t => ?_)
  refine SafeV.bind ((hp.declarations_until_rbrace []).mono (fun c hc => hc.2)
    (fun a c h => h)) (fun ds => ?_)
  refine SafeV.bind (safe_consume tokens hw _ _) (fun t2 => ?_)
  exact safe_pure _ (fun c hc => hc.2)

lemma safeF_declarations_until_rbrace (hw : WFTokens tokens) {p : Prods}
    (hp : SafeProds tokens p) (acc : List Stmt) :
    SafeV (InB tokens) (fun (_ : List Stmt) c => InB tokens c)
      (declarations_until_rbraceF tokens p acc) := by
  unfold declarations_until_rbraceF
  refine SafeV.bind (safe_check tokens _) (fun b => ?_)
  cases b
  case true =>
    rw [if_pos rfl]
    exact safe_pure _ (fun c hc => hc.1)
  case false =>
    rw [if_neg (by simp)]
    refine SafeV.bind ((safe_is_at_end tokens).mono (fun c hc => hc.1)
      (fun a c h => h)) (fun e => ?_)
    cases e
    case true =>
      rw [if_pos rfl]
      exact safe_pure _ (fun c hc => hc.1)
    case false =>
      rw [if_neg (by simp)]
      refine SafeV.bind (hp.declaration.mono (fun c hc => hc.1)
        (fun a c h => h)) (fun d => ?_)
      exact hp.declarations_until_rbrace _

lemma safeF_class_declaration (hw : WFTokens tokens) {p : Prods}
    (hp : SafeProds tokens p) :
    SafeV (InB tokens) (fun (_ : Stmt) c => InB tokens c)
      (class_declarationF tokens p) := by
  unfold class_declarationF
  refine SafeV.bind (safe_consume_identifier tokens hw _) (fun name => ?_)
  refine SafeV.bind ((safe_consume tokens hw _ _).mono (fun c hc => hc.2)
    (fun a c h => h)) (fun t => ?_)
  refine SafeV.bind ((hp.class_body_loop [] []).mono (fun c hc => hc.2)
    (fun a c h => h)) (fun fm => ?_)
  refine SafeV.bind (safe_consume tokens hw _ _) (fun t2 => ?_)
  exact safe_pure _ (fun c hc => hc.2)

lemma safeF_class_body_loop (hw : WFTokens tokens) {p : Prods}
    (hp : SafeProds tokens p) (fs ms : List Stmt) :
    SafeV (InB tokens) (fun (_ : List Stmt × List Stmt) c => InB tokens c)
      (class_body_loopF tokens p fs ms) := by
  unfold class_body_loopF
  refine SafeV.bind (safe_check tokens _) (fun b => ?_)
  cases b
  case true =>
    rw [if_pos rfl]
    exact safe_pure _ (fun c hc => hc.1)
  case false =>
    rw [if_neg (by simp)]
    refine SafeV.bind ((safe_is_at_end tokens).mono (fun c hc => hc.1)
      (fun a c h => h)) (fun e => ?_)
    cases e
    case true =>
      rw [if_pos rfl]
      exact safe_pure _ (fun c hc => hc.1)
    case false =>
      rw [if_neg (by simp)]
      refine SafeV.bind ((safe_match_token tokens hw _).mono (fun c hc => hc.1)
        (fun a c h => h)) (fun m => ?_)
      cases m
      case true =>
        rw [if_pos rfl]
        refine SafeV.bind (hp.function_declaration.mono (fun c hc => hc.1)
          (fun a c h => h)) (fun d => ?_)
        exact hp.class_body_loop _ _
      case false =>
        rw [if_neg (by simp)]
        refine SafeV.bind ((safe_match_token tokens hw _).mono (fun c hc => hc.1)
          (fun a c h => h)) (fun m => ?_)
        cases m
        case true =>
          rw [if_pos rfl]
          refine SafeV.bind (hp.variable_declaration.mono (fun c hc => hc.2 rfl)
            (fun a c h => h)) (fun d => ?_)
          exact hp.class_body_loop _ _
        case false =>
          rw [if_neg (by simp)]
          exact safe_perr _

lemma safeF_statement {p : Prods} (hp : SafeProds tokens p)
    (hw : WFTokens tokens) :
    SafeV (InB tokens) (fun (_ : Stmt) c => InB tokens c) (statementF tokens p) := by
  unfold statementF
  refine SafeV.bind hp.expression (fun e => ?_)
  refine SafeV.bind (safe_consume tokens hw _ _) (fun t => ?_)
  exact safe_pure _ (fun c hc => hc.2)

lemma safeF_type_list_loop (hw : WFTokens tokens) {p : Prods}
    (hp : SafeProds tokens p) (acc : List Ty) :
    SafeV (InB tokens) (fun (_ : List Ty) c => InB tokens c)
      (type_list_loopF tokens p acc) := by
  unfold type_list_loopF
  refine SafeV.bind hp.parse_type (fun t => ?_)
  refine SafeV.bind (safe_match_token tokens hw _) (fun m => ?_)
  cases m
  case true =>
    rw [if_pos rfl]
    exact (hp.type_list_loop _).mono (fun c hc => hc.1) (fun a c h => h)
  case false =>
    rw [if_neg (by simp)]
    exact safe_pure _ (fun c hc => hc.1)

lemma safeF_parse_lambda (hw : WFTokens tokens) {p : Prods}
    (hp : SafeProds tokens p) :
    SafeV (InB tokens) (fun (_ : Expr) c => InB tokens c) (parse_lambdaF tokens p) := by
  unfold parse_lambdaF
  refine SafeV.bind hp.parse_parameters (fun params => ?_)
  refine SafeV.bind (safe_consume tokens hw _ _) (fun t => ?_)
  refine SafeV.bind (hp.expression.mono (fun c hc => hc.2) (fun a c h => h))
    (fun body => ?_)
  exact safe_pure _ (fun c hc => hc)

lemma safeF_parse_parameters (hw : WFTokens tokens) {p : Prods}
    (hp : SafeProds tokens p) :
    SafeV (InB tokens) (fun (_ : List Parameter) c => InB tokens c)
      (parse_parametersF tokens p) := by
  unfold parse_parametersF
  refine SafeV.bind (safe_check tokens _) (fun b => ?_)
  cases b
  case false =>
    rw [if_pos (by simp)]
    refine SafeV.bind ((hp.params_loop []).mono (fun c hc => hc.1)
      (fun a c h => h)) (fun params => ?_)
    refine SafeV.bind (safe_consume tokens hw _ _) (fun t => ?_)
    exact safe_pure _ (fun c hc => hc.2)
  case true =>
    rw [if_neg (by simp)]
    refine SafeV.bind (safe_pure_inb tokens ([] : List Parameter) (fun c hc => hc.1))
      (fun params => ?_)
    refine SafeV.bind (safe_consume tokens hw _ _) (fun t => ?_)
    exact safe_pure _ (fun c hc => hc.2)

lemma safeF_expression {p : Prods} (hp : SafeProds tokens p) :
    SafeV (InB tokens) (fun (_ : Expr) c => InB tokens c) (expressionF p) := by
  unfold expressionF
  exact hp.logical_or

lemma safeF_logical_or {p : Prods} (hp : SafeProds tokens p) :
    SafeV (InB tokens) (fun (_ : Expr) c => InB tokens c) (logical_orF p) := by
  unfold logical_orF
  exact SafeV.bind hp.logical_and (fun e => hp.logical_or_loop e)

lemma safeF_logical_or_loop (hw : WFTokens tokens) {p : Prods}
    (hp : SafeProds tokens p) (e : Expr) :
    SafeV (InB tokens) (fun (_ : Expr) c => InB tokens c)
      (logical_or_loopF tokens p e) := by
  unfold logical_or_loopF
  refine SafeV.bind (safe_match_token tokens hw _) (fun m => ?_)
  cases m
  case true =>
    rw [if_pos rfl]
    refine SafeV.bind (hp.logical_and.mono (fun c hc => hc.1)
      (fun a c h => h)) (fun right => ?_)
    exact hp.logical_or_loop _
  case false =>
    rw [if_neg (by simp)]
    exact safe_pure _ (fun c hc => hc.1)

lemma safeF_logical_and {p : Prods} (hp : SafeProds tokens p) :
    SafeV (InB tokens) (fun (_ : Expr) c => InB tokens c) (logical_andF p) := by
  unfold logical_andF
  exact SafeV.bind hp.equality (fun e => hp.logical_and_loop e)

lemma safeF_logical_and_loop (hw : WFTokens tokens) {p : Prods}
    (hp : SafeProds tokens p) (e : Expr) :
    SafeV (InB tokens) (fun (_ : Expr) c => InB tokens c)
      (logical_and_loopF tokens p e) := by
  unfold logical_and_loopF
  refine SafeV.bind (safe_match_token tokens hw _) (fun m => ?_)
  cases m
  case true =>
    rw [if_pos rfl]
    refine SafeV.bind (hp.equality.mono (fun c hc => hc.1)
      (fun a c h => h)) (fun right => ?_)
    exact hp.logical_and_loop _
  case false =>
    rw [if_neg (by simp)]
    exact safe_pure _ (fun c hc => hc.1)

lemma safeF_equality {p : Prods} (hp : SafeProds tokens p) :
    SafeV (InB tokens) (fun (_ : Expr) c => InB tokens c) (equalityF p) := by
  unfold equalityF
  exact SafeV.bind hp.comparison (fun e => hp.equality_loop e)

lemma safeF_equality_loop (hw : WFTokens tokens) {p : Prods}
    (hp : SafeProds tokens p) (e : Expr) :
    SafeV (InB tokens) (fun (_ : Expr) c => InB tokens c)
      (equality_loopF tokens p e) := by
  unfold equality_loopF
  refine SafeV.bind (safe_match_token tokens hw _) (fun m => ?_)
  cases m
  case true =>
    rw [if_pos rfl]
    refine SafeV.bind ((safe_previous_token_kind tokens).mono
      (fun c hc => hc.2 rfl) (fun a c h => h)) (fun k => ?_)
    refine SafeV.bind (hp.comparison.mono (fun c hc => hc.2)
      (fun a c h => h)) (fun right => ?_)
    exact hp.equality_loop _
  case false =>
    rw [if_neg (by simp)]
    exact safe_pure _ (fun c hc => hc.1)

lemma safeF_comparison {p : Prods} (hp : SafeProds tokens p) :
    SafeV (InB tokens) (fun (_ : Expr) c => InB tokens c) (comparisonF p) := by
  unfold comparisonF
  exact SafeV.bind hp.addition (fun e => hp.comparison_loop e)

lemma safeF_comparison_loop (hw : WFTokens tokens) {p : Prods}
    (hp : SafeProds tokens p) (e : Expr) :
    SafeV (InB tokens) (fun (_ : Expr) c => InB tokens c)
      (comparison_loopF tokens p e) := by
  unfold comparison_loopF
  refine SafeV.bind (safe_match_token tokens hw _) (fun m => ?_)
  cases m
  case true =>
    rw [if_pos rfl]
    refine SafeV.bind ((safe_previous_token_kind tokens).mono
      (fun c hc => hc.2 rfl) (fun a c h => h)) (fun k => ?_)
    refine SafeV.bind (hp.addition.mono (fun c hc => hc.2)
      (fun a c h => h)) (fun right => ?_)
    exact hp.comparison_loop _
  case false =>
    rw [if_neg (by simp)]
    exact safe_pure _ (fun c hc => hc.1)

lemma safeF_addition {p : Prods} (hp : SafeProds tokens p) :
    SafeV (InB tokens) (fun (_ : Expr) c => InB tokens c) (additionF p) := by
  unfold additionF
  exact SafeV.bind hp.multiplication (fun e => hp.addition_loop e)

lemma safeF_addition_loop (hw : WFTokens tokens) {p : Prods}
    (hp : SafeProds tokens p) (e : Expr) :
    SafeV (InB tokens) (fun (_ : Expr) c => InB tokens c)
      (addition_loopF tokens p e) := by
  unfold addition_loopF
  refine SafeV.bind (safe_match_token tokens hw _) (fun m => ?_)
  cases m
  case true =>
    rw [if_pos rfl]
    refine SafeV.bind ((safe_previous_token_kind tokens).mono
      (fun c hc => hc.2 rfl) (fun a c h => h)) (fun k => ?_)
    refine SafeV.bind (hp.multiplication.mono (fun c hc => hc.2)
      (fun a c h => h)) (fun right => ?_)
    exact hp.addition_loop _
  case false =>
    rw [if_neg (by simp)]
    exact safe_pure _ (fun c hc => hc.1)

lemma safeF_multiplication {p : Prods} (hp : SafeProds tokens p) :
    SafeV (InB tokens) (fun (_ : Expr) c => InB tokens c) (multiplicationF p) := by
  unfold multiplicationF
  exact SafeV.bind hp.unary (fun e => hp.multiplication_loop e)

lemma safeF_multiplication_loop (hw : WFTokens tokens) {p : Prods}
    (hp : SafeProds tokens p) (e : Expr) :
    SafeV (InB tokens) (fun (_ : Expr) c => InB tokens c)
      (multiplication_loopF tokens p e) := by
  unfold multiplication_loopF
  refine SafeV.bind (safe_match_token tokens hw _) (fun m => ?_)
  cases m
  case true =>
    rw [if_pos rfl]
    refine SafeV.bind ((safe_previous_token_kind tokens).mono
      (fun c hc => hc.2 rfl) (fun a c h => h)) (fun k => ?_)
    refine SafeV.bind (hp.unary.mono (fun c hc => hc.2)
      (fun a c h => h)) (fun right => ?_)
    exact hp.multiplication_loop _
  case false =>
    rw [if_neg (by simp)]
    exact safe_pure _ (fun c hc => hc.1)

lemma safeF_unary (hw : WFTokens tokens) {p : Prods} (hp : SafeProds tokens p) :
    SafeV (InB tokens) (fun (_ : Expr) c => InB tokens c) (unaryF tokens p) := by
  unfold unaryF
  refine SafeV.bind (safe_match_token tokens hw _) (fun m => ?_)
  cases m
  case true =>
    rw [if_pos rfl]
    refine SafeV.bind ((safe_previous_token_kind tokens).mono
      (fun c hc => hc.2 rfl) (fun a c h => h)) (fun k => ?_)
    refine SafeV.bind (hp.unary.mono (fun c hc => hc.2)
      (fun a c h => h)) (fun expr => ?_)
    exact safe_pure _ (fun c hc => hc)
  case false =>
    rw [if_neg (by simp)]
    exact hp.primary.mono (fun c hc => hc.1) (fun a c h => h)

lemma safeF_struct_fields_loop (hw : WFTokens tokens) {p : Prods}
    (hp : SafeProds tokens p) (fs : List (String × Expr)) :
    SafeV (InB tokens) (fun (_ : List (String × Expr)) c => InB tokens c)
      (struct_fields_loopF tokens p fs) := by
  unfold struct_fields_loopF
  refine SafeV.bind (safe_check tokens _) (fun b => ?_)
  cases b
  case true =>
    rw [if_pos rfl]
    exact safe_pure _ (fun c hc => hc.1)
  case false =>
    rw [if_neg (by simp)]
    refine SafeV.bind ((safe_is_at_end tokens).mono (fun c hc => hc.1)
      (fun a c h => h)) (fun e => ?_)
    cases e
    case true =>
      rw [if_pos rfl]
      exact safe_pure _ (fun c hc => hc.1)
    case false =>
      rw [if_neg (by simp)]
      refine SafeV.bind ((safe_consume_identifier tokens hw _).mono
        (fun c hc => hc.1) (fun a c h => h)) (fun fname => ?_)
      refine SafeV.bind ((safe_match_token tokens hw _).mono
        (fun c hc => hc.2) (fun a c h => h)) (fun m => ?_)
      cases m
      case true =>
        rw [if_pos rfl]
        exact (hp.struct_fields_loop _).mono (fun c hc => hc.1) (fun a c h => h)
      case false =>
        rw [if_neg (by simp)]
        exact safe_pure _ (fun c hc => hc.1)

lemma safeF_postfix_loop (hw : WFTokens tokens) {p : Prods}
    (hp : SafeProds tokens p) (e : Expr) :
    SafeV (InB tokens) (fun (_ : Expr) c => InB tokens c)
      (postfix_loopF tokens p e) := by
  unfold postfix_loopF
  refine SafeV.bind (safe_match_token tokens hw _) (fun m => ?_)
  cases m
  case true =>
    rw [if_pos rfl]
    refine SafeV.bind ((hp.finish_call _).mono (fun c hc => hc.1)
      (fun a c h => h)) (fun e1 => ?_)
    exact hp.postfix_loop _
  case false =>
    rw [if_neg (by simp)]
    refine SafeV.bind ((safe_match_token tokens hw _).mono (fun c hc => hc.1)
      (fun a c h => h)) (fun m => ?_)
    cases m
    case true =>
      rw [if_pos rfl]
      refine SafeV.bind ((safe_finish_property_access tokens hw _).mono
        (fun c hc => hc.1) (fun a c h => h)) (fun e1 => ?_)
      exact (hp.postfix_loop _).mono (fun c hc => hc.2) (fun a c h => h)
    case false =>
      rw [if_neg (by simp)]
      exact safe_pure _ (fun c hc => hc.1)

lemma safeF_finish_call (hw : WFTokens tokens) {p : Prods}
    (hp : SafeProds tokens p) (callee : Expr) :
    SafeV (InB tokens) (fun (_ : Expr) c => InB tokens c)
      (finish_callF tokens p callee) := by
  unfold finish_callF
  refine SafeV.bind (safe_check tokens _) (fun b => ?_)
  cases b
  case false =>
    rw [if_pos (by simp)]
    refine SafeV.bind ((hp.call_args_loop []).mono (fun c hc => hc.1)
      (fun a c h => h)) (fun args => ?_)
    refine SafeV.bind (safe_consume tokens hw _ _) (fun t => ?_)
    exact safe_pure _ (fun c hc => hc.2)
  case true =>
    rw [if_neg (by simp)]
    refine SafeV.bind (safe_pure_inb tokens ([] : List Expr) (fun c hc => hc.1))
      (fun args => ?_)
    refine SafeV.bind (safe_consume tokens hw _ _) (fun t => ?_)
    exact safe_pure _ (fun c hc => hc.2)

lemma safeF_call_args_loop (hw : WFTokens tokens) {p : Prods}
    (hp : SafeProds tokens p) (acc : List Expr) :
    SafeV (InB tokens) (fun (_ : List Expr) c => InB tokens c)
      (call_args_loopF tokens p acc) := by
  unfold call_args_loopF
  refine SafeV.bind hp.expression (fun e => ?_)
  refine SafeV.bind (safe_match_token tokens hw _) (fun m => ?_)
  cases m
  case true =>
    rw [if_pos rfl]
    exact (hp.call_args_loop _).mono (fun c hc => hc.1) (fun a c h => h)
  case false =>
    rw [if_neg (by simp)]
    exact safe_pure _ (fun c hc => hc.1)

lemma safeF_parse_program_loop {p : Prods} (hp : SafeProds tokens p)
    (acc : List Stmt) :
    SafeV (InB tokens) (fun (_ : List Stmt) c => InB tokens c)
      (parse_program_loopF tokens p acc) := by
  unfold parse_program_loopF
  refine SafeV.bind (safe_is_at_end tokens) (fun e => ?_)
  cases e
  case true =>
    rw [if_pos rfl]
    exact safe_pure _ (fun c hc => hc.1)
  case false =>
    rw [if_neg (by simp)]
    refine SafeV.bind (hp.declaration.mono (fun c hc => hc.1)
      (fun a c h => h)) (fun d => ?_)
    exact hp.parse_program_loop _

lemma safeF_declaration (hw : WFTokens tokens) {p : Prods}
    (hp : SafeProds tokens p) :
    SafeV (InB tokens) (fun (_ : Stmt) c => InB tokens c) (declarationF tokens p) := by
  unfold declarationF
  dsimp only
  refine SafeV.bind (safe_match_token tokens hw _) (fun m => ?_)
  cases m
  case true =>
    rw [if_pos rfl]
    exact hp.import_declaration.mono (fun c hc => hc.1) (fun a c h => h)
  case false =>
    rw [if_neg (by simp)]
    refine SafeV.bind ((safe_match_token tokens hw _).mono (fun c hc => hc.1)
      (fun a c h => h)) (fun m => ?_)
    cases m
    case true =>
      rw [if_pos rfl]
      exact hp.module_declaration.mono (fun c hc => hc.1) (fun a c h => h)
    case false =>
      rw [if_neg (by simp)]
      refine SafeV.bind ((safe_match_token tokens hw _).mono (fun c hc => hc.1)
        (fun a c h => h)) (fun m => ?_)
      cases m
      case true =>
        rw [if_pos rfl]
        exact hp.class_declaration.mono (fun c hc => hc.1) (fun a c h => h)
      case false =>
        rw [if_neg (by simp)]
        refine SafeV.bind ((safe_match_token tokens hw _).mono (fun c hc => hc.1)
          (fun a c h => h)) (fun m => ?_)
        cases m
        case true =>
          rw [if_pos rfl]
          exact hp.function_declaration.mono (fun c hc => hc.1) (fun a c h => h)
        case false =>
          rw [if_neg (by simp)]
          refine SafeV.bind ((safe_match_token tokens hw _).mono (fun c hc => hc.1)
            (fun a c h => h)) (fun m => ?_)
          cases m
          case true =>
            rw [if_pos rfl]
            refine SafeV.bind ((safe_check tokens _).mono (fun c hc => hc.1)
              (fun a c h => h)) (fun b => ?_)
            cases b
            case false =>
              rw [if_pos (by simp)]
              refine SafeV.bind (hp.expression.mono (fun c hc => hc.1)
                (fun a c h => h)) (fun e => ?_)
              refine SafeV.bind (safe_pure_inb tokens (some e)
                (fun c hc => hc)) (fun expr => ?_)
              refine SafeV.bind (safe_consume tokens hw _ _) (fun t => ?_)
              exact safe_pure _ (fun c hc => hc.2)
            case true =>
              rw [if_neg (by simp)]
              refine SafeV.bind (safe_pure_inb tokens (none : Option Expr)
                (fun c hc => hc.1)) (fun expr => ?_)
              refine SafeV.bind (safe_consume tokens hw _ _) (fun t => ?_)
              exact safe_pure _ (fun c hc => hc.2)
          case false =>
            rw [if_neg (by simp)]
            refine SafeV.bind ((safe_match_token tokens hw _).mono
              (fun c hc => hc.1) (fun a c h => h)) (fun m => ?_)
            cases m
            case true =>
              rw [if_pos rfl]
              exact hp.variable_declaration.mono (fun c hc => hc.2 rfl)
                (fun a c h => h)
            case false =>
              rw [if_neg (by simp)]
              exact hp.statement.mono (fun c hc => hc.1) (fun a c h => h)

lemma safeF_function_declaration (hw : WFTokens tokens) {p : Prods}
    (hp : SafeProds tokens p) :
    SafeV (InB tokens) (fun (_ : Stmt) c => InB tokens c)
      (function_declarationF tokens p) := by
  unfold function_declarationF
  dsimp only
  refine SafeV.bind (safe_consume_identifier tokens hw _) (fun name => ?_)
  refine SafeV.bind ((safe_consume tokens hw _ _).mono (fun c hc => hc.2)
    (fun a c h => h)) (fun t => ?_)
  refine SafeV.bind ((safe_check tokens _).mono (fun c hc => hc.2)
    (fun a c h => h)) (fun b => ?_)
  cases b
  case false =>
    rw [if_pos (by simp)]
    refine SafeV.bind ((hp.params_loop []).mono (fun c hc => hc.1)
      (fun a c h => h)) (fun params => ?_)
    refine SafeV.bind (safe_consume tokens hw _ _) (fun t2 => ?_)
    refine SafeV.bind ((safe_match_token tokens hw _).mono (fun c hc => hc.2)
      (fun a c h => h)) (fun m => ?_)
    cases m
    case true =>
      rw [if_pos rfl]
      refine SafeV.bind (hp.parse_type.mono (fun c hc => hc.1)
        (fun a c h => h)) (fun ty => ?_)
      refine SafeV.bind (safe_pure_inb tokens (some ty)
        (fun c hc => hc)) (fun rt => ?_)
      refine SafeV.bind (safe_consume tokens hw _ _) (fun t3 => ?_)
      refine SafeV.bind ((hp.declarations_until_rbrace []).mono
        (fun c hc => hc.2) (fun a c h => h)) (fun body => ?_)
      refine SafeV.bind (safe_consume tokens hw _ _) (fun t4 => ?_)
      exact safe_pure _ (fun c hc => hc.2)
    case false =>
      rw [if_neg (by simp)]
      refine SafeV.bind (safe_pure_inb tokens (none : Option Ty)
        (fun c hc => hc.1)) (fun rt => ?_)
      refine SafeV.bind (safe_consume tokens hw _ _) (fun t3 => ?_)
      refine SafeV.bind ((hp.declarations_until_rbrace []).mono
        (fun c hc => hc.2) (fun a c h => h)) (fun body => ?_)
      refine SafeV.bind (safe_consume tokens hw _ _) (fun t4 => ?_)
      exact safe_pure _ (fun c hc => hc.2)
  case true =>
    rw [if_neg (by simp)]
    refine SafeV.bind (safe_pure_inb tokens ([] : List Parameter)
      (fun c hc => hc.1)) (fun params => ?_)
    refine SafeV.bind (safe_consume tokens hw _ _) (fun t2 => ?_)
    refine SafeV.bind ((safe_match_token tokens hw _).mono (fun c hc => hc.2)
      (fun a c h => h)) (fun m => ?_)
    cases m
    case true =>
      rw [if_pos rfl]
      refine SafeV.bind (hp.parse_type.mono (fun c hc => hc.1)
        (fun a c h => h)) (fun ty => ?_)
      refine SafeV.bind (safe_pure_inb tokens (some ty)
        (fun c hc => hc)) (fun rt => ?_)
      refine SafeV.bind (safe_consume tokens hw _ _) (fun t3 => ?_)
      refine SafeV.bind ((hp.declarations_until_rbrace []).mono
        (fun c hc => hc.2) (fun a c h => h)) (fun body => ?_)
      refine SafeV.bind (safe_consume tokens hw _ _) (fun t4 => ?_)
      exact safe_pure _ (fun c hc => hc.2)
    case false =>
      rw [if_neg (by simp)]
      refine SafeV.bind (safe_pure_inb tokens (none : Option Ty)
        (fun c hc => hc.1)) (fun rt => ?_)
      refine SafeV.bind (safe_consume tokens hw _ _) (fun t3 => ?_)
      refine SafeV.bind ((hp.declarations_until_rbrace []).mono
        (fun c hc => hc.2) (fun a c h => h)) (fun body => ?_)
      refine SafeV.bind (safe_consume tokens hw _ _) (fun t4 => ?_)
      exact safe_pure _ (fun c hc => hc.2)

lemma safeF_params_loop (hw : WFTokens tokens) {p : Prods}
    (hp : SafeProds tokens p) (acc : List Parameter) :
    SafeV (InB tokens) (fun (_ : List Parameter) c => InB tokens c)
      (params_loopF tokens p acc) := by
  unfold params_loopF
  dsimp only
  refine SafeV.bind (safe_consume_identifier tokens hw _) (fun pname => ?_)
  refine SafeV.bind ((safe_match_token tokens hw _).mono (fun c hc => hc.2)
    (fun a c h => h)) (fun m => ?_)
  cases m
  case true =>
    rw [if_pos rfl]
    refine SafeV.bind (hp.parse_type.mono (fun c hc => hc.1)
      (fun a c h => h)) (fun ty => ?_)
    refine SafeV.bind (safe_pure_inb tokens (some ty)
      (fun c hc => hc)) (fun ta => ?_)
    refine SafeV.bind (safe_match_token tokens hw _) (fun m2 => ?_)
    cases m2
    case true =>
      rw [if_pos rfl]
      exact (hp.params_loop _).mono (fun c hc => hc.1) (fun a c h => h)
    case false =>
      rw [if_neg (by simp)]
      exact safe_pure _ (fun c hc => hc.1)
  case false =>
    rw [if_neg (by simp)]
    refine SafeV.bind (safe_pure_inb tokens (none : Option Ty)
      (fun c hc => hc.1)) (fun ta => ?_)
    refine SafeV.bind (safe_match_token tokens hw _) (fun m2 => ?_)
    cases m2
    case true =>
      rw [if_pos rfl]
      exact (hp.params_loop _).mono (fun c hc => hc.1) (fun a c h => h)
    case false =>
      rw [if_neg (by simp)]
      exact safe_pure _ (fun c hc => hc.1)

lemma safeF_variable_declaration (hw : WFTokens tokens) {p : Prods}
    (hp : SafeProds tokens p) :
    SafeV (Pre1 tokens) (fun (_ : Stmt) c => InB tokens c)
      (variable_declarationF tokens p) := by
  unfold variable_declarationF
  dsimp only
  refine SafeV.bind (safe_previous_token_kind tokens) (fun keyword => ?_)
  refine SafeV.bind ((safe_consume_identifier tokens hw _).mono
    (fun c hc => hc.2) (fun a c h => h)) (fun name => ?_)
  refine SafeV.bind ((safe_match_token tokens hw _).mono (fun c hc => hc.2)
    (fun a c h => h)) (fun m => ?_)
  cases m
  case true =>
    rw [if_pos rfl]
    refine SafeV.bind (hp.parse_type.mono (fun c hc => hc.1)
      (fun a c h => h)) (fun ty => ?_)
    refine SafeV.bind (safe_pure_inb tokens (some ty)
      (fun c hc => hc)) (fun ta => ?_)
    refine SafeV.bind (safe_match_token tokens hw _) (fun m2 => ?_)
    cases m2
    case true =>
      rw [if_pos rfl]
      refine SafeV.bind (hp.expression.mono (fun c hc => hc.1)
        (fun a c h => h)) (fun e => ?_)
      refine SafeV.bind (safe_pure_inb tokens (some e)
        (fun c hc => hc)) (fun init => ?_)
      refine SafeV.bind (safe_consume tokens hw _ _) (fun t => ?_)
      exact safe_pure _ (fun c hc => hc.2)
    case false =>
      rw [if_neg (by simp)]
      refine SafeV.bind (safe_pure_inb tokens (none : Option Expr)
        (fun c hc => hc.1)) (fun init => ?_)
      refine SafeV.bind (safe_consume tokens hw _ _) (fun t => ?_)
      exact safe_pure _ (fun c hc => hc.2)
  case false =>
    rw [if_neg (by simp)]
    refine SafeV.bind (safe_pure_inb tokens (none : Option Ty)
      (fun c hc => hc.1)) (fun ta => ?_)
    refine SafeV.bind (safe_match_token tokens hw _) (fun m2 => ?_)
    cases m2
    case true =>
      rw [if_pos rfl]
      refine SafeV.bind (hp.expression.mono (fun c hc => hc.1)
        (fun a c h => h)) (fun e => ?_)
      refine SafeV.bind (safe_pure_inb tokens (some e)
        (fun c hc => hc)) (fun init => ?_)
      refine SafeV.bind (safe_consume tokens hw _ _) (fun t => ?_)
      exact safe_pure _ (fun c hc => hc.2)
    case false =>
      rw [if_neg (by simp)]
      refine SafeV.bind (safe_pure_inb tokens (none : Option Expr)
        (fun c hc => hc.1)) (fun init => ?_)
      refine SafeV.bind (safe_consume tokens hw _ _) (fun t => ?_)
      exact safe_pure _ (fun c hc => hc.2)

lemma safeF_parse_type (hw : WFTokens tokens) {p : Prods}
    (hp : SafeProds tokens p) :
    SafeV (InB tokens) (fun (_ : Ty) c => InB tokens c) (parse_typeF tokens p) := by
  unfold parse_typeF
  dsimp only
  refine SafeV.bind (safe_match_token tokens hw _) (fun m => ?_)
  cases m
  case true =>
    rw [if_pos rfl]
    refine SafeV.bind ((hp.type_list_loop []).mono (fun c hc => hc.1)
      (fun a c h => h)) (fun params => ?_)
    refine SafeV.bind (safe_consume tokens hw _ _) (fun t => ?_)
    refine SafeV.bind ((safe_consume tokens hw _ _).mono (fun c hc => hc.2)
      (fun a c h => h)) (fun t2 => ?_)
    refine SafeV.bind (hp.parse_type.mono (fun c hc => hc.2)
      (fun a c h => h)) (fun rt => ?_)
    exact safe_pure _ (fun c hc => hc)
  case false =>
    rw [if_neg (by simp)]
    refine SafeV.bind ((safe_consume_identifier tokens hw _).mono
      (fun c hc => hc.1) (fun a c h => h)) (fun name => ?_)
    refine SafeV.bind ((safe_match_token tokens hw _).mono (fun c hc => hc.2)
      (fun a c h => h)) (fun m2 => ?_)
    cases m2
    case true =>
      rw [if_pos rfl]
      refine SafeV.bind ((hp.type_list_loop []).mono (fun c hc => hc.1)
        (fun a c h => h)) (fun params => ?_)
      refine SafeV.bind (safe_consume tokens hw _ _) (fun t => ?_)
      exact safe_pure _ (fun c hc => hc.2)
    case false =>
      rw [if_neg (by simp)]
      exact safe_pure _ (fun c hc => hc.1)

lemma safeF_primary (hw : WFTokens tokens) {p : Prods}
    (hp : SafeProds tokens p) :
    SafeV (InB tokens) (fun (_ : Expr) c => InB tokens c) (primaryF tokens p) := by
  unfold primaryF
  refine SafeV.bind (safe_match_token tokens hw _) (fun m => ?_)
  cases m
  case true =>
    rw [if_pos rfl]
    refine SafeV.bind ((safe_previous tokens).mono (fun c hc => hc.2 rfl)
      (fun a c h => h)) (fun token => ?_)
    obtain ⟨k⟩ := token
    cases k
    case Number s =>
      dsimp only
      rcases hpf : parseF64 s with - | num
      · exact safe_perr _
      · exact (hp.postfix_loop _).mono (fun c hc => hc.2) (fun a c h => h)
    all_goals exact safe_perr _
  case false =>
    rw [if_neg (by simp)]
    refine SafeV.bind ((safe_match_token tokens hw _).mono (fun c hc => hc.1)
      (fun a c h => h)) (fun m => ?_)
    cases m
    case true =>
      rw [if_pos rfl]
      refine SafeV.bind ((safe_previous tokens).mono (fun c hc => hc.2 rfl)
        (fun a c h => h)) (fun token => ?_)
      obtain ⟨k⟩ := token
      cases k
      case String s =>
        exact (hp.postfix_loop _).mono (fun c hc => hc.2) (fun a c h => h)
      all_goals exact safe_perr _
    case false =>
      rw [if_neg (by simp)]
      refine SafeV.bind ((safe_match_token tokens hw _).mono (fun c hc => hc.1)
        (fun a c h => h)) (fun m => ?_)
      cases m
      case true =>
        rw [if_pos rfl]
        exact (hp.postfix_loop _).mono (fun c hc => hc.1) (fun a c h => h)
      case false =>
        rw [if_neg (by simp)]
        refine SafeV.bind ((safe_match_token tokens hw _).mono (fun c hc => hc.1)
          (fun a c h => h)) (fun m => ?_)
        cases m
        case true =>
          rw [if_pos rfl]
          exact (hp.postfix_loop _).mono (fun c hc => hc.1) (fun a c h => h)
        case false =>
          rw [if_neg (by simp)]
          refine SafeV.bind ((safe_match_token tokens hw _).mono (fun c hc => hc.1)
            (fun a c h => h)) (fun m => ?_)
          cases m
          case true =>
            rw [if_pos rfl]
            refine SafeV.bind ((safe_previous tokens).mono (fun c hc => hc.2 rfl)
              (fun a c h => h)) (fun token => ?_)
            obtain ⟨k⟩ := token
            cases k
            case Identifier name =>
              refine SafeV.bind ((safe_check tokens _).mono (fun c hc => hc.2)
                (fun a c h => h)) (fun b => ?_)
              cases b
              case true =>
                rw [if_pos rfl]
                refine SafeV.bind ((safe_advance tokens hw).mono
                  (fun c hc => hc.2 rfl) (fun a c h => h)) (fun t => ?_)
                refine SafeV.bind ((hp.struct_fields_loop []).mono
                  (fun c hc => hc.2) (fun a c h => h)) (fun fields => ?_)
                refine SafeV.bind (safe_consume tokens hw _ _) (fun t2 => ?_)
                exact safe_pure _ (fun c hc => hc.2)
              case false =>
                rw [if_neg (by simp)]
                exact safe_pure _ (fun c hc => hc.1)
            all_goals exact safe_perr _
          case false =>
            rw [if_neg (by simp)]
            refine SafeV.bind ((safe_match_token tokens hw _).mono
              (fun c hc => hc.1) (fun a c h => h)) (fun m => ?_)
            cases m
            case true =>
              rw [if_pos rfl]
              refine SafeV.bind (safe_lambda_check tokens
                (fun c => InB tokens c ∧ (true = true → Pre1 tokens c)))
                (fun lc => ?_)
              cases lc
              case true =>
                rw [if_pos rfl]
                refine SafeV.bind (hp.parse_lambda.mono (fun c hc => hc.1)
                  (fun a c h => h)) (fun expr => ?_)
                exact hp.postfix_loop _
              case false =>
                rw [if_neg (by simp)]
                refine SafeV.bind (hp.expression.mono (fun c hc => hc.1)
                  (fun a c h => h)) (fun e => ?_)
                refine SafeV.bind (safe_consume tokens hw _ _) (fun t => ?_)
                refine SafeV.bind (safe_pure_inb tokens (Expr.Grouping e)
                  (fun c hc => hc.2)) (fun expr => ?_)
                exact hp.postfix_loop _
            case false =>
              rw [if_neg (by simp)]
              refine SafeV.bind ((safe_match_token tokens hw _).mono
                (fun c hc => hc.1) (fun a c h => h)) (fun m => ?_)
              cases m
              case true =>
                rw [if_pos rfl]
                refine SafeV.bind ((hp.declarations_until_rbrace []).mono
                  (fun c hc => hc.1) (fun a c h => h)) (fun body => ?_)
                refine SafeV.bind (safe_consume tokens hw _ _) (fun t => ?_)
                refine SafeV.bind (safe_pure_inb tokens (Expr.Block body)
                  (fun c hc => hc.2)) (fun expr => ?_)
                exact hp.postfix_loop _
              case false =>
                rw [if_neg (by simp)]
                refine SafeV.bind ((safe_peek tokens).mono (fun c hc => hc.1)
                  (fun a c h => h)) (fun t => ?_)
                exact safe_perr _

/-- One knot-tying step preserves the safety contract. -/
lemma safeProds_mkProds (hw : WFTokens tokens) {p : Prods}
    (hp : SafeProds tokens p) : SafeProds tokens (mkProds tokens p) :=
  ⟨safeF_declaration tokens hw hp,
   safeF_import_declaration tokens hw p,
   safeF_module_declaration tokens hw hp,
   safeF_declarations_until_rbrace tokens hw hp,
   safeF_class_declaration tokens hw hp,
   safeF_class_body_loop tokens hw hp,
   safeF_function_declaration tokens hw hp,
   safeF_params_loop tokens hw hp,
   safeF_variable_declaration tokens hw hp,
   safeF_statement tokens hp hw,
   safeF_parse_type tokens hw hp,
   safeF_type_list_loop tokens hw hp,
   safeF_parse_lambda tokens hw hp,
   safeF_parse_parameters tokens hw hp,
   safeF_expression tokens hp,
   safeF_logical_or tokens hp,
   safeF_logical_or_loop tokens hw hp,
   safeF_logical_and tokens hp,
   safeF_logical_and_loop tokens hw hp,
   safeF_equality tokens hp,
   safeF_equality_loop tokens hw hp,
   safeF_comparison tokens hp,
   safeF_comparison_loop tokens hw hp,
   safeF_addition tokens hp,
   safeF_addition_loop tokens hw hp,
   safeF_multiplication tokens hp,
   safeF_multiplication_loop tokens hw hp,
   safeF_unary tokens hw hp,
   safeF_primary tokens hw hp,
   safeF_struct_fields_loop tokens hw hp,
   safeF_postfix_loop tokens hw hp,
   safeF_finish_call tokens hw hp,
   safeF_call_args_loop tokens hw hp,
   safeF_parse_program_loop tokens hp⟩

/-- The production record is safe at every fuel budget. -/
lemma safeProds_prods (hw : WFTokens tokens) :
    ∀ fuel, SafeProds tokens (prods tokens fuel)
  | 0 => safeProds_pfuel tokens
  | fuel + 1 => safeProds_mkProds tokens hw (safeProds_prods hw fuel)

end Parser

/-! ## Claim theorems (concrete evaluations) -/

/-- **C1.**  The claim says `;` `:` `(` `)` `{` `}` `,` `.` each lex to a
fixed punctuation token with no diagnostics.  Evaluating the lexer on the
repository's own test input `"();:"` (lexer_tests.rs,
`test_single_char_tokens`, which expects LeftParen, RightParen,
Semicolon, Colon) shows that only `;` does: `(`, `)` and `:` fall to the
catch-all arm of `Lexer::next` and produce `Error` tokens carrying an
`E000` "Unexpected character" diagnostic.  The code contradicts its own
test, so the claim is settled `code_bug`; this theorem evaluates the code
at the failing input. -/
theorem c1_punctuation_eval :
    Lexer.lexStr "();:" =
      [⟨.Error "Unexpected character: '('", Span.new ⟨1, 1, 0⟩ ⟨1, 2, 1⟩,
         [⟨some "E000", "Unexpected character: '('", some "Unexpected character",
           Span.new ⟨1, 1, 0⟩ ⟨1, 2, 1⟩⟩]⟩,
       ⟨.Error "Unexpected character: ')'", Span.new ⟨1, 2, 1⟩ ⟨1, 3, 2⟩,
         [⟨some "E000", "Unexpected character: ')'", some "Unexpected character",
           Span.new ⟨1, 2, 1⟩ ⟨1, 3, 2⟩⟩]⟩,
       ⟨.Semicolon, Span.new ⟨1, 3, 2⟩ ⟨1, 4, 3⟩, []⟩,
       ⟨.Error "Unexpected character: ':'", Span.new ⟨1, 4, 3⟩ ⟨1, 5, 4⟩,
         [⟨some "E000", "Unexpected character: ':'", some "Unexpected character",
           Span.new ⟨1, 4, 3⟩ ⟨1, 5, 4⟩⟩]⟩] := rfl

/-- **C2.**  The claim says the operator scanner greedily consumes a maximal
punctuation run and validates it as a whole, so that `"!=!!!==!!"` lexes
to a single `Error` token spanning all nine characters with one
`InvalidOperator` diagnostic (as the repository's own
`test_invalid_operator` expects).  The code's `Lexer::read_operator`
instead decides each operator from at most one character of lookahead:
`"=="` does lex to one `EqualEqual` spanning [0,2) (first conjunct, the
part of the claim that holds), but `"!=!!!==!!"` lexes to seven separate
operator tokens with no diagnostics at all (second conjunct).  The code
contradicts its own test, so the claim is settled `code_bug`; this
theorem evaluates the code at both spec inputs. -/
theorem c2_operator_eval :
    Lexer.lexStr "==" = [⟨.EqualEqual, Span.new ⟨1, 1, 0⟩ ⟨1, 3, 2⟩, []⟩] ∧
    Lexer.lexStr "!=!!!==!!" =
      [⟨.NotEqual, Span.new ⟨1, 1, 0⟩ ⟨1, 3, 2⟩, []⟩,
       ⟨.Bang, Span.new ⟨1, 3, 2⟩ ⟨1, 4, 3⟩, []⟩,
       ⟨.Bang, Span.new ⟨1, 4, 3⟩ ⟨1, 5, 4⟩, []⟩,
       ⟨.NotEqual, Span.new ⟨1, 5, 4⟩ ⟨1, 7, 6⟩, []⟩,
       ⟨.Equal, Span.new ⟨1, 7, 6⟩ ⟨1, 8, 7⟩, []⟩,
       ⟨.Bang, Span.new ⟨1, 8, 7⟩ ⟨1, 9, 8⟩, []⟩,
       ⟨.Bang, Span.new ⟨1, 9, 8⟩ ⟨1, 10, 9⟩, []⟩] := ⟨rfl, rfl⟩

/-- **C3.**  The claim says `ErrorKind` is a closed seven-variant set
including `UnterminatedEscapeSequence`, with stable codes E000–E006.
The code's `ErrorKind` (src/token.rs) has exactly the six variants
enumerated in the first conjunct — there is no
`UnterminatedEscapeSequence` constructor — and no variant maps to
"E006": the codes are E000–E005, with `UnterminatedBlockComment` at
E005.  (The repository's own `test_error_kind_messages` uses an
`UnterminatedEscapeSequence` kind and expects "E006" for it, so the
claim is settled `code_bug`.)  The example triple the claim gives for
`InvalidDecimal` does hold (last three conjuncts). -/
theorem c3_errorkind_eval :
    (∀ k : ErrorKind,
      (∃ c, k = .UnexpectedCharacter c) ∨ k = .InvalidDecimal ∨
        (∃ s, k = .InvalidOperator s) ∨ (∃ c, k = .InvalidEscape c) ∨
        k = .UnterminatedString ∨ k = .UnterminatedBlockComment) ∧
    (∀ k : ErrorKind, ErrorKind.code k ≠ "E006") ∧
    ErrorKind.code .UnterminatedBlockComment = "E005" ∧
    ErrorKind.code .InvalidDecimal = "E001" ∧
    ErrorKind.message .InvalidDecimal = "Invalid decimal number" ∧
    ErrorKind.label .InvalidDecimal = "Expected digits after decimal point" := by
  refine ⟨fun k => ?_, fun k => ?_, rfl, rfl, rfl, rfl⟩
  · cases k <;> simp
  · cases k <;> simp [ErrorKind.code]

/-- **C4.**  The claim says the reserved-word set is {let, var, type, if,
else, return, fn, class, rec, module, import}, so `"fn"` lexes to a
`Keyword` token (as the repository's own `test_keywords` expects for fn,
rec and class).  The code's `Lexer::read_identifier` matches only
{let, var, type, if, else, return}: `"fn"` lexes to an `Identifier`
token (first conjunct).  The exact-full-text part of the claim does hold:
`"let"` is a Keyword and `"letVar"` an Identifier (second and third
conjuncts).  The code contradicts its own test, so the claim is settled
`code_bug`; this theorem evaluates the code at the failing input. -/
theorem c4_keyword_eval :
    Lexer.lexStr "fn" = [⟨.Identifier "fn", Span.new ⟨1, 1, 0⟩ ⟨1, 3, 2⟩, []⟩] ∧
    Lexer.lexStr "let" = [⟨.Keyword "let", Span.new ⟨1, 1, 0⟩ ⟨1, 4, 3⟩, []⟩] ∧
    Lexer.lexStr "letVar" = [⟨.Identifier "letVar", Span.new ⟨1, 1, 0⟩ ⟨1, 7, 6⟩, []⟩] :=
  ⟨rfl, rfl, rfl⟩

/-- **C5.**  Lossless coverage: for every input, concatenating the source
slices covered by the emitted tokens' spans, in order, interleaved with
the gap slices between consecutive spans (before the first and after the
last included), reconstructs the input exactly, and every gap slice is
whitespace only — so the spans cover the whole input with no gaps other
than skipped whitespace and no overlaps. -/
theorem c5_lossless_coverage (source : List Char) :
    Lexer.rebuild source (Lexer.spanOffsets (Lexer.lex source)) 0 = source ∧
    Lexer.gapsAreWs source (Lexer.spanOffsets (Lexer.lex source)) 0 = true := by
  have h := Lexer.lexFuel_cover (source.length + 1) source [] (Nat.lt_succ_self _)
  simpa [Lexer.lex, Lexer.advList, Lexer.utf8Len] using h

/-- **C6.**  The claim says lexing, adapting and parsing
`"let a: number = 23;"` succeeds with one `VariableDecl`.  In the code,
the lexer turns `:` into an `Error` token (there is no `:` arm in
`Lexer::next`), the adapter degrades it to the sentinel
`Identifier("unknown")` (first conjunct), and `variable_declaration`
then fails at `consume(Semicolon)` with "Expected ';' after variable
declaration" (second conjunct).  The lexer's missing `:` arm contradicts
the repository's own `test_single_char_tokens` (which expects `Colon`),
so the claim is settled `code_bug`; this theorem evaluates the pipeline
at the failing input. -/
theorem c6_variable_decl_eval :
    (Lexer.lexStr "let a: number = 23;").map ParserToken.ofToken =
      [⟨.Let⟩, ⟨.Identifier "a"⟩, ⟨.Identifier "unknown"⟩, ⟨.Identifier "number"⟩,
       ⟨.Equal⟩, ⟨.Number "23"⟩, ⟨.Semicolon⟩] ∧
    parseSource "let a: number = 23;" 30 =
      .err "Expected ';' after variable declaration" := ⟨rfl, rfl⟩

/-- The adapted token sequence of `"(f, x) -> f(x)"` (claim C7). -/
def c7tokens : List ParserToken :=
  [⟨.LeftParen⟩, ⟨.Identifier "f"⟩, ⟨.Comma⟩, ⟨.Identifier "x"⟩, ⟨.RightParen⟩,
   ⟨.Arrow⟩, ⟨.Identifier "f"⟩, ⟨.LeftParen⟩, ⟨.Identifier "x"⟩, ⟨.RightParen⟩,
   ⟨.Eof⟩]

/-- What `Parser::expression` actually produces on `c7tokens`: the postfix
call loop of the *outer* `primary` wraps the lambda itself, because the
identifier branch of `primary` returns before the postfix loop (claim
C7). -/
def c7actual : Expr :=
  .Call (.Lambda [⟨"f", none⟩, ⟨"x", none⟩] (.Identifier "f")) [.Identifier "x"]

/-- The expression claim C7 asserts: a lambda whose body is the call. -/
def c7claimed : Expr :=
  .Lambda [⟨"f", none⟩, ⟨"x", none⟩] (.Call (.Identifier "f") [.Identifier "x"])

/-- **C7, counterexample.**  Parsing the token sequence of
`"(f, x) -> f(x)"` as an expression does *not* yield the claimed
`Lambda(params, Call(f, [x]))`: it yields `c7actual`, a `Call` whose
callee is the lambda, which is a different expression. -/
theorem c7_counterexample :
    Parser.expression c7tokens 21 0 = .ok c7actual 10 ∧ c7actual ≠ c7claimed :=
  ⟨by unfold c7tokens c7actual; exact c7full, fun h => Expr.noConfusion h⟩

/-- **C7, amended.**  Parsing the token sequence of `"(f, x) -> f(x)"` as an
expression does take the lambda branch (the bounded nesting-aware
lookahead `lambda_check`, started at the token after `(`, answers true),
and produces a lambda with exactly two parameters `f` and `x`, both
without type annotations — but its body is just `Identifier("f")`,
because the identifier branch of `primary` returns before the postfix
loop; the call `(x)` is then consumed by the *enclosing* `primary`'s
postfix loop, so the overall result is
`Call(Lambda([f, x], Identifier "f"), [Identifier "x"])` with all eleven
tokens up to `Eof` consumed. -/
theorem c7_amended :
    Parser.lambda_check c7tokens 1 = .ok true 1 ∧
    Parser.expression c7tokens 21 0 = .ok c7actual 10 :=
  ⟨by unfold c7tokens; exact c7lc, by unfold c7tokens c7actual; exact c7full⟩

/-- **C8.**  Lexing the two-character input `"` `\` yields exactly one token
whose diagnostics are exactly two, in order: first the unterminated
escape sequence (code E003, the code after the `\` arm of `read_string`
when `advance` returns `None`), then the unterminated string literal
(code E004). -/
theorem c8_dangling_backslash_eval :
    Lexer.lexStr "\"\\" =
      [⟨.Error "String literal error", Span.new ⟨1, 1, 0⟩ ⟨1, 3, 2⟩,
        [⟨some "E003", "Unterminated escape sequence",
           some "Unterminated escape sequence", Span.new ⟨1, 3, 2⟩ ⟨1, 3, 2⟩⟩,
         ⟨some "E004", "Unterminated string literal",
           some "Unterminated string", Span.new ⟨1, 1, 0⟩ ⟨1, 3, 2⟩⟩]⟩] := rfl

/-- **C9.**  The lexer-token to parser-token adapter is a total function
(manifest from its type) that (i) depends only on `token_type` — span
and diagnostics are dropped for every token; (ii) maps every `Error(_)`
token to the sentinel `Identifier("unknown")`; and (iii) maps every
`Keyword` whose text is not one of let/var/fn/class/return — in
particular the lexed keywords "if", "else" and "type" — to the same
sentinel. -/
theorem c9_adapter_sentinel :
    (∀ (tt : TokenType) (sp sp2 : Span) (errs errs2 : List DiagnosticError),
      ParserToken.ofToken ⟨tt, sp, errs⟩ = ParserToken.ofToken ⟨tt, sp2, errs2⟩) ∧
    (∀ (s : String) (sp : Span) (errs : List DiagnosticError),
      ParserToken.ofToken ⟨.Error s, sp, errs⟩ = ⟨.Identifier "unknown"⟩) ∧
    (∀ (kw : String) (sp : Span) (errs : List DiagnosticError),
      kw ∉ (["let", "var", "fn", "class", "return"] : List String) →
        ParserToken.ofToken ⟨.Keyword kw, sp, errs⟩ = ⟨.Identifier "unknown"⟩) := by
  refine ⟨fun tt sp sp2 errs errs2 => rfl, fun s sp errs => rfl, ?_⟩
  intro kw sp errs h
  have h1 : kw ≠ "let" := fun e => h (by simp [e])
  have h2 : kw ≠ "var" := fun e => h (by simp [e])
  have h3 : kw ≠ "fn" := fun e => h (by simp [e])
  have h4 : kw ≠ "class" := fun e => h (by simp [e])
  have h5 : kw ≠ "return" := fun e => h (by simp [e])
  simp [ParserToken.ofToken, h1, h2, h3, h4, h5]

/-- **C9, witness.**  The lexed keyword "if" is outside the adapter's
five-keyword list and degrades to the sentinel identifier. -/
theorem c9_adapter_sentinel_witness :
    ("if" : String) ∉ (["let", "var", "fn", "class", "return"] : List String) ∧
    ParserToken.ofToken ⟨.Keyword "if", Span.new ⟨1, 1, 0⟩ ⟨1, 3, 2⟩, []⟩ =
      ⟨.Identifier "unknown"⟩ :=
  ⟨by decide, c9_adapter_sentinel.2.2 "if" (Span.new ⟨1, 1, 0⟩ ⟨1, 3, 2⟩) [] (by decide)⟩


/-- **C10.**  For every nonempty token vector whose last element — and no
other — has kind `Eof`, no parser operation reachable from
`parse_program` ever indexes the token vector out of bounds: in this
total embedding, where every `self.tokens[...]` read is an `Option`
lookup and the `usize` underflow of `current - 1` is also routed to the
`.oob` outcome, `parse_program` never returns `.oob` at any fuel budget,
whether parsing succeeds or returns a `ParseError`. -/
theorem c10_no_out_of_bounds (tokens : List ParserToken) (fuel : Nat)
    (hw : Parser.WFTokens tokens) :
    Parser.parse_program tokens fuel 0 ≠ PResult.oob := by
  have h0 : Parser.InB tokens 0 := List.length_pos.mpr hw.1
  exact ((Parser.safeProds_prods tokens hw fuel).parse_program_loop [] 0 h0).1

/-- Witness for C10: the one-token vector `[Eof]` satisfies the
well-formedness precondition, and parsing it reaches no out-of-bounds
access. -/
theorem c10_no_out_of_bounds_witness :
    Parser.WFTokens [⟨.Eof⟩] ∧ Parser.parse_program [⟨.Eof⟩] 5 0 ≠ PResult.oob :=
  ⟨by unfold Parser.WFTokens; decide,
   c10_no_out_of_bounds [⟨.Eof⟩] 5 (by unfold Parser.WFTokens; decide)⟩

end Exx
